import Mathlib

/-!
# Kagami: tokenizer, evaluator, entry registry and object model

A shallow embedding of `src/parser.cpp`, `src/parser.h` and `src/object.h`.

Conventions of the embedding

* `std::string` is `String`, `vector`, `deque` and `stack` are `List` with the
  front at the head of the list and the back at its end.
* Reading or writing outside a container, following a null or dangling
  pointer, and the other undefined behaviours of the source are results
  `Except.error` carrying a `Fault`.
* `size_t` is a natural number below `2 ^ 64`; `int` is an integer.
* The process wide diagnostic log `Tracking::base` and the list of callable
  invocations are carried in a `World` value.
-/

namespace Kagami

/-! ## Faults -/

/-- The undefined or aborting behaviours of the source that the embedding makes explicit. -/
inductive Fault where
  /-- read or write outside the bounds of a string, deque or vector (`back()`, `pop_back()`,
  `operator[]`, `insert` past the end on a container that does not hold the element) -/
  | outOfRange
  /-- `deque::at` with an index outside the deque: `std::out_of_range` is thrown and not caught -/
  | atThrows
  /-- a null pointer is followed -/
  | nullDeref
  /-- a pointer to an object that no longer exists is followed -/
  | dangling
  /-- `optional::value()` on an empty optional -/
  | badOptionalAccess
  /-- the recursion budget of a model function ran out -/
  | fuel
deriving DecidableEq, Repr

deriving instance DecidableEq for Except

/-! ## Constants of `includes.h` -/

/-- Modelled from the spec: `kStrEmpty` is declared in `includes.h`, which is not among the
sources; it is the empty string (`Build` tests `target == kStrEmpty` for the empty line). -/
def kStrEmpty : String := ""

/-- Modelled from the spec: `kStrNull` of `includes.h`, the name of an entry that was not
found. -/
def kStrNull : String := "null"

/-- Modelled from the spec: `kStrFatalError` of `includes.h`, the value of a result of
`FatalError` severity. -/
def kStrFatalError : String := "__FATAL"

/-- Modelled from the spec: `kStrWarning` of `includes.h`, the value of a result of `Warning`
severity. -/
def kStrWarning : String := "__WARNING"

/-- Modelled from the spec: `kStrEOF` of `includes.h`, the end of input sentinel. -/
def kStrEOF : String := "__EOF"

/-- Modelled from the spec: `kStrRedirect` of `includes.h`, the value of a result whose detail
is the primary value to be pushed on the item stack. -/
def kStrRedirect : String := "__*__"

/-- Modelled from the spec: `kStrTrue` of `includes.h`. -/
def kStrTrue : String := "true"

/-- Modelled from the spec: `kStrFalse` of `includes.h`. -/
def kStrFalse : String := "false"

/-- Modelled from the spec: `kCodeSuccess` of `includes.h`; failure codes are below it. -/
def kCodeSuccess : Int := 0

/-- Modelled from the spec: `kCodeNothing` of `includes.h`, a success without a value. -/
def kCodeNothing : Int := 1

/-- Modelled from the spec: `kCodeBrokenEntry` of `includes.h`, the broken entry code. -/
def kCodeBrokenEntry : Int := -1

/-- Modelled from the spec: `kCodeOverflow` of `includes.h`, the counter overflow code. -/
def kCodeOverflow : Int := -2

/-- Modelled from the spec: `kCodeIllegalArgs` of `includes.h`, the parameter count mismatch
code. -/
def kCodeIllegalArgs : Int := -3

/-- Modelled from the spec: `kCodeIllegalCall` of `includes.h`, the unresolved entry code. -/
def kCodeIllegalCall : Int := -4

/-- Modelled from the spec: `kCodeIllegalSymbol` of `includes.h`, the illegal symbol or
unbalanced bracket code. -/
def kCodeIllegalSymbol : Int := -5

/-- Modelled from the spec: `kCodeBadStream` of `includes.h`, the unreadable input code. -/
def kCodeBadStream : Int := -6

/-- Modelled from the spec: `kFlagNormalEntry` of `includes.h`, the `Normal` tier. -/
def kFlagNormalEntry : Int := 1

/-- Modelled from the spec: `kFlagBinEntry` of `includes.h`, the `BinaryOperator` tier. -/
def kFlagBinEntry : Int := 2

/-- Modelled from the spec: `kFlagPluginEntry` of `includes.h`, the `Plugin` tier. -/
def kFlagPluginEntry : Int := 3

/-- Modelled from the spec: `kFlagAutoSize` of `includes.h`, the `AutoSize` sentinel of the
required count. -/
def kFlagAutoSize : Int := -1

/-- Modelled from the spec: `kFlagNotDefined` of `includes.h`, the `Undefined` sentinel of the
required count; `EntryProvider::Good` compares the count with the literal `-2`. -/
def kFlagNotDefined : Int := -2

/-- Modelled from the spec: the type codes `kTypeFunction` .. `kTypeSymbol` of `includes.h`,
pairwise distinct and distinct from `kCodeIllegalArgs`. -/
def kTypeFunction : Int := 10

/-- Modelled from the spec: see `kTypeFunction`. -/
def kTypeString : Int := 11

/-- Modelled from the spec: see `kTypeFunction`. -/
def kTypeBoolean : Int := 12

/-- Modelled from the spec: see `kTypeFunction`. -/
def kTypeInteger : Int := 13

/-- Modelled from the spec: see `kTypeFunction`. -/
def KTypeDouble : Int := 14

/-- Modelled from the spec: see `kTypeFunction`. -/
def kTypeSymbol : Int := 15

/-! ## Diagnostic results -/

/-- Modelled from the spec: class `Message` of `includes.h`: a value (the severity string or a
primary value), a numeric code and a free text detail. -/
structure Message where
  value : String
  code : Int
  detail : String
deriving DecidableEq, Repr

/-- Modelled from the spec: the default constructor `Message()`: a success without text. -/
def Message.default : Message := ⟨kStrEmpty, kCodeSuccess, kStrEmpty⟩

/-- Modelled from the spec: `Message::combo` overwrites the three fields and returns the
message. -/
def Message.combo (_self : Message) (value : String) (code : Int) (detail : String) : Message :=
  ⟨value, code, detail⟩

/-- `Message::SetCode`. -/
def Message.SetCode (self : Message) (code : Int) : Message := { self with code := code }

/-- `Message::SetDetail`. -/
def Message.SetDetail (self : Message) (detail : String) : Message := { self with detail := detail }

/-- `Message::SetValue`. -/
def Message.SetValue (self : Message) (value : String) : Message := { self with value := value }

/-! ## Regular expressions of `parser.h` -/

/-- The class `[[:punct:]]` in the C locale. -/
def isPunct (c : Char) : Bool :=
  (33 ≤ c.toNat && c.toNat ≤ 47) || (58 ≤ c.toNat && c.toNat ≤ 64) ||
  (91 ≤ c.toNat && c.toNat ≤ 96) || (123 ≤ c.toNat && c.toNat ≤ 126)

/-- The class `[a-zA-Z_]`. -/
def isIdentStart (c : Char) : Bool :=
  (97 ≤ c.toNat && c.toNat ≤ 122) || (65 ≤ c.toNat && c.toNat ≤ 90) || c == '_'

/-- The class `\d`. -/
def isDigit (c : Char) : Bool := 48 ≤ c.toNat && c.toNat ≤ 57

/-- The class `[a-zA-Z_0-9]`. -/
def isIdentChar (c : Char) : Bool := isIdentStart c || isDigit c

/-- Whole string match of `kPatternFunction`, `[a-zA-Z_][a-zA-Z_0-9]*`. -/
def kPatternFunction (s : String) : Bool :=
  match s.data with
  | [] => false
  | c :: cs => isIdentStart c && cs.all isIdentChar

/-- Modelled from the spec: `kPatternString` is used by `Util::GetDataType` but its declaration
in `parser.h` is commented out; the commented pattern `"(\"|\\|\n|\t|[^"]|[[:Punct:]])*"` matches
the strings of at least two characters that start and end with a double quote. -/
def kPatternString (s : String) : Bool :=
  match s.data with
  | c :: d :: cs => c == '"' && (d :: cs).getLast? == some '"'
  | _ => false

/-- Whole string match of the digits `\d+`. -/
def isDigits (cs : List Char) : Bool := cs != [] && cs.all isDigit

/-- Whole string match of `kPatternInteger`, `[-]?\d+`. -/
def kPatternInteger (s : String) : Bool :=
  match s.data with
  | '-' :: cs => isDigits cs
  | cs => isDigits cs

/-- Whole string match of `\d+\.\d+`. -/
def isDecimal (cs : List Char) : Bool :=
  isDigits (cs.takeWhile isDigit) &&
  (match cs.dropWhile isDigit with
   | '.' :: ds => isDigits ds
   | _ => false)

/-- Whole string match of `kPatternDouble`, `[-]?\d+\.\d+`. -/
def kPatternDouble (s : String) : Bool :=
  match s.data with
  | '-' :: cs => isDecimal cs
  | cs => isDecimal cs

/-- Whole string match of `kPatternBoolean`, `\btrue\b|\bfalse\b`. -/
def kPatternBoolean (s : String) : Bool := s == "true" || s == "false"

/-- Whole string match of `kPatternSymbol`, `==|<=|>=|&&|\|\||[[:Punct:]]`. -/
def kPatternSymbol (s : String) : Bool :=
  s == "==" || s == "<=" || s == ">=" || s == "&&" || s == "||" ||
  (match s.data with
   | [c] => isPunct c
   | _ => false)

/-- Whole string match of `kPatternBlank`, `[[:blank:]]`, on the one character string of `c`. -/
def kPatternBlank (c : Char) : Bool := c == ' ' || c == '\t'

/-- `Util::GetDataType`: the type code of a token, `kCodeIllegalArgs` when no pattern matches. -/
def Util.GetDataType (target : String) : Message :=
  let result : Message := ⟨kStrRedirect, kCodeIllegalArgs, ""⟩
  if kPatternFunction target then result.SetCode kTypeFunction
  else if kPatternString target then result.SetCode kTypeString
  else if kPatternBoolean target then result.SetCode kTypeBoolean
  else if kPatternInteger target then result.SetCode kTypeInteger
  else if kPatternDouble target then result.SetCode KTypeDouble
  else if kPatternSymbol target then result.SetCode kTypeSymbol
  else result.SetDetail "No match type."

/-- `Util::Compare`: membership of `source` in `list`. -/
def Util.Compare (source : String) (list : List String) : Bool :=
  list.any (fun unit => unit == source)

/-! ## The tokenizer `Chainloader::Build` -/

/-- The local variables of the scanning loop of `Chainloader::Build`. -/
structure BuildState where
  output : List String
  current : String
  /-- the pending first character of a two character operator, `NULL` is the character 0 -/
  binaryoptchar : Char
  headlock : Bool
  allowblank : Bool
deriving DecidableEq, Repr

/-- The start of the scanning loop. -/
def BuildState.init : BuildState := ⟨[], kStrEmpty, Char.ofNat 0, false, false⟩

/-- The statements `if (current != kStrEmpty) output.push_back(current);
output.push_back(ToString(target[i])); current = kStrEmpty;`. -/
def BuildState.emit (s : BuildState) (c : Char) : BuildState :=
  { s with
    output := (if s.current != kStrEmpty then s.output ++ [s.current] else s.output)
                ++ [String.singleton c]
    current := kStrEmpty }

/-- The statement `current.append(1, target[i])`. -/
def BuildState.append (s : BuildState) (c : Char) : BuildState :=
  { s with current := s.current.push c }

/-- The update of `allowblank` at a double quote, lines 258 to 265: `prev` is `target[i - 1]`,
absent when `i = 0`, where the source reads outside the string. -/
def BuildQuoteToggle (prev : Option Char) (s : BuildState) : Except Fault BuildState :=
  if s.allowblank then
    match prev with
    | none => .error .outOfRange
    | some p => if p != '\\' then .ok { s with allowblank := false } else .ok s
  else .ok { s with allowblank := true }

/-- The `switch` of the scanning loop, lines 268 to 352, on the character `c = target[i]` with
`prev = target[i - 1]` (absent when `i = 0`) and `next = target[i + 1]` (absent when
`i + 1 = size`). -/
def BuildSwitch (prev : Option Char) (c : Char) (next : Option Char) (s : BuildState) :
    Except Fault BuildState :=
  if c == '(' || c == ',' || c == ')' || c == '{' || c == '}' || c == ':' ||
     c == '+' || c == '-' || c == '*' || c == '/' then
    if s.allowblank then .ok (s.append c) else .ok (s.emit c)
  else if c == '"' then
    if s.allowblank then
      match prev with
      | none => .error .outOfRange
      | some p => if p == '\\' then .ok (s.append c) else .ok (s.emit c)
    else .ok (s.emit c)
  else if c == '=' || c == '>' || c == '<' then
    if s.allowblank then .ok (s.append c)
    else if next == some '=' then
      .ok { s with
            binaryoptchar := c
            output := if s.current != kStrEmpty then s.output ++ [s.current] else s.output
            current := kStrEmpty }
    else if s.binaryoptchar != Char.ofNat 0 then
      let binaryopt : String := String.mk [s.binaryoptchar, c]
      if (Util.GetDataType binaryopt).code == kTypeSymbol then
        .ok { s with output := s.output ++ [binaryopt], binaryoptchar := Char.ofNat 0 }
      else .ok s
    else .ok (s.emit c)
  else if c == ' ' || c == '\t' then
    if s.allowblank then .ok (s.append c)
    else if Util.Compare s.current ["var", "def", "return"] && s.output.isEmpty then
      if next.isSome && next != some ' ' && next != some '\t' then
        .ok { s with output := s.output ++ [s.current], current := kStrEmpty }
      else .ok s
    else if (match next with
             | some n => kPatternSymbol (String.singleton n)
             | none => false) then .ok s
    else
      match prev with
      | none => .error .outOfRange
      | some _ => .ok s
  else .ok (s.append c)

/-- One iteration of the scanning loop, lines 248 to 352. -/
def BuildStep (prev : Option Char) (c : Char) (next : Option Char) (s : BuildState) :
    Except Fault BuildState :=
  if s.headlock == false && kPatternBlank c then .ok s
  else
    let s1 : BuildState := if s.headlock == false then { s with headlock := true } else s
    if c == '"' then
      match BuildQuoteToggle prev s1 with
      | .error e => .error e
      | .ok s2 => BuildSwitch prev c next s2
    else BuildSwitch prev c next s1

/-- The scanning loop `for (i = 0; i < size; i++)` on the characters not yet read; `prev` is
the character before them. -/
def BuildLoop (prev : Option Char) : List Char → BuildState → Except Fault BuildState
  | [], s => .ok s
  | c :: rest, s =>
    match BuildStep prev c rest.head? s with
    | .error e => .error e
    | .ok s1 => BuildLoop (some c) rest s1

/-- The class `Chainloader`: the token sequence `raw`. -/
structure Chainloader where
  raw : List String
deriving DecidableEq, Repr

/-- `Chainloader::Reset`. -/
def Chainloader.Reset (_self : Chainloader) : Chainloader := ⟨[]⟩

/-- `Chainloader::Build(string target)`: the new state of the chainloader and the messages
logged. An empty line logs a warning and leaves `raw` as it is; otherwise `raw` becomes the
`output` of the scanning loop (the text left in `current` is not copied). -/
def Chainloader.Build (self : Chainloader) (target : String) :
    Except Fault (Chainloader × List Message) :=
  if target == kStrEmpty then
    .ok (self, [⟨kStrWarning, kCodeIllegalArgs, "Chainloader::Build() 1"⟩])
  else
    match BuildLoop none target.data BuildState.init with
    | .error e => .error e
    | .ok s => .ok ({ self with raw := s.output }, [])

/-- The tokens of a line: `raw` after `Build` on a fresh chainloader. -/
def tokens (target : String) : Except Fault (List String) :=
  match Chainloader.Build ⟨[]⟩ target with
  | .error e => .error e
  | .ok r => .ok r.1.raw

/-! ## The entry registry, namespace `Entry` -/

/-- One invocation of the callable of an entry: the name of the entry and the argument list. -/
structure Call where
  name : String
  args : List String
deriving DecidableEq, Repr

/-- The state outside the evaluator: the diagnostic log `Tracking::base` and the invocations of
callables made so far, oldest first. -/
structure World where
  log : List Message
  calls : List Call
deriving DecidableEq, Repr

/-- `Tracking::log`. -/
def World.logMsg (w : World) (msg : Message) : World := { w with log := w.log ++ [msg] }

/-- Record an invocation of a callable. -/
def World.call (w : World) (name : String) (args : List String) : World :=
  { w with calls := w.calls ++ [⟨name, args⟩] }

/-- The class `EntryProvider`. A callable is a function from the argument list to its result;
a null function pointer is `none`. -/
structure EntryProvider where
  name : String
  activity : Option (List String → Message)
  activity2 : Option (List String → Message)
  requiredcount : Int
  priority : Int

/-- The default constructor `EntryProvider()`: name `kStrNull`, no callable, required count
`kFlagNotDefined`. The source leaves `activity2` and `priority` without a value; the embedding
takes the null pointer and the tier number 0, which is none of the three tiers. -/
def EntryProvider.default : EntryProvider := ⟨kStrNull, none, none, kFlagNotDefined, 0⟩

/-- `EntryProvider::Good`. -/
def EntryProvider.Good (self : EntryProvider) : Bool :=
  (self.activity.isSome || self.activity2.isSome) && self.requiredcount != -2

/-- Conversion of an `int` to `size_t`. -/
def toSizeT (n : Int) : Nat := (n % 2 ^ 64).toNat

/-- The `size_t` subtraction `k -= n` with an `int` operand `n`. -/
def subSizeT (k : Nat) (n : Int) : Nat := (((k : Int) - n) % 2 ^ 64).toNat

/-- `EntryProvider::StartActivity`, lines 539 to 564. -/
def EntryProvider.StartActivity (self : EntryProvider) (p : List String) (w : World) :
    Except Fault (Message × World) :=
  if self.priority == kFlagPluginEntry then
    match self.activity2 with
    | none => .error .nullDeref
    | some f => .ok (f p, w.call self.name p)
  else
    if p.length == toSizeT self.requiredcount || self.requiredcount == kFlagAutoSize then
      match self.activity with
      | none => .error .nullDeref
      | some f => .ok (f p, w.call self.name p)
    else
      if self.requiredcount == kFlagNotDefined then
        let result := Message.default.combo kStrFatalError kCodeBrokenEntry
          ("Illegal Entry - ".append self.name)
        .ok (result, w.logMsg result)
      else
        let result := Message.default.combo kStrFatalError kCodeIllegalArgs
          ("Parameter count doesn't match - ".append self.name)
        .ok (result, w.logMsg result)

/-- `Entry::Inject`. -/
def Entry.Inject (base : List EntryProvider) (provider : EntryProvider) : List EntryProvider :=
  base ++ [provider]

/-- The loop of `Entry::FastOrder` over the registry. -/
def Entry.FastOrderLoop (name : String) (res : List String) :
    List EntryProvider → Message → World → Except Fault (Message × World)
  | [], result, w => .ok (result, w)
  | unit :: rest, result, w =>
    if unit.name == name then
      match unit.StartActivity res w with
      | .error e => .error e
      | .ok (r, w1) => Entry.FastOrderLoop name res rest r w1
    else Entry.FastOrderLoop name res rest result w

/-- `Entry::FastOrder`. -/
def Entry.FastOrder (base : List EntryProvider) (name : String) (res : List String) (w : World) :
    Except Fault (Message × World) :=
  Entry.FastOrderLoop name res base ⟨kStrFatalError, kCodeIllegalCall, "Entry Not Found."⟩ w

/-- `Entry::Order`: the last entry of that name, the default entry when there is none. -/
def Entry.Order (base : List EntryProvider) (name : String) : EntryProvider :=
  base.foldl (fun result unit => if unit.name == name then unit else result)
    EntryProvider.default

/-- `Entry::Query`, lines 39 to 54. -/
def Entry.Query (base : List EntryProvider) (target : String) : EntryProvider :=
  let result := EntryProvider.default
  let result :=
    if target == "+" || target == "-" || target == "*" || target == "/" then
      Entry.Order base "binexp"
    else result
  if target == "=" then Entry.Order base "set"
  else
    base.foldl (fun result unit =>
      if unit.name == target && unit.priority == kFlagNormalEntry then unit else result) result

/-- `Entry::FastGetCount`, lines 56 to 66. -/
def Entry.FastGetCount (base : List EntryProvider) (target : String) : Int :=
  if target == "+" || target == "-" || target == "*" || target == "/" then
    (Entry.Order base "binexp").requiredcount - 1
  else
    match base.find? (fun unit => unit.name == target) with
    | some unit => unit.requiredcount
    | none => kFlagNotDefined

/-! ## The evaluator `Chainloader::Start` -/

/-- `Chainloader::GetPriority`. -/
def GetPriority (target : String) : Nat :=
  if target == "+" || target == "-" then 1
  else if target == "*" || target == "/" || target == "\\" then 2
  else 3

/-- The local variables of `Chainloader::Start` that live across iterations, with the state
outside the evaluator. The stacks have their top at the end of the list. -/
structure StartState where
  item : List String
  symbol : List String
  container0 : List String
  container1 : List String
  provider : EntryProvider
  result : Message
  nextinspoint : Nat
  directappend : Bool
  forwardinsert : Bool
  world : World

/-- The values of the locals at the start of `Chainloader::Start`. -/
def StartState.init (w : World) : StartState :=
  ⟨[], [], [], [], EntryProvider.default, Message.default, 0, false, false, w⟩

/-- `back()` of a deque; outside the deque when it is empty. -/
def back (d : List String) : Except Fault String :=
  match d.getLast? with
  | none => .error .outOfRange
  | some x => .ok x

/-- `Util::ActivityStart`, lines 110 to 147: the returned flag and the state with `item`, `msg`
(the `result` of `Start`) and the log updated. -/
def Util.ActivityStart (provider : EntryProvider) (container : List String) (s : StartState) :
    Except Fault (Bool × StartState) :=
  if provider.Good then
    match provider.StartActivity container s.world with
    | .error e => .error e
    | .ok (temp, w1) =>
      let s1 : StartState :=
        if temp.code < kCodeSuccess then { s with world := w1.logMsg temp, result := temp }
        else { s with world := w1 }
      if temp.value == kStrRedirect then
        .ok (true, { s1 with item := s1.item ++ [temp.detail] })
      else if temp.code == kCodeSuccess || temp.code == kCodeNothing then
        .ok (true, { s1 with item := s1.item ++ [kStrTrue] })
      else
        .ok (true, { s1 with item := s1.item ++ [kStrFalse] })
  else
    let msg := s.result.combo kStrFatalError kCodeIllegalCall "Activity not found"
    .ok (false, { s with result := msg, world := s.world.logMsg msg })

/-- The loop `while (j != 0 && item.empty() != true)` of `StartCode`: the final `container0`
and `item`. -/
def StartCodeLoop : Nat → List String → List String → List String × List String
  | 0, container0, item => (container0, item)
  | j + 1, container0, item =>
    match item.getLast? with
    | none => (container0, item)
    | some x => StartCodeLoop j (container0 ++ [x]) item.dropLast

/-- The lambda `StartCode` of `Chainloader::Start`, lines 388 to 402. -/
def StartCode (s : StartState) : Except Fault (Bool × StartState) :=
  let j := toSizeT s.provider.requiredcount
  let j := if s.provider.priority == kFlagBinEntry then subSizeT j 1 else j
  let (container0, item) := StartCodeLoop j [] s.item
  if s.provider.priority == kFlagBinEntry then
    match back s.symbol with
    | .error e => .error e
    | .ok top =>
      Util.ActivityStart s.provider (container0 ++ [top])
        { s with container0 := container0 ++ [top], item := item }
  else
    Util.ActivityStart s.provider container0 { s with container0 := container0, item := item }

/-- `pop_back()` of a deque; outside the deque when it is empty. -/
def popBack (d : List String) : Except Fault (List String) :=
  match d with
  | [] => .error .outOfRange
  | _ :: _ => .ok d.dropLast

/-- `insert(begin() + pos, x)` of a deque; outside the deque when `pos` is past its end. -/
def insertAt (d : List String) (pos : Nat) (x : String) : Except Fault (List String) :=
  if pos ≤ d.length then .ok (d.take pos ++ x :: d.drop pos) else .error .outOfRange

/-- `item.back().append(x)`; outside the deque when it is empty. -/
def appendBack (d : List String) (x : String) : Except Fault (List String) :=
  match d.getLast? with
  | none => .error .outOfRange
  | some top => .ok (d.dropLast ++ [top.append x])

/-- The assignment to `k` in one iteration of the insertion point scan, lines 465 and 466:
the condition `k = item.size()` is an assignment, so `k` restarts from the size of the item
stack in every iteration. -/
def ScanK (base : List EntryProvider) (item : List String) (sym : String) : Nat :=
  if item.length != 0 then subSizeT item.length (Entry.FastGetCount base sym)
  else subSizeT 0 (Entry.FastGetCount base sym - 1)

/-- The insertion point scan, lines 464 to 468, started at index `j` with the value `k`:
the final `j` and `k`. `symbol.at(j)` throws outside the deque, which is where `--j` leads
from index 0. -/
def ScanLoop (base : List EntryProvider) (tok : String) (symbol item : List String) :
    Nat → Nat → Except Fault (Nat × Nat)
  | 0, k =>
    match symbol[0]? with
    | none => .error .atThrows
    | some sym =>
      if sym != "(" && GetPriority tok < GetPriority sym then .error .atThrows
      else .ok (0, k)
  | j + 1, k =>
    match symbol[j + 1]? with
    | none => .error .atThrows
    | some sym =>
      if sym != "(" && GetPriority tok < GetPriority sym then
        ScanLoop base tok symbol item j (ScanK base item sym)
      else .ok (j + 1, k)

/-- The branch of a binary operator token, lines 460 to 478. -/
def StartOperator (base : List EntryProvider) (tok : String) (s : StartState) :
    Except Fault StartState :=
  match back s.symbol with
  | .error e => .error e
  | .ok top =>
    if GetPriority tok < GetPriority top && top != "(" then
      match ScanLoop base tok s.symbol s.item (s.symbol.length - 1) s.item.length with
      | .error e => .error e
      | .ok (j, k) =>
        match insertAt s.symbol (j + 1) tok with
        | .error e => .error e
        | .ok symbol => .ok { s with symbol := symbol, nextinspoint := k, forwardinsert := true }
    else .ok { s with symbol := s.symbol ++ [tok] }

/-- The loop `while (symbol.back() != "(" && symbol.empty() != true)` of the closing bracket,
lines 433 to 446, with a budget of iterations: the state at the exit of the loop. -/
def BracketLoop (base : List EntryProvider) : Nat → StartState → Except Fault StartState
  | 0, _ => .error .fuel
  | n + 1, s =>
    match back s.symbol with
    | .error e => .error e
    | .ok top =>
      if top != "(" && !s.symbol.isEmpty then
        let step : Except Fault StartState :=
          if top == "," then
            match back s.item, popBack s.item, popBack s.symbol with
            | .ok x, .ok item, .ok symbol =>
              .ok { s with container1 := s.container1 ++ [x], item := item, symbol := symbol }
            | _, _, _ => .error .outOfRange
          else .ok s
        match step with
        | .error e => .error e
        | .ok s1 =>
          match back s1.symbol with
          | .error e => .error e
          | .ok top1 =>
            match StartCode { s1 with container0 := [], provider := Entry.Query base top1 } with
            | .error e => .error e
            | .ok (entryresult, s2) =>
              if entryresult == false then .ok s2
              else
                match popBack s2.symbol with
                | .error e => .error e
                | .ok symbol => BracketLoop base n { s2 with symbol := symbol }
      else .ok s

/-- The branch of the closing bracket, lines 431 to 457: the state and whether the token loop
is left by `break`. -/
def StartBracket (base : List EntryProvider) (s : StartState) :
    Except Fault (StartState × Bool) :=
  match BracketLoop base (s.symbol.length + 1) s with
  | .error e => .error e
  | .ok s1 =>
    match back s1.symbol with
    | .error e => .error e
    | .ok top =>
      let s2 : StartState := if top == "(" then { s1 with symbol := s1.symbol.dropLast } else s1
      let s3 : StartState :=
        match s2.container1.getLast? with
        | some x => { s2 with item := s2.item ++ [x], container1 := s2.container1.dropLast }
        | none => s2
      match back s3.symbol with
      | .error e => .error e
      | .ok top3 =>
        match StartCode { s3 with provider := Entry.Query base top3 } with
        | .error e => .error e
        | .ok (entryresult, s4) =>
          match popBack s4.symbol with
          | .error e => .error e
          | .ok symbol => .ok ({ s4 with symbol := symbol }, entryresult == false)

/-- The branch of a token that matches `kPatternSymbol`, lines 405 to 480. -/
def StartSymbol (base : List EntryProvider) (tok : String) (s : StartState) :
    Except Fault (StartState × Bool) :=
  let first : Except Fault StartState :=
    if tok == "=" then
      match back s.symbol with
      | .error e => .error e
      | .ok top => if top != "var" then .ok { s with symbol := s.symbol ++ [tok] } else .ok s
    else .ok s
  match first with
  | .error e => .error e
  | .ok s1 =>
    if tok == "\"" then
      if s1.directappend then
        match appendBack s1.item tok with
        | .error e => .error e
        | .ok item => .ok ({ s1 with item := item, directappend := !s1.directappend }, false)
      else .ok ({ s1 with item := s1.item ++ [tok], directappend := !s1.directappend }, false)
    else if tok == "," then .ok ({ s1 with symbol := s1.symbol ++ [tok] }, false)
    else if tok == "(" then
      let marker : Bool :=
        match s1.symbol.getLast? with
        | none => true
        | some top => kPatternSymbol top
      .ok ({ s1 with symbol := (if marker then s1.symbol ++ ["commaexp"] else s1.symbol) ++ [tok] },
           false)
    else if tok == ")" then StartBracket base s1
    else
      match StartOperator base tok s1 with
      | .error e => .error e
      | .ok s2 => .ok (s2, false)

/-- The branch of a token that matches `kPatternFunction`, lines 481 to 499. -/
def StartFunction (base : List EntryProvider) (tok : String) (s : StartState) :
    Except Fault (StartState × Bool) :=
  let provider := Entry.Query base tok
  if provider.Good then
    .ok ({ s with provider := provider, symbol := s.symbol ++ [tok] }, false)
  else
    let container0 := [tok, kStrFalse]
    match Entry.FastOrder base "vfind" container0 s.world with
    | .error e => .error e
    | .ok (tempresult, w) =>
      let s1 : StartState := { s with provider := provider, container0 := container0, world := w }
      if tempresult.code != kCodeIllegalCall then
        .ok ({ s1 with item := s1.item ++ [tempresult.detail] }, false)
      else .ok ({ s1 with result := tempresult }, true)

/-- The branch of any other token, lines 500 to 514. -/
def StartLiteral (tok : String) (s : StartState) : Except Fault (StartState × Bool) :=
  if s.forwardinsert then
    match insertAt s.item s.nextinspoint tok with
    | .error e => .error e
    | .ok item => .ok ({ s with item := item, forwardinsert := false }, false)
  else if s.directappend then
    match appendBack s.item tok with
    | .error e => .error e
    | .ok item => .ok ({ s with item := item }, false)
  else .ok ({ s with item := s.item ++ [tok] }, false)

/-- The body of the token loop, lines 405 to 514, on the token `raw[i]`. -/
def StartToken (base : List EntryProvider) (tok : String) (s : StartState) :
    Except Fault (StartState × Bool) :=
  if kPatternSymbol tok then StartSymbol base tok s
  else if kPatternFunction tok then StartFunction base tok s
  else StartLiteral tok s

/-- The token loop `for (i = 0; i < size; ++i)`, lines 404 to 515, on the tokens not yet
read. -/
def StartLoop (base : List EntryProvider) : List String → StartState → Except Fault StartState
  | [], s => .ok s
  | tok :: rest, s =>
    match StartToken base tok s with
    | .error e => .error e
    | .ok (s1, true) => .ok s1
    | .ok (s1, false) => StartLoop base rest s1

/-- The loop `while (symbol.empty() != true)` that drains the symbol stack, lines 517 to 532,
with a budget of iterations. -/
def DrainLoop (base : List EntryProvider) : Nat → StartState → Except Fault StartState
  | 0, s => if s.symbol.isEmpty then .ok s else .error .fuel
  | n + 1, s =>
    match s.symbol.getLast? with
    | none => .ok s
    | some top =>
      let s0 : StartState := { s with container0 := [] }
      if s0.item.isEmpty then
        .ok { s0 with result := s0.result.combo kStrFatalError kCodeIllegalSymbol
                                   "Parameters expected." }
      else if top == "(" || top == ")" then
        .ok { s0 with result := s0.result.combo kStrFatalError kCodeIllegalSymbol
                                   "Another bracket expected." }
      else
        match StartCode { s0 with provider := Entry.Query base top } with
        | .error e => .error e
        | .ok (entryresult, s1) =>
          if entryresult == false then .ok s1
          else DrainLoop base n { s1 with symbol := s1.symbol.dropLast }

/-- `Chainloader::Start` up to the final clean up of the stacks, lines 369 to 532: the values
of the locals when the symbol stack has been drained. -/
def Chainloader.StartRun (self : Chainloader) (base : List EntryProvider) (w : World) :
    Except Fault StartState :=
  match StartLoop base self.raw (StartState.init w) with
  | .error e => .error e
  | .ok s => DrainLoop base s.symbol.length s

/-- `Chainloader::Start`: the returned result and the state outside the evaluator. -/
def Chainloader.Start (self : Chainloader) (base : List EntryProvider) (w : World) :
    Except Fault (Message × World) :=
  match self.StartRun base w with
  | .error e => .error e
  | .ok s => .ok (s.result, s.world)

/-! ## The object model of `object.h` -/

/-- Modelled from the spec: `kTypeIdNull` of `common.h`, which is not among the sources: the
type tag of the empty value. -/
def kTypeIdNull : String := "null"

/-- Modelled from the spec: `kTypeIdString` of `common.h`: the type tag of a string. -/
def kTypeIdString : String := "string"

/-- Modelled from the spec: `kTypeIdStruct` of `common.h`: the type tag of a struct. -/
def kTypeIdStruct : String := "struct"

/-- `enum ObjectMode`. -/
inductive ObjectMode where
  | kObjectNormal
  | kObjectRef
  | kObjectExternal
  | kObjectDelegator
deriving DecidableEq, Repr

/-- `struct ObjectInfo`. A pointer is the address of an object, a natural number; the null
pointer is `none`. -/
structure ObjectInfo where
  real_dest : Option Nat
  mode : ObjectMode
  delivering : Bool
  sub_container : Bool
  alive : Bool
  type_id : String
deriving DecidableEq, Repr

/-- `class Object`: the metadata `info_`, the back-link set `links_` and the payload handle of
the base class `shared_ptr<void>`, a number or null. -/
structure Object where
  info_ : ObjectInfo
  links_ : Option (List Nat)
  ptr : Option Nat
deriving DecidableEq, Repr

/-- The objects that exist, by address. -/
abbrev Heap := Nat → Option Object

/-- Write (or remove, with `none`) the object at address `p`. -/
def Heap.set (h : Heap) (p : Nat) (o : Option Object) : Heap :=
  fun q => if q = p then o else h q

/-- `set::insert` on the back-link set, kept in the order of the addresses. -/
def setInsert (links : List Nat) (p : Nat) : List Nat :=
  if p ∈ links then links else links.orderedInsert (fun a b => a ≤ b) p

/-- `set::erase` on the back-link set. -/
def setErase (links : List Nat) (p : Nat) : List Nat :=
  links.filter (fun q => q != p)

/-- `Object::EraseRefLink`, lines 108 to 113, for the object at address `this`. -/
def Object.EraseRefLink (h : Heap) (this : Nat) : Except Fault Heap :=
  match h this with
  | none => .error .dangling
  | some o =>
    if o.info_.mode == .kObjectRef && o.info_.alive then
      match o.info_.real_dest with
      | none => .error .nullDeref
      | some d =>
        match h d with
        | none => .error .dangling
        | some obj =>
          match obj.links_ with
          | none => .error .badOptionalAccess
          | some links => .ok (h.set d (some { obj with links_ := some (setErase links this) }))
    else .ok h

/-- `Object::EstablishRefLink`, lines 115 to 121, for the object at address `this`. -/
def Object.EstablishRefLink (h : Heap) (this : Nat) : Except Fault Heap :=
  match h this with
  | none => .error .dangling
  | some o =>
    if o.info_.mode == .kObjectRef && o.info_.alive then
      match o.info_.real_dest with
      | none => .error .nullDeref
      | some d =>
        match h d with
        | none => .error .dangling
        | some obj =>
          .ok (h.set d (some { obj with links_ := some (setInsert (obj.links_.getD []) this) }))
    else .ok h

/-- The statements `unit->info_.alive = false; unit->info_.real_dest = nullptr;`. -/
def Object.invalidate (o : Object) : Object :=
  { o with info_ := { o.info_ with alive := false, real_dest := none } }

/-- The loop `for (auto &unit : links_.value())` of the destructor, lines 128 to 133. -/
def Object.InvalidateLoop : List Nat → Heap → Except Fault Heap
  | [], h => .ok h
  | unit :: rest, h =>
    match h unit with
    | none => .error .dangling
    | some u => Object.InvalidateLoop rest (h.set unit (some u.invalidate))

/-- The destructor `Object::~Object`, lines 124 to 135, for the object at address `this`; the
object does not exist afterwards. -/
def Object.destroy (h : Heap) (this : Nat) : Except Fault Heap :=
  match Object.EraseRefLink h this with
  | .error e => .error e
  | .ok h1 =>
    match h1 this with
    | none => .error .dangling
    | some o =>
      match o.links_ with
      | some (unit :: rest) =>
        if o.info_.mode != .kObjectRef then
          match Object.InvalidateLoop (unit :: rest) h1 with
          | .error e => .error e
          | .ok h2 => .ok (h2.set this none)
        else .ok (h1.set this none)
      | _ => .ok (h1.set this none)

/-- The constructor `Object(const ObjectInfo &info, const shared_ptr<void> &ptr)`, lines 177 to
180, of a new object at the address `this`. -/
def Object.construct (h : Heap) (this : Nat) (info : ObjectInfo) (ptr : Option Nat) :
    Except Fault Heap :=
  Object.EstablishRefLink (h.set this (some ⟨info, none, ptr⟩)) this

/-- The copy constructor `Object(const Object &obj)` and the move constructor
`Object(const Object &&obj)`, lines 140 to 148, of a new object at the address `this` from the
object at the address `obj`. -/
def Object.copy (h : Heap) (this obj : Nat) : Except Fault Heap :=
  match h obj with
  | none => .error .dangling
  | some o => Object.EstablishRefLink (h.set this (some ⟨o.info_, none, o.ptr⟩)) this

/-- The default constructor `Object()`, lines 137 and 138. -/
def Object.null : Object :=
  ⟨⟨none, .kObjectNormal, false, false, true, kTypeIdNull⟩, none, none⟩

/-- The constructors `Object(shared_ptr<T> ptr, string type_id)`, `Object(T &t, string
type_id)` and `Object(T &&t, string type_id)`, lines 150 to 162, with the payload `ptr`. -/
def Object.ofPayload (ptr : Option Nat) (type_id : String) : Object :=
  ⟨⟨none, .kObjectNormal, false, type_id == kTypeIdStruct, true, type_id⟩, none, ptr⟩

/-- The constructor `Object(T *ptr, string type_id)`, lines 164 to 167. -/
def Object.ofDelegate (ptr : Option Nat) (type_id : String) : Object :=
  ⟨⟨ptr, .kObjectDelegator, false, type_id == kTypeIdStruct, true, type_id⟩, none, none⟩

/-- The constructor `Object(void *ext_ptr, ExternalMemoryDisposer disposer, string type_id)`,
lines 169 to 171; `rc` is the handle of the new `ExternalRCContainer`. -/
def Object.ofExternal (ext_ptr : Option Nat) (rc : Nat) (type_id : String) : Object :=
  ⟨⟨ext_ptr, .kObjectExternal, false, false, true, type_id⟩, none, some rc⟩

/-- The constructor `Object(string str)`, lines 173 to 175; `ptr` is the handle of the new
string. -/
def Object.ofString (ptr : Nat) : Object :=
  ⟨⟨none, .kObjectNormal, false, false, true, kTypeIdString⟩, none, some ptr⟩

/-- `Object::SetDeliveringFlag`. -/
def Object.SetDeliveringFlag (o : Object) : Object :=
  { o with info_ := { o.info_ with delivering := true } }

/-- `Object::RemoveDeliveringFlag`. -/
def Object.RemoveDeliveringFlag (o : Object) : Object :=
  { o with info_ := { o.info_ with delivering := false } }

/-- `Object::SetContainerFlag`. -/
def Object.SetContainerFlag (o : Object) : Object :=
  { o with info_ := { o.info_ with sub_container := true } }

/-- The expression `static_cast<ObjectPointer>(info_.real_dest)` followed: the address of the
destination, which has to be an object that exists. -/
def Object.dest (h : Heap) (o : Object) : Except Fault Nat :=
  match o.info_.real_dest with
  | none => .error .nullDeref
  | some d =>
    match h d with
    | none => .error .dangling
    | some _ => .ok d

/-- `Object::Unpack`, lines 200 to 205: the address of the object returned by reference. -/
def Object.Unpack (h : Heap) (this : Nat) : Except Fault Nat :=
  match h this with
  | none => .error .dangling
  | some o => if o.info_.mode == .kObjectRef then o.dest h else .ok this

/-- `Object::Get`, lines 192 to 198, with a budget of nested calls: the payload handle. -/
def Object.Get (h : Heap) : Nat → Nat → Except Fault (Option Nat)
  | 0, _ => .error .fuel
  | n + 1, this =>
    match h this with
    | none => .error .dangling
    | some o =>
      if o.info_.mode == .kObjectRef then
        match o.dest h with
        | .error e => .error e
        | .ok d => Object.Get h n d
      else .ok o.ptr

/-- `Object::GetDeliveringFlag`, lines 230 to 238, with a budget of nested calls: the flag read
and the objects afterwards. -/
def Object.GetDeliveringFlag (h : Heap) : Nat → Nat → Except Fault (Bool × Heap)
  | 0, _ => .error .fuel
  | n + 1, this =>
    match h this with
    | none => .error .dangling
    | some o =>
      if o.info_.mode == .kObjectRef then
        match o.dest h with
        | .error e => .error e
        | .ok d => Object.GetDeliveringFlag h n d
      else .ok (o.info_.delivering, h.set this (some o.RemoveDeliveringFlag))

/-- `Object::SeekDeliveringFlag`, lines 240 to 246, with a budget of nested calls. -/
def Object.SeekDeliveringFlag (h : Heap) : Nat → Nat → Except Fault Bool
  | 0, _ => .error .fuel
  | n + 1, this =>
    match h this with
    | none => .error .dangling
    | some o =>
      if o.info_.mode == .kObjectRef then
        match o.dest h with
        | .error e => .error e
        | .ok d => Object.SeekDeliveringFlag h n d
      else .ok o.info_.delivering

/-- `Object::IsSubContainer`, lines 248 to 254, with a budget of nested calls. -/
def Object.IsSubContainer (h : Heap) : Nat → Nat → Except Fault Bool
  | 0, _ => .error .fuel
  | n + 1, this =>
    match h this with
    | none => .error .dangling
    | some o =>
      if o.info_.mode == .kObjectRef then
        match o.dest h with
        | .error e => .error e
        | .ok d => Object.IsSubContainer h n d
      else .ok o.info_.sub_container

/-- `Object::Impact`, lines 187 to 190, on the object at address `this`: the metadata `info_`
and the payload handle are overwritten; no back-link set is touched. -/
def Object.Impact (h : Heap) (this : Nat) (info : ObjectInfo) (ptr : Option Nat) :
    Except Fault Heap :=
  match h this with
  | none => .error .dangling
  | some o => .ok (h.set this (some { o with info_ := info, ptr := ptr }))

/-- An assignment to the metadata of the object at address `this` through the reference that
`Object::GetObjectInfoTable`, line 260, returns; no back-link set is touched. -/
def Object.GetObjectInfoTable (h : Heap) (this : Nat) (info : ObjectInfo) :
    Except Fault Heap :=
  match h this with
  | none => .error .dangling
  | some o => .ok (h.set this (some { o with info_ := info }))

/-- The object at `b` is a member of the back-link set of the object at `a`, which is not a
Reference; both objects exist and `a` and `b` are different addresses. -/
def Heap.Registered (h : Heap) (a b : Nat) : Prop :=
  a ≠ b ∧ ∃ A B L, h a = some A ∧ A.info_.mode ≠ .kObjectRef ∧ A.links_ = some L ∧ b ∈ L ∧
    h b = some B

/-- The heaps reached from a heap by the operations of `Object` whose bodies are in `object.h`,
applied to any objects but with the objects at `a` and `b` neither destroyed nor overwritten:
a constructor makes a new object at any address at which no object exists (so the address of a
destroyed object can be used again), the destructor, `Impact` and an assignment through
`GetObjectInfoTable` act on an object at another address than `a` and `b`, and the flag setters
act on any object (`GetDeliveringFlag` writes what `RemoveDeliveringFlag` writes). The members
`operator=`, `PackContent`, `swap` and `PackObject` are declared in `object.h` and defined
outside the sources; they are not among these operations. -/
inductive Heap.Others (a b : Nat) : Heap → Heap → Prop where
  | refl (h : Heap) : Heap.Others a b h h
  | null (h h1 : Heap) (this : Nat) :
      Heap.Others a b h h1 → h1 this = none →
      Heap.Others a b h (h1.set this (some Object.null))
  | ofPayload (h h1 : Heap) (this : Nat) (ptr : Option Nat) (type_id : String) :
      Heap.Others a b h h1 → h1 this = none →
      Heap.Others a b h (h1.set this (some (Object.ofPayload ptr type_id)))
  | ofDelegate (h h1 : Heap) (this : Nat) (ptr : Option Nat) (type_id : String) :
      Heap.Others a b h h1 → h1 this = none →
      Heap.Others a b h (h1.set this (some (Object.ofDelegate ptr type_id)))
  | ofExternal (h h1 : Heap) (this : Nat) (ext_ptr : Option Nat) (rc : Nat)
      (type_id : String) :
      Heap.Others a b h h1 → h1 this = none →
      Heap.Others a b h (h1.set this (some (Object.ofExternal ext_ptr rc type_id)))
  | ofString (h h1 : Heap) (this ptr : Nat) :
      Heap.Others a b h h1 → h1 this = none →
      Heap.Others a b h (h1.set this (some (Object.ofString ptr)))
  | construct (h h1 h2 : Heap) (this : Nat) (info : ObjectInfo) (ptr : Option Nat) :
      Heap.Others a b h h1 → h1 this = none → Object.construct h1 this info ptr = .ok h2 →
      Heap.Others a b h h2
  | copy (h h1 h2 : Heap) (this obj : Nat) :
      Heap.Others a b h h1 → h1 this = none → Object.copy h1 this obj = .ok h2 →
      Heap.Others a b h h2
  | destroy (h h1 h2 : Heap) (this : Nat) :
      Heap.Others a b h h1 → this ≠ a → this ≠ b → Object.destroy h1 this = .ok h2 →
      Heap.Others a b h h2
  | impact (h h1 h2 : Heap) (this : Nat) (info : ObjectInfo) (ptr : Option Nat) :
      Heap.Others a b h h1 → this ≠ a → this ≠ b → Object.Impact h1 this info ptr = .ok h2 →
      Heap.Others a b h h2
  | infoTable (h h1 h2 : Heap) (this : Nat) (info : ObjectInfo) :
      Heap.Others a b h h1 → this ≠ a → this ≠ b →
      Object.GetObjectInfoTable h1 this info = .ok h2 → Heap.Others a b h h2
  | setDeliveringFlag (h h1 : Heap) (this : Nat) (o : Object) :
      Heap.Others a b h h1 → h1 this = some o →
      Heap.Others a b h (h1.set this (some o.SetDeliveringFlag))
  | removeDeliveringFlag (h h1 : Heap) (this : Nat) (o : Object) :
      Heap.Others a b h h1 → h1 this = some o →
      Heap.Others a b h (h1.set this (some o.RemoveDeliveringFlag))
  | setContainerFlag (h h1 : Heap) (this : Nat) (o : Object) :
      Heap.Others a b h h1 → h1 this = some o →
      Heap.Others a b h (h1.set this (some o.SetContainerFlag))

/-! ## Registries and callables used in the statements -/

/-- Modelled from the spec: the registrations are made by `TotalInjection`, which is not among
the sources. The registry holds the operator entry `binexp` (tier `BinaryOperator`, two operands
and the operator text, so required count 3) and the entry `commaexp` (tier `Normal`, any number
of arguments); their callables are parameters and return the texts `f args` and `g args` as
redirected values. -/
def binexpRegistry (f g : List String → String) : List EntryProvider :=
  [⟨"binexp", some (fun p => ⟨kStrRedirect, kCodeSuccess, f p⟩), none, 3, kFlagBinEntry⟩,
   ⟨"commaexp", some (fun p => ⟨kStrRedirect, kCodeSuccess, g p⟩), none, kFlagAutoSize,
     kFlagNormalEntry⟩]

/-- Characters that `Chainloader::Build` copies to the token in progress in every mode: not a
blank, not a double quote, not one of the characters `( ) { } , : + - * /` and not one of
`= > <`. -/
def ordinary (c : Char) : Bool :=
  !(c == ' ' || c == '\t' || c == '"' ||
    c == '(' || c == ',' || c == ')' || c == '{' || c == '}' || c == ':' ||
    c == '+' || c == '-' || c == '*' || c == '/' || c == '=' || c == '>' || c == '<')

/-- The character before the position that `Chainloader::Build` has reached when it has read
the characters `cs` after a position whose previous character is `prev`. -/
def lastOr (prev : Option Char) (cs : List Char) : Option Char :=
  match cs.getLast? with
  | some c => some c
  | none => prev

/-- The metadata of a live Reference to the object at address 0. -/
def sampleRefInfo : ObjectInfo := ⟨some 0, .kObjectRef, false, false, true, kTypeIdString⟩

/-- A heap with one object, a string made by `Object(string)` at address 0. -/
def sampleOwner : Heap := Heap.set (fun _ => none) 0 (some (Object.ofString 7))

/-- A run of constructors and destructors: a string `Object(string)` at address 0, a live
Reference to it at address 1 and a live Reference to that Reference at address 2, both made by
`Object(const ObjectInfo &, ...)`; then the Reference at address 1 is destroyed and a new
string is made by `Object(string)` at address 1, the address of the destroyed object. -/
def sampleReuse : Except Fault Heap :=
  match Object.construct sampleOwner 1
      ⟨some 0, .kObjectRef, false, false, true, kTypeIdString⟩ (some 7) with
  | .error e => .error e
  | .ok h1 =>
    match Object.construct h1 2
        ⟨some 1, .kObjectRef, false, false, true, kTypeIdString⟩ (some 7) with
    | .error e => .error e
    | .ok h2 =>
      match Object.destroy h2 1 with
      | .error e => .error e
      | .ok h3 => .ok (h3.set 1 (some (Object.ofString 8)))

/-- A heap with one object, a Reference whose target was destroyed. -/
def sampleDeadHeap : Heap :=
  fun q => if q = 0 then some ⟨⟨none, .kObjectRef, false, false, false, kTypeIdString⟩, none, none⟩
    else none

/-- An entry of tier `Normal` with required count 2 whose callable returns the number of its
arguments. -/
def sampleEntry : EntryProvider :=
  ⟨"pair", some (fun p => ⟨kStrRedirect, kCodeSuccess, toString p.length⟩), none, 2,
    kFlagNormalEntry⟩

/-! ## Scope containers and scope stacks of `object.h` -/

/-- `class ObjectContainer`. A pointer to a container is its address, a natural number, and the
null pointer is `none`. `base_` is the map from names to objects as the list of its entries;
`dest_map_` is the cache of pointers to the stored objects, as the list of the names it
holds. -/
structure ObjectContainer where
  delegator_ : Option Nat
  prev_ : Option Nat
  base_ : List (String × Object)
  dest_map_ : List String
deriving DecidableEq, Repr

/-- The containers that exist, by address. -/
abbrev Containers := Nat → Option ObjectContainer

/-- Write (or remove, with `none`) the container at address `p`. -/
def Containers.set (m : Containers) (p : Nat) (c : Option ObjectContainer) : Containers :=
  fun q => if q = p then c else m q

/-- The constructor `ObjectContainer()`, lines 363 and 364. -/
def ObjectContainer.new : ObjectContainer := ⟨none, none, [], []⟩

/-- Modelled from the spec: `ObjectContainer::BuildCache` is declared in `object.h` and defined
outside the sources; it rebuilds the cache `dest_map_` from the entries of `base_`. -/
def ObjectContainer.BuildCache (c : ObjectContainer) : ObjectContainer :=
  { c with dest_map_ := c.base_.map Prod.fst }

/-- The constructor `ObjectContainer(const ObjectContainer &&mgr)`, lines 366 and 367: the two
pointers are copied, the storage is empty. -/
def ObjectContainer.move (mgr : ObjectContainer) : ObjectContainer :=
  ⟨mgr.delegator_, mgr.prev_, [], []⟩

/-- The constructor `ObjectContainer(const ObjectContainer &container)`, lines 369 to 375. -/
def ObjectContainer.copy (container : ObjectContainer) : ObjectContainer :=
  if !container.base_.isEmpty then
    ObjectContainer.BuildCache ⟨container.delegator_, container.prev_, container.base_, []⟩
  else ⟨container.delegator_, container.prev_, [], []⟩

/-- `ObjectContainer::IsDelegated`. -/
def ObjectContainer.IsDelegated (c : ObjectContainer) : Bool := c.delegator_.isSome

/-- `ObjectContainer::Empty`, lines 377 to 379, on the container at address `this`. -/
def ObjectContainer.Empty (m : Containers) (this : Nat) : Except Fault Bool :=
  match m this with
  | none => .error .dangling
  | some c => .ok c.base_.isEmpty

/-- `ObjectContainer::operator=`, lines 381 to 386, with a budget of nested calls: the
container at `this` is assigned from the container at `mgr`. -/
def ObjectContainer.assign (m : Containers) : Nat → Nat → Nat → Except Fault Containers
  | 0, _, _ => .error .fuel
  | n + 1, this, mgr =>
    match m this with
    | none => .error .dangling
    | some c =>
      match c.delegator_ with
      | some d => ObjectContainer.assign m n d mgr
      | none =>
        match m mgr with
        | none => .error .dangling
        | some src => .ok (m.set this (some { c with base_ := src.base_ }))

/-- `ObjectContainer::Clear`, lines 388 to 393, with a budget of nested calls. -/
def ObjectContainer.Clear (m : Containers) : Nat → Nat → Except Fault Containers
  | 0, _ => .error .fuel
  | n + 1, this =>
    match m this with
    | none => .error .dangling
    | some c =>
      let forwarded : Except Fault Containers :=
        match c.delegator_ with
        | some d => ObjectContainer.Clear m n d
        | none => .ok m
      match forwarded with
      | .error e => .error e
      | .ok m1 =>
        match m1 this with
        | none => .error .dangling
        | some c1 => .ok (m1.set this (some (ObjectContainer.BuildCache { c1 with base_ := [] })))

/-- `ObjectContainer::GetContent`, lines 395 to 398, with a budget of nested calls: the
address of the container whose map `base_` is returned by reference. -/
def ObjectContainer.GetContent (m : Containers) : Nat → Nat → Except Fault Nat
  | 0, _ => .error .fuel
  | n + 1, this =>
    match m this with
    | none => .error .dangling
    | some c =>
      match c.delegator_ with
      | some d => ObjectContainer.GetContent m n d
      | none => .ok this

/-- `ObjectContainer::GetHashMap`, lines 400 to 403, with a budget of nested calls: the
address of the container whose map `dest_map_` is returned by reference. -/
def ObjectContainer.GetHashMap (m : Containers) : Nat → Nat → Except Fault Nat
  | 0, _ => .error .fuel
  | n + 1, this =>
    match m this with
    | none => .error .dangling
    | some c =>
      match c.delegator_ with
      | some d => ObjectContainer.GetHashMap m n d
      | none => .ok this

/-- `ObjectContainer::SetPreviousContainer`, lines 405 to 409, with a budget of nested
calls. -/
def ObjectContainer.SetPreviousContainer (m : Containers) :
    Nat → Nat → Option Nat → Except Fault Containers
  | 0, _, _ => .error .fuel
  | n + 1, this, prev =>
    match m this with
    | none => .error .dangling
    | some c =>
      match c.delegator_ with
      | some d => ObjectContainer.SetPreviousContainer m n d prev
      | none => .ok (m.set this (some { c with prev_ := prev }))

/-- `ObjectContainer::SetDelegatedContainer`, lines 411 to 414. -/
def ObjectContainer.SetDelegatedContainer (m : Containers) (this : Nat) (dest : Option Nat) :
    Except Fault Containers :=
  match m this with
  | none => .error .dangling
  | some c => .ok (m.set this (some { c with delegator_ := dest }))

/-- The containers that exist together with the next address to be given out. -/
structure Scopes where
  cells : Containers
  next : Nat

/-- `class ObjectStack`: `base_` is the list of the addresses of its containers, the
innermost last. -/
structure ObjectStack where
  root_container_ : Option Nat
  base_ : List Nat
  prev_ : Option Nat
  delegated_ : Bool
deriving DecidableEq, Repr

/-- The constructor `ObjectStack()`, lines 487 to 491. -/
def ObjectStack.new : ObjectStack := ⟨none, [], none, false⟩

/-- `ObjectStack::SetDelegatedRoot`, lines 507 to 512: the front container, when there is one,
is destroyed, and a copy of the temporary `ObjectContainer().SetDelegatedContainer(&root)`
becomes the front container. -/
def ObjectStack.SetDelegatedRoot (sc : Scopes) (s : ObjectStack) (root : Nat) :
    Scopes × ObjectStack :=
  let cells1 : Containers :=
    match s.base_ with
    | [] => sc.cells
    | front :: _ => sc.cells.set front none
  let temp : ObjectContainer := { ObjectContainer.new with delegator_ := some root }
  (⟨cells1.set sc.next (some temp.copy), sc.next + 1⟩,
   { s with base_ := sc.next :: s.base_.tail, delegated_ := true })

/-- `ObjectStack::Push`, lines 528 to 539. The new container is made by
`emplace_back(ObjectContainer())`, the move constructor on a fresh container, so the call of
`SetPreviousContainer` on it does not forward and a budget of one call is given. -/
def ObjectStack.Push (sc : Scopes) (s : ObjectStack) (inherit_last_scope : Bool) :
    Except Fault (Scopes × ObjectStack) :=
  if s.base_.length == 1 && s.delegated_ then .ok (sc, { s with delegated_ := false })
  else
    let prev : Option Nat := s.base_.getLast?
    let base_scope : Option Nat := s.base_.head?
    let cells1 := sc.cells.set sc.next (some ObjectContainer.new.move)
    match ObjectContainer.SetPreviousContainer cells1 1 sc.next
        (if inherit_last_scope then prev else base_scope) with
    | .error e => .error e
    | .ok cells2 => .ok (⟨cells2, sc.next + 1⟩, { s with base_ := s.base_ ++ [sc.next] })

/-- `ObjectStack::Pop`, lines 541 to 544: `pop_back` on the list of containers, which is
outside the list when it is empty; the container removed is destroyed. -/
def ObjectStack.Pop (sc : Scopes) (s : ObjectStack) : Except Fault (Scopes × ObjectStack) :=
  match s.base_.getLast? with
  | none => .error .outOfRange
  | some a => .ok (⟨sc.cells.set a none, sc.next⟩, { s with base_ := s.base_.dropLast })

/-- Modelled from the spec: the registrations are made outside the sources. A registry in which
the operator entry `binexp` (tier `BinaryOperator`, required count 3) returns a `FatalError`
result with the detail `d args` on every invocation, and `commaexp` (tier `Normal`, any number
of arguments) returns the text `g args` as a redirected value. -/
def fatalRegistry (d g : List String → String) : List EntryProvider :=
  [⟨"binexp", some (fun p => ⟨kStrFatalError, kCodeIllegalArgs, d p⟩), none, 3, kFlagBinEntry⟩,
   ⟨"commaexp", some (fun p => ⟨kStrRedirect, kCodeSuccess, g p⟩), none, kFlagAutoSize,
     kFlagNormalEntry⟩]

/-- Modelled from the spec: a registry with `binexp` and `commaexp` as in `binexpRegistry` and
an entry `f` of tier `Normal` with required count 2 whose callable returns `h args`. -/
def callRegistry (f g h : List String → String) : List EntryProvider :=
  binexpRegistry f g ++
    [⟨"f", some (fun p => ⟨kStrRedirect, kCodeSuccess, h p⟩), none, 2, kFlagNormalEntry⟩]

/-- An entry of tier `Normal` registered under the operator token `+`. -/
def samplePlus : EntryProvider :=
  ⟨"+", some (fun p => ⟨kStrRedirect, kCodeSuccess, toString p.length⟩), none, 2,
    kFlagNormalEntry⟩

/-- An entry of tier `Normal` and required count 1 with the same name as `sampleEntry`. -/
def sampleEntryOne : EntryProvider :=
  ⟨"pair", some (fun p => ⟨kStrRedirect, kCodeSuccess, toString p.length⟩), none, 1,
    kFlagNormalEntry⟩

/-- The entry made by `EntryProvider("x", a, kFlagNotDefined, kFlagPluginEntry)`: the
constructor of lines 158 to 164 sets `activity2` to the null pointer. -/
def sampleUndefinedPlugin : EntryProvider :=
  ⟨"x", some (fun p => ⟨kStrRedirect, kCodeSuccess, toString p.length⟩), none, kFlagNotDefined,
    kFlagPluginEntry⟩

/-- Two containers: at address 0 a container with no storage of its own that is delegated to
the container at address 1, which holds one entry. -/
def sampleContainers : Containers :=
  fun q =>
    if q = 0 then some ⟨some 1, none, [], []⟩
    else if q = 1 then some ⟨none, none, [("x", Object.ofString 7)], ["x"]⟩
    else none

/-! ## More of the object model, the registry and the script source -/

/-- `Object::Cast`, lines 207 to 218, with a budget of nested calls: the address the returned
reference is made from, the raw address `real_dest` in the mode `kObjectDelegator` and the
payload handle otherwise. -/
def Object.Cast (h : Heap) : Nat → Nat → Except Fault (Option Nat)
  | 0, _ => .error .fuel
  | n + 1, this =>
    match h this with
    | none => .error .dangling
    | some o =>
      if o.info_.mode == .kObjectRef then
        match o.dest h with
        | .error e => .error e
        | .ok d => Object.Cast h n d
      else if o.info_.mode == .kObjectDelegator then .ok o.info_.real_dest
      else .ok o.ptr

/-- The member function `Object::SetDeliveringFlag`, lines 220 to 223, called on the object at
the address `this`. -/
def Object.SetDeliveringFlagAt (h : Heap) (this : Nat) : Except Fault Heap :=
  match h this with
  | none => .error .dangling
  | some o => .ok (h.set this (some o.SetDeliveringFlag))

/-- The loop of `Entry::Delete`, lines 70 to 73: the position at which the iterator stops, the
size of the registry when no entry has the name. -/
def Entry.DeleteSearch (name : String) : List EntryProvider → Nat
  | [] => 0
  | e :: rest => if e.name == name then 0 else Entry.DeleteSearch name rest + 1

/-- `Entry::Delete`, lines 68 to 77: after the loop the iterator is dereferenced, which is
outside the registry when it is at the end. -/
def Entry.Delete (base : List EntryProvider) (name : String) :
    Except Fault (List EntryProvider) :=
  match base[Entry.DeleteSearch name base]? with
  | none => .error .outOfRange
  | some e =>
    if e.name == name then .ok (base.eraseIdx (Entry.DeleteSearch name base)) else .ok base

/-- The loop of the lambda `IsBlankStr` of `ScriptProvider::Get`, lines 184 to 189. -/
def IsBlankLoop : List Char → Bool
  | [] => true
  | unit :: rest =>
    if unit != ' ' || unit != '\n' || unit != '\t' || unit != '\r' then false
    else IsBlankLoop rest

/-- The lambda `IsBlankStr` of `ScriptProvider::Get`, lines 182 to 190. -/
def IsBlankStr (target : String) : Bool :=
  if target == kStrEmpty || target.data.length == 0 then true
  else IsBlankLoop target.data

/-- Modelled from the spec: the class `ScriptProvider` is declared outside the sources
(`parser.h` declares another class, `ScriptProvider2`). Its members as `Get` uses them:
`stream`, here the lines that `std::getline` yields until the end of the file, the result
`ready` of `IsStreamReady()`, the lines kept in `pool`, the counter `current` and the flag
`cached`. -/
structure ScriptProvider where
  stream : List String
  ready : Bool
  pool : List String
  current : Nat
  cached : Bool
deriving DecidableEq, Repr

/-- Modelled from the spec: a provider just made for a readable script with the lines
`lines`. -/
def ScriptProvider.fresh (lines : List String) : ScriptProvider := ⟨lines, true, [], 0, false⟩

/-- `ScriptProvider::Get`, lines 177 to 222: the result, the provider afterwards and the state
outside. -/
def ScriptProvider.Get (self : ScriptProvider) (w : World) : Message × ScriptProvider × World :=
  let result : Message := ⟨kStrEmpty, kCodeSuccess, ""⟩
  if self.cached == false && !(self.pool.isEmpty && self.ready) then
    let failed := result.combo kStrFatalError kCodeBadStream "Cannot open script file"
    (failed, self, w.logMsg failed)
  else
    let self1 : ScriptProvider :=
      if self.cached == false then
        { self with
          pool := self.pool ++ self.stream.filter (fun currentstr => IsBlankStr currentstr != true)
          stream := []
          cached := true }
      else self
    if self1.current < self1.pool.length then
      (result.SetValue (self1.pool.getD self1.current kStrEmpty),
        { self1 with current := self1.current + 1 }, w)
    else if self1.current == self1.pool.length then (result.SetValue kStrEOF, self1, w)
    else
      let failed := result.combo kStrFatalError kCodeOverflow "Script counter overflow"
      (failed, self1, w.logMsg failed)

/-- The results of `n` successive calls of `ScriptProvider::Get`. -/
def ScriptProvider.GetMany : Nat → ScriptProvider → World → List Message
  | 0, _, _ => []
  | n + 1, self, w =>
    match self.Get w with
    | (r, self1, w1) => r :: ScriptProvider.GetMany n self1 w1

/-- The predicate of the spec on a container: when it has a delegation target, its own map
holds nothing. -/
def ObjectContainer.Hollow (c : ObjectContainer) : Prop :=
  c.delegator_.isSome = true → c.base_ = []

/-- The predicate `Hollow` on all the containers that exist. -/
def Containers.Hollow (m : Containers) : Prop :=
  ∀ a c, m a = some c → c.Hollow

/-- A container at address 0 that holds one entry and has no delegation target, and an empty
container at address 1. -/
def sampleHolder : Containers :=
  fun q =>
    if q = 0 then some ⟨none, none, [("x", Object.ofString 7)], ["x"]⟩
    else if q = 1 then some ⟨none, none, [], []⟩
    else none

/-- A heap with a string at address 0, a live Reference to it at address 1, and a live
Reference to that Reference at address 2. -/
def sampleChain : Heap :=
  fun q =>
    if q = 0 then some (Object.ofString 7)
    else if q = 1 then some ⟨⟨some 0, .kObjectRef, false, false, true, kTypeIdString⟩, none, none⟩
    else if q = 2 then some ⟨⟨some 1, .kObjectRef, false, false, true, kTypeIdString⟩, none, none⟩
    else none

/-- An entry of tier `BinaryOperator` with required count 0, and an entry made by the
constructor `EntryProvider(string, Activity, int, int)` of `parser.h` with the tier number
`kFlagPluginEntry`, which leaves `activity2` null. Both are `Good`. -/
def sampleOddEntries : EntryProvider × EntryProvider :=
  (⟨"op0", some (fun p => ⟨kStrRedirect, kCodeSuccess, toString p.length⟩), none, 0,
      kFlagBinEntry⟩,
   ⟨"plug", some (fun p => ⟨kStrRedirect, kCodeSuccess, toString p.length⟩), none, 1,
      kFlagPluginEntry⟩)

/-! ## String methods of `base_type.h` -/

/-- Modelled from the spec: `kCodeIllegalParm` is used by `base_type.h` and declared outside the
sources; it is the illegal parameter code, one of the failure codes. -/
def kCodeIllegalParm : Int := -3

/-- Modelled from the spec: the object that `StringFamilyGetElement` builds with
`ret.Set(output, typeId, methods, false)`; the class `Object` of `base_type.h` with the members
`Set`, `GetMethods` and `SetRo` is declared outside the sources. The fields are the four
arguments of `Set`. -/
structure StringObject where
  output : String
  typeId : String
  methods : String
  ro : Bool
deriving DecidableEq, Repr

/-- Modelled from the spec: the class `Message` of `base_type.h` carries an object besides its
three fields, stored by `Message::SetObject`, which is declared outside the sources. -/
structure ObjectMessage where
  msg : Message
  object : Option StringObject
deriving DecidableEq, Repr

/-- Conversion of a `size_t` to `int`, as in `int(str.size())`. -/
def toInt32 (n : Nat) : Int := ((n : Int) + 2 ^ 31) % 2 ^ 32 - 2 ^ 31

/-- The expression `str[pos]` on a `std::basic_string`: the character at `pos`, the null
character at `pos = size()`, and a read outside the string beyond that. -/
def stringAt (str : String) (pos : Nat) : Except Fault Char :=
  match str.data[pos]? with
  | some c => .ok c
  | none => if pos = str.data.length then .ok (Char.ofNat 0) else .error .outOfRange

/-- `StringFamilyGetElement` of `base_type.h`, lines 45 to 67, on the values it reads from its
argument map: the string `str` of the object, its `typeId` and `methods`, and the index `idx`
that `stoi` returned. -/
def StringFamilyGetElement (str typeId methods : String) (idx : Int) :
    Except Fault ObjectMessage :=
  let size : Int := toInt32 str.data.length
  let msg : Message := Message.default
  if idx > size && idx >= 0 then
    match stringAt str (toSizeT idx) with
    | .error e => .error e
    | .ok c => .ok ⟨msg, some ⟨String.mk [c], typeId, methods, false⟩⟩
  else .ok ⟨msg.combo kStrFatalError kCodeIllegalParm "Index out of range.", none⟩

/-! ## Theorems -/

/-! ### The tokenizer on words -/

theorem ordinary_spec {c : Char} (h : ordinary c = true) :
    (c == ' ') = false ∧ (c == '\t') = false ∧ (c == '"') = false ∧ (c == '(') = false ∧
    (c == ',') = false ∧ (c == ')') = false ∧ (c == '{') = false ∧ (c == '}') = false ∧
    (c == ':') = false ∧ (c == '+') = false ∧ (c == '-') = false ∧ (c == '*') = false ∧
    (c == '/') = false ∧ (c == '=') = false ∧ (c == '>') = false ∧ (c == '<') = false := by
  simpa [ordinary, not_or, and_assoc] using h

theorem BuildStep_ordinary (prev next : Option Char) (c : Char) (s : BuildState)
    (h : ordinary c = true) :
    BuildStep prev c next s = .ok { s with headlock := true, current := s.current.push c } := by
  obtain ⟨h1, h2, h3, h4, h5, h6, h7, h8, h9, h10, h11, h12, h13, h14, h15, h16⟩ :=
    ordinary_spec h
  cases hh : s.headlock <;>
    simp [BuildStep, BuildSwitch, kPatternBlank, BuildState.append, h1, h2, h3, h4, h5, h6, h7,
      h8, h9, h10, h11, h12, h13, h14, h15, h16, hh]

theorem lastOr_cons (prev : Option Char) (c : Char) (cs : List Char) :
    lastOr prev (c :: cs) = lastOr (some c) cs := by
  cases cs with
  | nil => rfl
  | cons d ds =>
    have hl : (d :: ds).getLast? = some ((d :: ds).getLast (by simp)) :=
      List.getLast?_eq_getLast _ _
    simp [lastOr, List.getLast?_cons_cons, hl]

theorem BuildLoop_ordinary (cs rest : List Char) (hcs : ∀ c ∈ cs, ordinary c = true) :
    ∀ (prev : Option Char) (s : BuildState), s.headlock = true →
      BuildLoop prev (cs ++ rest) s =
        BuildLoop (lastOr prev cs) rest { s with current := String.mk (s.current.data ++ cs) } := by
  induction cs with
  | nil => intro prev s _; simp [lastOr]
  | cons c cs ih =>
    intro prev s hs
    have hc : ordinary c = true := hcs c (List.mem_cons_self _ _)
    have hrest : ∀ d ∈ cs, ordinary d = true := fun d hd => hcs d (List.mem_cons_of_mem _ hd)
    rw [List.cons_append, BuildLoop, BuildStep_ordinary _ _ _ _ hc]
    simp only []
    rw [ih hrest (some c) _ rfl, lastOr_cons]
    simp [String.push, hs]

theorem BuildLoop_word (c : Char) (cs rest : List Char) (hcs : ∀ d ∈ c :: cs, ordinary d = true) :
    BuildLoop none (c :: cs ++ rest) BuildState.init =
      BuildLoop (lastOr (some c) cs) rest
        { BuildState.init with headlock := true, current := String.mk (c :: cs) } := by
  have hc : ordinary c = true := hcs c (List.mem_cons_self _ _)
  have hrest : ∀ d ∈ cs, ordinary d = true := fun d hd => hcs d (List.mem_cons_of_mem _ hd)
  rw [List.cons_append, BuildLoop, BuildStep_ordinary _ _ _ _ hc]
  simp only []
  rw [BuildLoop_ordinary cs rest hrest (some c) _ rfl]
  simp [String.push, BuildState.init, kStrEmpty]

theorem lastOr_some_getLast? (c : Char) (cs : List Char) :
    lastOr (some c) cs = (c :: cs).getLast? := by
  rw [← lastOr_cons none c cs]
  have hl : (c :: cs).getLast? = some ((c :: cs).getLast (by simp)) :=
    List.getLast?_eq_getLast _ _
  simp [lastOr, hl]

theorem mk_data_eq (a : String) : String.mk a.data = a := by
  cases a; rfl

theorem beq_kStrEmpty (a : String) : (a == kStrEmpty) = decide (a.data = []) := by
  cases a with
  | mk l =>
    cases l with
    | nil => simp [kStrEmpty]
    | cons c cs =>
      simp [kStrEmpty]
      intro h
      have := congrArg String.data h
      simp at this

theorem bne_kStrEmpty (a : String) (hne : a.data ≠ []) : (a != kStrEmpty) = true := by
  simp [bne, beq_kStrEmpty, hne]

theorem BuildLoop_string (a : String) (rest : List Char) (hne : a.data ≠ [])
    (ha : ∀ c ∈ a.data, ordinary c = true) :
    BuildLoop none (a.data ++ rest) BuildState.init =
      BuildLoop a.data.getLast? rest { BuildState.init with headlock := true, current := a } := by
  cases hd : a.data with
  | nil => exact absurd hd hne
  | cons c cs =>
    rw [hd] at ha
    rw [BuildLoop_word c cs rest ha, lastOr_some_getLast?, ← hd, mk_data_eq]

theorem tokens_eq (t : String) (hne : t.data ≠ []) :
    tokens t =
      match BuildLoop none t.data BuildState.init with
      | .error e => .error e
      | .ok s => .ok s.output := by
  have h : (t == kStrEmpty) = false := by simp [beq_kStrEmpty, hne]
  unfold tokens Chainloader.Build
  rw [h]
  cases BuildLoop none t.data BuildState.init <;> rfl

/-- Claim C5, as the code behaves: a line that is one non-empty word of ordinary characters
yields no token at all. The scanning loop ends with the word in `current`, and `raw = output`
follows without a flush. -/
theorem Build_last_word_not_flushed (w : String) (hne : w.data ≠ []) (hw : ∀ c ∈ w.data, ordinary c = true) :
    tokens w = .ok [] := by
  rw [tokens_eq w hne]
  have := BuildLoop_string w [] hne hw
  rw [List.append_nil] at this
  rw [this]
  rfl

theorem BuildLoop_tail (b : String) (prev : Option Char) (s : BuildState)
    (hb : ∀ c ∈ b.data, ordinary c = true) (hs : s.headlock = true) :
    BuildLoop prev b.data s =
      .ok { s with current := String.mk (s.current.data ++ b.data) } := by
  have := BuildLoop_ordinary b.data [] hb prev s hs
  rw [List.append_nil] at this
  rw [this]
  rfl

theorem BuildStep_cmp_first (prev : Option Char) (c : Char) (s : BuildState)
    (hc : c = '=' ∨ c = '<' ∨ c = '>') (hh : s.headlock = true) (hab : s.allowblank = false) :
    BuildStep prev c (some '=') s =
      .ok { s with
            binaryoptchar := c
            output := if s.current != kStrEmpty then s.output ++ [s.current] else s.output
            current := kStrEmpty } := by
  rcases hc with h | h | h <;> subst h <;>
    simp [BuildStep, BuildSwitch, kPatternBlank, hh, hab]

theorem GetDataType_cmp (o : Char) (ho : o = '=' ∨ o = '<' ∨ o = '>') :
    ((Util.GetDataType (String.mk [o, '='])).code == kTypeSymbol) = true := by
  rcases ho with h | h | h <;> subst h <;> decide

theorem BuildStep_cmp_second (prev next : Option Char) (o : Char) (s : BuildState)
    (ho : o = '=' ∨ o = '<' ∨ o = '>') (hn : (next == some '=') = false)
    (hh : s.headlock = true) (hab : s.allowblank = false) (hbo : s.binaryoptchar = o) :
    BuildStep prev '=' next s =
      .ok { s with output := s.output ++ [String.mk [o, '=']], binaryoptchar := Char.ofNat 0 } := by
  have hg := GetDataType_cmp o ho
  have ho0 : (o != Char.ofNat 0) = true := by
    rcases ho with h | h | h <;> subst h <;> decide
  subst hbo
  simp only [beq_iff_eq, bne_iff_ne, ne_eq] at hg ho0
  cases s
  simp_all [BuildStep, BuildSwitch, kPatternBlank]

theorem BuildStep_cmp_single (prev next : Option Char) (c : Char) (s : BuildState)
    (hc : c = '=' ∨ c = '<' ∨ c = '>') (hn : (next == some '=') = false)
    (hh : s.headlock = true) (hab : s.allowblank = false)
    (hbo : s.binaryoptchar = Char.ofNat 0) :
    BuildStep prev c next s = .ok (s.emit c) := by
  rcases hc with h | h | h <;> subst h <;>
    simp [BuildStep, BuildSwitch, kPatternBlank, hh, hab, hbo, hn]

/-- Claim C3, as the code behaves: for non-empty words `a` and `b` of ordinary characters and
`op` one of `==`, `<=`, `>=`, `Build` on `a ++ op ++ b` emits `a` and the operator as one
token, and nothing else: the word `b` is still in `current` when the loop ends and is never
copied to the output. -/
theorem Build_two_char_operator_drops_last_word (a b op : String) (hop : op = "==" ∨ op = "<=" ∨ op = ">=")
    (hane : a.data ≠ []) (ha : ∀ c ∈ a.data, ordinary c = true)
    (hbne : b.data ≠ []) (hb : ∀ c ∈ b.data, ordinary c = true) :
    tokens (a ++ op ++ b) = .ok [a, op] := by
  have hne : (a ++ op ++ b).data ≠ [] := by simp [String.data_append, hane]
  rw [tokens_eq _ hne]
  have hd : (a ++ op ++ b).data = a.data ++ (op.data ++ b.data) := by
    simp [String.data_append]
  rw [hd, BuildLoop_string a _ hane ha]
  obtain ⟨o, ho, hopd⟩ : ∃ o : Char, (o = '=' ∨ o = '<' ∨ o = '>') ∧ op = String.mk [o, '='] := by
    rcases hop with h | h | h
    · exact ⟨'=', Or.inl rfl, h⟩
    · exact ⟨'<', Or.inr (Or.inl rfl), h⟩
    · exact ⟨'>', Or.inr (Or.inr rfl), h⟩
  subst hopd
  cases hbd : b.data with
  | nil => exact absurd hbd hbne
  | cons d ds =>
    have hdo : ordinary d = true := hb d (by rw [hbd]; exact List.mem_cons_self _ _)
    have hd1 : (d == '=') = false := (ordinary_spec hdo).2.2.2.2.2.2.2.2.2.2.2.2.2.1
    have hn : ((d :: ds).head? == some '=') = false := by
      simpa using hd1
    have hane2 : (a != kStrEmpty) = true := bne_kStrEmpty a hane
    have e : (String.mk [o, '=']).data ++ (d :: ds) = o :: '=' :: (d :: ds) := rfl
    rw [e]
    rw [BuildLoop, List.head?_cons, BuildStep_cmp_first _ _ _ ho rfl rfl]
    simp only []
    rw [BuildLoop, BuildStep_cmp_second _ _ o _ ho hn rfl rfl rfl]
    simp only []
    rw [← hbd, BuildLoop_tail b _ _ hb rfl]
    simp [hane2, BuildState.init]

theorem BuildStep_blank_skip (p : Char) (next : Option Char) (c : Char) (s : BuildState)
    (hc : c = ' ' ∨ c = '\t') (hh : s.headlock = true) (hab : s.allowblank = false)
    (hk : (Util.Compare s.current ["var", "def", "return"] && s.output.isEmpty) = false) :
    BuildStep (some p) c next s = .ok s := by
  obtain ⟨output, current, bo, headlock, allowblank⟩ := s
  simp only at hh hab hk
  subst hh hab
  rcases hc with h | h <;> subst h <;>
    simp [BuildStep, BuildSwitch, kPatternBlank] <;>
    intro h1 h2 <;> simp [h1, h2] at hk

theorem BuildStep_blank_keyword (prev : Option Char) (n : Char) (c : Char) (s : BuildState)
    (hc : c = ' ' ∨ c = '\t') (hh : s.headlock = true) (hab : s.allowblank = false)
    (hk : (Util.Compare s.current ["var", "def", "return"] && s.output.isEmpty) = true)
    (hn1 : (n == ' ') = false) (hn2 : (n == '\t') = false) :
    BuildStep prev c (some n) s =
      .ok { s with output := s.output ++ [s.current], current := kStrEmpty } := by
  have e1 : (some n != some ' ') = true := by simpa [bne] using hn1
  have e2 : (some n != some '\t') = true := by simpa [bne] using hn2
  obtain ⟨output, current, bo, headlock, allowblank⟩ := s
  simp only at hh hab hk
  subst hh hab
  simp only [Bool.and_eq_true] at hk
  obtain ⟨h1, h2⟩ := hk
  have h3 : output = [] := by simpa using h2
  subst h3
  rcases hc with h | h <;> subst h <;>
    simp [BuildStep, BuildSwitch, kPatternBlank, h1, hn1, hn2] <;>
    simp_all

theorem BuildStep_verbatim (prev next : Option Char) (c : Char) (s : BuildState)
    (hc : (c == '"') = false) (hh : s.headlock = true) (hab : s.allowblank = true) :
    BuildStep prev c next s = .ok (s.append c) := by
  simp only [BuildStep, BuildSwitch, hh, hab, hc]
  simp
  split_ifs <;> rfl

theorem BuildLoop_verbatim (cs rest : List Char) (hcs : ∀ c ∈ cs, (c == '"') = false) :
    ∀ (prev : Option Char) (s : BuildState), s.headlock = true → s.allowblank = true →
      BuildLoop prev (cs ++ rest) s =
        BuildLoop (lastOr prev cs) rest { s with current := String.mk (s.current.data ++ cs) } := by
  induction cs with
  | nil => intro prev s _ _; simp [lastOr]
  | cons c cs ih =>
    intro prev s hs hab
    have hc : (c == '"') = false := hcs c (List.mem_cons_self _ _)
    have hrest : ∀ d ∈ cs, (d == '"') = false := fun d hd => hcs d (List.mem_cons_of_mem _ hd)
    rw [List.cons_append, BuildLoop, BuildStep_verbatim _ _ _ _ hc hs hab]
    simp only []
    rw [ih hrest (some c) (s.append c) hs hab, lastOr_cons]
    simp [String.push, BuildState.append]

theorem BuildStep_quote_open (p : Char) (next : Option Char) (s : BuildState)
    (hp : (p == '\\') = false) (hh : s.headlock = true) (hab : s.allowblank = false) :
    BuildStep (some p) '"' next s =
      .ok { (s.emit '"') with allowblank := true } := by
  simp [BuildStep, BuildSwitch, BuildQuoteToggle, hh, hab, BuildState.emit, hp]

theorem BuildStep_quote_close (p : Char) (next : Option Char) (s : BuildState)
    (hp : (p == '\\') = false) (hh : s.headlock = true) (hab : s.allowblank = true) :
    BuildStep (some p) '"' next s =
      .ok { (s.emit '"') with allowblank := false } := by
  have hp2 : (p != '\\') = true := by simp [bne, hp]
  simp [BuildStep, BuildSwitch, BuildQuoteToggle, hh, hab, BuildState.emit, hp, hp2]

theorem lastOr_some_mem (x : Char) (cs : List Char) :
    ∃ y, lastOr (some x) cs = some y ∧ (y = x ∨ y ∈ cs) := by
  unfold lastOr
  cases h : cs.getLast? with
  | none => exact ⟨x, rfl, Or.inl rfl⟩
  | some y => exact ⟨y, rfl, Or.inr (List.mem_of_getLast?_eq_some h)⟩

theorem getLast?_some_of_ne_nil (cs : List Char) (h : cs ≠ []) : ∃ p, cs.getLast? = some p :=
  ⟨cs.getLast h, List.getLast?_eq_getLast _ _⟩

/-- The state of `Build` after a first word `w` and one blank that is followed by a character
`n` which is not a blank: whether `w` is one of the keywords or not, the next token emitted
starts with `w`. -/
theorem BuildStep_after_word (w : String) (p n c : Char) (hc : c = ' ' ∨ c = '\t')
    (hn1 : (n == ' ') = false) (hn2 : (n == '\t') = false) :
    ∃ s1 : BuildState,
      BuildStep (some p) c (some n) { BuildState.init with headlock := true, current := w } =
        .ok s1 ∧
      s1.headlock = true ∧ s1.allowblank = false ∧ s1.binaryoptchar = Char.ofNat 0 ∧
      ((s1.output = [w] ∧ s1.current = kStrEmpty ∧
          Util.Compare w ["var", "def", "return"] = true) ∨
       (s1.output = [] ∧ s1.current = w ∧ Util.Compare w ["var", "def", "return"] = false)) := by
  cases hk : Util.Compare w ["var", "def", "return"] with
  | true =>
    refine ⟨_, BuildStep_blank_keyword _ n c _ hc rfl rfl ?_ hn1 hn2, rfl, rfl, rfl, ?_⟩
    · simp [hk, BuildState.init]
    · left; simp [BuildState.init]
  | false =>
    refine ⟨_, BuildStep_blank_skip p _ c _ hc rfl rfl ?_, rfl, rfl, rfl, ?_⟩
    · simp [hk]
    · right; simp [BuildState.init]

/-- Claim C4, amended: for every non-empty word `w` of ordinary characters and every quoted
text `q` without double quote and backslash, `Build` on `w ++ " " ++ "\"" ++ q ++ "\""` emits
`w`, the opening quote as a token of its own, the text `q` as one token when it is not empty
(blanks, commas and brackets inside it do not split it), and the closing quote as a token of
its own. -/
theorem Build_verbatim_tokens (w q : String) (hwne : w.data ≠ []) (hw : ∀ c ∈ w.data, ordinary c = true)
    (hq : ∀ c ∈ q.data, (c == '"') = false ∧ (c == '\\') = false) :
    tokens (w ++ " " ++ "\"" ++ q ++ "\"") =
      .ok ([w, "\""] ++ (if q != kStrEmpty then [q] else []) ++ ["\""]) := by
  have hne : (w ++ " " ++ "\"" ++ q ++ "\"").data ≠ [] := by simp [String.data_append, hwne]
  rw [tokens_eq _ hne]
  have hd : (w ++ " " ++ "\"" ++ q ++ "\"").data =
      w.data ++ (' ' :: '"' :: (q.data ++ ['"'])) := by
    simp [String.data_append]
  rw [hd, BuildLoop_string w _ hwne hw]
  obtain ⟨p, hp⟩ := getLast?_some_of_ne_nil w.data hwne
  obtain ⟨s1, hs1, hh1, hab1, hbo1, hcase⟩ :=
    BuildStep_after_word w p '"' ' ' (Or.inl rfl) (by decide) (by decide)
  rw [hp, BuildLoop, List.head?_cons, hs1]
  simp only []
  rw [BuildLoop, BuildStep_quote_open ' ' _ s1 (by decide) hh1 hab1]
  simp only []
  have hq1 : ∀ c ∈ q.data, (c == '"') = false := fun c hc => (hq c hc).1
  have hv := BuildLoop_verbatim q.data ['"'] hq1 (some '"')
    { (s1.emit '"') with allowblank := true } hh1 rfl
  rw [hv]
  obtain ⟨y, hy, hymem⟩ := lastOr_some_mem '"' q.data
  have hy2 : (y == '\\') = false := by
    rcases hymem with h | h
    · subst h; decide
    · exact (hq y h).2
  rw [hy, BuildLoop, BuildStep_quote_close y _ _ hy2]
  rotate_left
  · exact hh1
  · rfl
  simp only []
  simp only [BuildLoop]
  have hwne2 : (w != kStrEmpty) = true := bne_kStrEmpty w hwne
  have hsq : String.singleton '"' = "\"" := rfl
  have hw3 : w ≠ "" := by
    intro h
    rw [h] at hwne
    exact hwne rfl
  rcases hcase with ⟨ho, hcur, _⟩ | ⟨ho, hcur, _⟩ <;>
    simp [BuildState.emit, ho, hcur, hwne2, hsq, kStrEmpty, mk_data_eq, hw3] <;>
    split_ifs <;> simp

theorem Compare_empty :
    (Util.Compare kStrEmpty ["var", "def", "return"]) = false := by decide

/-- Claim C6, as the code behaves: for a non-empty word `a` and a word `b` of ordinary
characters, `Build` on `a ++ " = = " ++ b` emits `a` and two separate `=` tokens (they are not
fused), and nothing else: the word `b` is still in `current` when the loop ends. -/
theorem Build_spaced_comparison_drops_last_word (a b : String) (hane : a.data ≠ []) (ha : ∀ c ∈ a.data, ordinary c = true)
    (hb : ∀ c ∈ b.data, ordinary c = true) :
    tokens (a ++ " = = " ++ b) = .ok [a, "=", "="] := by
  have hne : (a ++ " = = " ++ b).data ≠ [] := by simp [String.data_append, hane]
  rw [tokens_eq _ hne]
  have hd : (a ++ " = = " ++ b).data =
      a.data ++ (' ' :: '=' :: ' ' :: '=' :: ' ' :: b.data) := by
    simp [String.data_append]
  rw [hd, BuildLoop_string a _ hane ha]
  obtain ⟨p, hp⟩ := getLast?_some_of_ne_nil a.data hane
  obtain ⟨s1, hs1, hh1, hab1, hbo1, hcase⟩ :=
    BuildStep_after_word a p '=' ' ' (Or.inl rfl) (by decide) (by decide)
  rw [hp, BuildLoop, List.head?_cons, hs1]
  simp only []
  rw [BuildLoop, List.head?_cons,
    BuildStep_cmp_single _ _ '=' s1 (Or.inl rfl) (by decide) hh1 hab1 hbo1]
  simp only []
  have hk : ∀ s : BuildState, s.current = kStrEmpty →
      (Util.Compare s.current ["var", "def", "return"] && s.output.isEmpty) = false := by
    intro s hs
    rw [hs, Compare_empty]
    rfl
  rw [BuildLoop, BuildStep_blank_skip '=' _ ' ' (s1.emit '=') (Or.inl rfl) hh1 hab1 (hk _ rfl)]
  simp only []
  rw [BuildLoop, List.head?_cons,
    BuildStep_cmp_single _ _ '=' (s1.emit '=') (Or.inl rfl) (by decide) hh1 hab1 hbo1]
  simp only []
  rw [BuildLoop,
    BuildStep_blank_skip '=' _ ' ' ((s1.emit '=').emit '=') (Or.inl rfl) hh1 hab1 (hk _ rfl)]
  simp only []
  rw [BuildLoop_tail b _ ((s1.emit '=').emit '=') hb hh1]
  have hw3 : a ≠ "" := by
    intro h
    rw [h] at hane
    exact hane rfl
  have hsq : String.singleton '=' = "=" := rfl
  rcases hcase with ⟨ho, hcur, _⟩ | ⟨ho, hcur, _⟩ <;>
    simp [BuildState.emit, ho, hcur, hsq, kStrEmpty, hw3]

/-- Claim C7, as the code behaves: when the first word `a` of a line is not one of the
keywords `var`, `def`, `return`, a blank after it is skipped without ending the token, so
`a ++ " " ++ b ++ "("` yields the single token `a ++ b` before the bracket. -/
theorem Build_blank_joins_words (a b : String) (hane : a.data ≠ []) (ha : ∀ c ∈ a.data, ordinary c = true)
    (hk : Util.Compare a ["var", "def", "return"] = false)
    (hb : ∀ c ∈ b.data, ordinary c = true) :
    tokens (a ++ " " ++ b ++ "(") = .ok [a ++ b, "("] := by
  have hne : (a ++ " " ++ b ++ "(").data ≠ [] := by simp [String.data_append, hane]
  rw [tokens_eq _ hne]
  have hd : (a ++ " " ++ b ++ "(").data = a.data ++ (' ' :: (b.data ++ ['('])) := by
    simp [String.data_append]
  rw [hd, BuildLoop_string a _ hane ha]
  obtain ⟨p, hp⟩ := getLast?_some_of_ne_nil a.data hane
  rw [hp, BuildLoop, BuildStep_blank_skip p _ ' ' _ (Or.inl rfl) rfl rfl (by simp [hk])]
  simp only []
  rw [BuildLoop_ordinary b.data ['('] hb _ _ rfl]
  have hw3 : ¬ (a ++ b = "") := by
    intro h
    have := congrArg String.data h
    simp [String.data_append, hane] at this
  have hsq : String.singleton '(' = "(" := rfl
  have hab : String.mk (a.data ++ b.data) = a ++ b := rfl
  simp [BuildLoop, BuildStep, BuildSwitch, kPatternBlank, BuildState.emit, BuildState.init,
    hsq, hab, kStrEmpty, hw3]

/-! ### The back-link sets -/

theorem mem_setInsert (L : List Nat) (p x : Nat) : x ∈ setInsert L p ↔ x = p ∨ x ∈ L := by
  unfold setInsert
  split_ifs with h
  · constructor
    · intro hx; exact Or.inr hx
    · rintro (rfl | hx)
      · exact h
      · exact hx
  · simp [List.mem_orderedInsert]

theorem mem_setErase (L : List Nat) (p x : Nat) : x ∈ setErase L p ↔ x ∈ L ∧ x ≠ p := by
  simp [setErase]

theorem Heap.set_same (h : Heap) (p : Nat) (o : Option Object) : (h.set p o) p = o := by
  simp [Heap.set]

theorem Heap.set_other (h : Heap) (p q : Nat) (o : Option Object) (hq : q ≠ p) :
    (h.set p o) q = h q := by
  simp [Heap.set, hq]

theorem invalidate_invalidate (o : Object) : o.invalidate.invalidate = o.invalidate := rfl

theorem InvalidateLoop_spec (L : List Nat) :
    ∀ h : Heap, (∀ x ∈ L, ∃ X, h x = some X) →
      ∃ h2, Object.InvalidateLoop L h = .ok h2 ∧
        ∀ q, h2 q = if q ∈ L then (h q).map Object.invalidate else h q := by
  induction L with
  | nil => intro h _; exact ⟨h, rfl, fun q => by simp⟩
  | cons u rest ih =>
    intro h hex
    obtain ⟨U, hU⟩ := hex u (List.mem_cons_self _ _)
    have hex2 : ∀ x ∈ rest, ∃ X, (h.set u (some U.invalidate)) x = some X := by
      intro x hx
      by_cases hxu : x = u
      · exact ⟨U.invalidate, by rw [hxu, Heap.set_same]⟩
      · obtain ⟨X, hX⟩ := hex x (List.mem_cons_of_mem _ hx)
        exact ⟨X, by rw [Heap.set_other _ _ _ _ hxu, hX]⟩
    obtain ⟨h2, hrun, hspec⟩ := ih _ hex2
    refine ⟨h2, ?_, ?_⟩
    · simp [Object.InvalidateLoop, hU, hrun]
    · intro q
      rw [hspec q]
      by_cases hqu : q = u
      · subst hqu
        by_cases hqr : q ∈ rest
        · simp [hqr, Heap.set_same, hU, invalidate_invalidate]
        · simp [hqr, Heap.set_same, hU]
      · simp [hqu, Heap.set_other _ _ _ _ hqu]

theorem construct_ok (h h2 : Heap) (p : Nat) (info : ObjectInfo) (ptr : Option Nat)
    (hc : Object.construct h p info ptr = .ok h2) :
    (¬ (info.mode = .kObjectRef ∧ info.alive = true) ∧ h2 = h.set p (some ⟨info, none, ptr⟩)) ∨
    (info.mode = .kObjectRef ∧ info.alive = true ∧ ∃ d obj, info.real_dest = some d ∧
      (h.set p (some ⟨info, none, ptr⟩)) d = some obj ∧
      h2 = (h.set p (some ⟨info, none, ptr⟩)).set d
        (some { obj with links_ := some (setInsert (obj.links_.getD []) p) })) := by
  unfold Object.construct Object.EstablishRefLink at hc
  rw [Heap.set_same] at hc
  simp only at hc
  by_cases hra : info.mode = .kObjectRef ∧ info.alive = true
  · right
    obtain ⟨hm, ha⟩ := hra
    refine ⟨hm, ha, ?_⟩
    simp only [hm, ha, beq_self_eq_true, Bool.and_self, if_true] at hc
    cases hd : info.real_dest with
    | none => simp [hd] at hc
    | some d =>
      simp only [hd] at hc
      cases ho : (h.set p (some ⟨info, none, ptr⟩)) d with
      | none => simp [ho] at hc
      | some obj =>
        simp only [ho] at hc
        exact ⟨d, obj, rfl, ho, by injection hc with hc; exact hc.symm⟩
  · left
    refine ⟨hra, ?_⟩
    have : (info.mode == .kObjectRef && info.alive) = false := by
      cases hm : (info.mode == ObjectMode.kObjectRef) <;> cases ha : info.alive <;> simp_all
    rw [this] at hc
    simp at hc
    exact hc.symm

theorem destroy_ok (h h2 : Heap) (p : Nat) (hd : Object.destroy h p = .ok h2) :
    ∃ P, h p = some P ∧
      ((P.info_.mode = .kObjectRef ∧ P.info_.alive = true ∧ ∃ d obj L0,
          P.info_.real_dest = some d ∧ h d = some obj ∧ obj.links_ = some L0 ∧
          h2 = (h.set d (some { obj with links_ := some (setErase L0 p) })).set p none) ∨
       (P.info_.mode = .kObjectRef ∧ P.info_.alive = false ∧ h2 = h.set p none) ∨
       (P.info_.mode ≠ .kObjectRef ∧ ∃ h1,
          Object.InvalidateLoop (P.links_.getD []) h = .ok h1 ∧ h2 = h1.set p none)) := by
  unfold Object.destroy Object.EraseRefLink at hd
  cases hP : h p with
  | none => simp [hP] at hd
  | some P =>
    refine ⟨P, rfl, ?_⟩
    simp only [hP] at hd
    by_cases hm : P.info_.mode = .kObjectRef
    · by_cases ha : P.info_.alive = true
      · left
        refine ⟨hm, ha, ?_⟩
        simp only [hm, ha, beq_self_eq_true, Bool.and_self, if_true] at hd
        cases hdd : P.info_.real_dest with
        | none => simp [hdd] at hd
        | some d =>
          simp only [hdd] at hd
          cases ho : h d with
          | none => simp [ho] at hd
          | some obj =>
            simp only [ho] at hd
            cases hl : obj.links_ with
            | none => simp [hl] at hd
            | some L0 =>
              simp only [hl] at hd
              refine ⟨d, obj, L0, rfl, ho, hl, ?_⟩
              by_cases hdp : d = p
              · subst hdp
                rw [hP] at ho
                injection ho with ho
                subst ho
                simp only [Heap.set_same, hm] at hd
                cases hs : setErase L0 d with
                | nil => simp [hs] at hd; exact hd.symm
                | cons u r => simp [hs] at hd; exact hd.symm
              · have hpd : p ≠ d := fun e => hdp e.symm
                simp only [Heap.set_other _ _ _ _ hpd, hP, hm] at hd
                cases hs : P.links_ with
                | none => simp [hs] at hd; exact hd.symm
                | some L =>
                  cases L with
                  | nil => simp [hs] at hd; exact hd.symm
                  | cons u r => simp [hs] at hd; exact hd.symm
      · right; left
        have ha2 : P.info_.alive = false := by simpa using ha
        refine ⟨hm, ha2, ?_⟩
        simp only [hm, ha2, beq_self_eq_true, Bool.and_false, Bool.false_eq_true, if_false,
          hP] at hd
        cases hs : P.links_ with
        | none => simp [hs] at hd; exact hd.symm
        | some L =>
          cases L with
          | nil => simp [hs] at hd; exact hd.symm
          | cons u r => simp [hs] at hd; exact hd.symm
    · right; right
      refine ⟨hm, ?_⟩
      have hb : (P.info_.mode == ObjectMode.kObjectRef) = false := by simpa using hm
      simp only [hb, Bool.false_and, Bool.false_eq_true, if_false, hP] at hd
      cases hs : P.links_ with
      | none =>
        simp [hs] at hd
        exact ⟨h, rfl, hd.symm⟩
      | some L =>
        cases L with
        | nil =>
          simp [hs] at hd
          exact ⟨h, rfl, hd.symm⟩
        | cons u r =>
          simp only [hs, bne, hb, Bool.not_false, if_true] at hd
          cases hl : Object.InvalidateLoop (u :: r) h with
          | error e => simp [hl] at hd
          | ok h1 =>
            simp [hl] at hd
            exact ⟨h1, by simpa using hl, hd.symm⟩

theorem destroy_owner (h : Heap) (a : Nat) (A : Object) (L : List Nat) (hA : h a = some A)
    (hAm : A.info_.mode ≠ .kObjectRef) (hL : A.links_ = some L)
    (hex : ∀ x ∈ L, ∃ X, h x = some X) :
    ∃ h2, Object.destroy h a = .ok h2 ∧ h2 a = none ∧
      ∀ q, q ≠ a → h2 q = if q ∈ L then (h q).map Object.invalidate else h q := by
  obtain ⟨h1, hrun, hspec⟩ := InvalidateLoop_spec L h hex
  have hb : (A.info_.mode == ObjectMode.kObjectRef) = false := by simpa using hAm
  refine ⟨h1.set a none, ?_, Heap.set_same _ _ _, ?_⟩
  · unfold Object.destroy Object.EraseRefLink
    simp only [hA, hb, Bool.false_and, Bool.false_eq_true, if_false, hL]
    cases L with
    | nil =>
      simp only [Object.InvalidateLoop, Except.ok.injEq] at hrun
      rw [hrun]
    | cons u r => simp [bne, hb, hrun]
  · intro q hq
    rw [Heap.set_other _ _ _ _ hq, hspec q]

theorem InvalidateLoop_ok (L : List Nat) :
    ∀ h h2 : Heap, Object.InvalidateLoop L h = .ok h2 →
      ∀ q, h2 q = if q ∈ L then (h q).map Object.invalidate else h q := by
  induction L with
  | nil =>
    intro h h2 hrun q
    simp only [Object.InvalidateLoop, Except.ok.injEq] at hrun
    subst hrun
    simp
  | cons u rest ih =>
    intro h h2 hrun q
    simp only [Object.InvalidateLoop] at hrun
    cases hU : h u with
    | none => simp [hU] at hrun
    | some U =>
      simp only [hU] at hrun
      rw [ih _ _ hrun q]
      by_cases hqu : q = u
      · subst hqu
        by_cases hqr : q ∈ rest
        · simp [hqr, Heap.set_same, hU, invalidate_invalidate]
        · simp [hqr, Heap.set_same, hU]
      · simp [hqu, Heap.set_other _ _ _ _ hqu]

theorem construct_registers (h : Heap) (a b : Nat) (A : Object) (info : ObjectInfo)
    (ptr : Option Nat) (hA : h a = some A) (hb : h b = none)
    (hm : info.mode = .kObjectRef) (ha : info.alive = true) (hd : info.real_dest = some a) :
    Object.construct h b info ptr =
      .ok ((h.set b (some ⟨info, none, ptr⟩)).set a
        (some { A with links_ := some (setInsert (A.links_.getD []) b) })) := by
  have hab : a ≠ b := by
    intro e
    rw [e, hb] at hA
    cases hA
  have hA2 : (h.set b (some ⟨info, none, ptr⟩)) a = some A := by
    rw [Heap.set_other _ _ _ _ hab, hA]
  simp [Object.construct, Object.EstablishRefLink, Heap.set_same, hm, ha, hd, hA2]

theorem Registered_keeps (h h2 : Heap) (a b : Nat) (hr : h.Registered a b)
    (hk : ∀ q, q = a ∨ q = b → ∀ Q, h q = some Q →
      ∃ Q2, h2 q = some Q2 ∧ Q2.info_.mode = Q.info_.mode ∧
        ∀ L, Q.links_ = some L → b ∈ L → ∃ L2, Q2.links_ = some L2 ∧ b ∈ L2) :
    h2.Registered a b := by
  obtain ⟨hab, A, B, L, hA, hAm, hL, hbL, hB⟩ := hr
  obtain ⟨A2, hA2, hm2, hl2⟩ := hk a (Or.inl rfl) A hA
  obtain ⟨B2, hB2, _, _⟩ := hk b (Or.inr rfl) B hB
  obtain ⟨L2, hL2, hbL2⟩ := hl2 L hL hbL
  exact ⟨hab, A2, B2, L2, hA2, by rw [hm2]; exact hAm, hL2, hbL2, hB2⟩

theorem keeps_set_other (h : Heap) (this b : Nat) (o : Option Object) :
    ∀ q, q ≠ this → ∀ Q, h q = some Q →
      ∃ Q2, (h.set this o) q = some Q2 ∧ Q2.info_.mode = Q.info_.mode ∧
        ∀ L, Q.links_ = some L → b ∈ L → ∃ L2, Q2.links_ = some L2 ∧ b ∈ L2 := by
  intro q hq Q hQ
  exact ⟨Q, by rw [Heap.set_other _ _ _ _ hq, hQ], rfl, fun L hL hbL => ⟨L, hL, hbL⟩⟩

theorem keeps_construct (h h2 : Heap) (this b : Nat) (info : ObjectInfo) (ptr : Option Nat)
    (hc : Object.construct h this info ptr = .ok h2) :
    ∀ q, q ≠ this → ∀ Q, h q = some Q →
      ∃ Q2, h2 q = some Q2 ∧ Q2.info_.mode = Q.info_.mode ∧
        ∀ L, Q.links_ = some L → b ∈ L → ∃ L2, Q2.links_ = some L2 ∧ b ∈ L2 := by
  intro q hq Q hQ
  rcases construct_ok h h2 this info ptr hc with ⟨_, h2eq⟩ | ⟨_, _, d, obj, _, hobj, h2eq⟩
  · subst h2eq
    exact keeps_set_other h this b _ q hq Q hQ
  · subst h2eq
    by_cases hqd : q = d
    · subst hqd
      rw [Heap.set_other _ _ _ _ hq, hQ] at hobj
      cases hobj
      refine ⟨{ Q with links_ := some (setInsert (Q.links_.getD []) this) },
        Heap.set_same _ _ _, rfl, ?_⟩
      intro L hL hbL
      refine ⟨setInsert (Q.links_.getD []) this, rfl, ?_⟩
      rw [hL]
      exact (mem_setInsert _ _ _).2 (Or.inr hbL)
    · refine ⟨Q, ?_, rfl, fun L hL hbL => ⟨L, hL, hbL⟩⟩
      rw [Heap.set_other _ _ _ _ hqd, Heap.set_other _ _ _ _ hq, hQ]

theorem keeps_destroy (h h2 : Heap) (this b : Nat) (hb : b ≠ this)
    (hd : Object.destroy h this = .ok h2) :
    ∀ q, q ≠ this → ∀ Q, h q = some Q →
      ∃ Q2, h2 q = some Q2 ∧ Q2.info_.mode = Q.info_.mode ∧
        ∀ L, Q.links_ = some L → b ∈ L → ∃ L2, Q2.links_ = some L2 ∧ b ∈ L2 := by
  intro q hq Q hQ
  obtain ⟨P, _, hcase⟩ := destroy_ok h h2 this hd
  rcases hcase with ⟨_, _, d, obj, L0, _, hobj, hl0, h2eq⟩ | ⟨_, _, h2eq⟩ | ⟨_, h1, hrun, h2eq⟩
  · subst h2eq
    by_cases hqd : q = d
    · subst hqd
      rw [hQ] at hobj
      cases hobj
      refine ⟨{ Q with links_ := some (setErase L0 this) },
        by rw [Heap.set_other _ _ _ _ hq, Heap.set_same], rfl, ?_⟩
      intro L hL hbL
      refine ⟨setErase L0 this, rfl, ?_⟩
      rw [hl0] at hL
      cases hL
      exact (mem_setErase _ _ _).2 ⟨hbL, hb⟩
    · refine ⟨Q, ?_, rfl, fun L hL hbL => ⟨L, hL, hbL⟩⟩
      rw [Heap.set_other _ _ _ _ hq, Heap.set_other _ _ _ _ hqd, hQ]
  · subst h2eq
    exact keeps_set_other h this b _ q hq Q hQ
  · subst h2eq
    have hspec := InvalidateLoop_ok _ h h1 hrun q
    by_cases hmem : q ∈ P.links_.getD []
    · refine ⟨Q.invalidate, ?_, rfl, fun L hL hbL => ⟨L, hL, hbL⟩⟩
      rw [Heap.set_other _ _ _ _ hq, hspec]
      simp [hmem, hQ]
    · refine ⟨Q, ?_, rfl, fun L hL hbL => ⟨L, hL, hbL⟩⟩
      rw [Heap.set_other _ _ _ _ hq, hspec]
      simp [hmem, hQ]

theorem keeps_flag (h : Heap) (this b : Nat) (o : Object) (f : Object → Object)
    (ho : h this = some o)
    (hf : (f o).info_.mode = o.info_.mode ∧ (f o).links_ = o.links_) :
    ∀ q, ∀ Q, h q = some Q →
      ∃ Q2, (h.set this (some (f o))) q = some Q2 ∧ Q2.info_.mode = Q.info_.mode ∧
        ∀ L, Q.links_ = some L → b ∈ L → ∃ L2, Q2.links_ = some L2 ∧ b ∈ L2 := by
  intro q Q hQ
  by_cases hq : q = this
  · subst hq
    rw [ho] at hQ
    cases hQ
    refine ⟨f o, Heap.set_same _ _ _, hf.1, ?_⟩
    intro L hL hbL
    exact ⟨L, by rw [hf.2, hL], hbL⟩
  · exact keeps_set_other h this b _ q hq Q hQ

theorem Others_Registered (a b : Nat) (h h2 : Heap) (ho : Heap.Others a b h h2)
    (hr : h.Registered a b) : h2.Registered a b := by
  have fresh : ∀ (h1 : Heap) (this : Nat), h1.Registered a b → h1 this = none →
      ∀ q, q = a ∨ q = b → q ≠ this := by
    intro h1 this hr1 hnone q hq e
    obtain ⟨_, A, B, _, hA, _, _, _, hB⟩ := hr1
    rcases hq with rfl | rfl
    · rw [e, hnone] at hA
      cases hA
    · rw [e, hnone] at hB
      cases hB
  have other : ∀ (this : Nat), this ≠ a → this ≠ b → ∀ q, q = a ∨ q = b → q ≠ this := by
    intro this ha hb q hq e
    rcases hq with rfl | rfl
    · exact ha e.symm
    · exact hb e.symm
  induction ho with
  | refl => exact hr
  | null h1 this _ hnone ih =>
    exact Registered_keeps _ _ a b ih
      (fun q hq => keeps_set_other h1 this b _ q (fresh h1 this ih hnone q hq))
  | ofPayload h1 this ptr type_id _ hnone ih =>
    exact Registered_keeps _ _ a b ih
      (fun q hq => keeps_set_other h1 this b _ q (fresh h1 this ih hnone q hq))
  | ofDelegate h1 this ptr type_id _ hnone ih =>
    exact Registered_keeps _ _ a b ih
      (fun q hq => keeps_set_other h1 this b _ q (fresh h1 this ih hnone q hq))
  | ofExternal h1 this ext_ptr rc type_id _ hnone ih =>
    exact Registered_keeps _ _ a b ih
      (fun q hq => keeps_set_other h1 this b _ q (fresh h1 this ih hnone q hq))
  | ofString h1 this ptr _ hnone ih =>
    exact Registered_keeps _ _ a b ih
      (fun q hq => keeps_set_other h1 this b _ q (fresh h1 this ih hnone q hq))
  | construct h1 h3 this info ptr _ hnone hc ih =>
    exact Registered_keeps _ _ a b ih
      (fun q hq => keeps_construct h1 h3 this b info ptr hc q (fresh h1 this ih hnone q hq))
  | copy h1 h3 this obj _ hnone hc ih =>
    cases ho1 : h1 obj with
    | none => simp [Object.copy, ho1] at hc
    | some o =>
      have hc2 : Object.construct h1 this o.info_ o.ptr = .ok h3 := by
        simpa [Object.copy, ho1, Object.construct] using hc
      exact Registered_keeps _ _ a b ih
        (fun q hq => keeps_construct h1 h3 this b _ _ hc2 q (fresh h1 this ih hnone q hq))
  | destroy h1 h3 this _ hta htb hd ih =>
    exact Registered_keeps _ _ a b ih
      (fun q hq => keeps_destroy h1 h3 this b (Ne.symm htb) hd q (other this hta htb q hq))
  | impact h1 h3 this info ptr _ hta htb hi ih =>
    cases ho1 : h1 this with
    | none => simp [Object.Impact, ho1] at hi
    | some o =>
      simp only [Object.Impact, ho1, Except.ok.injEq] at hi
      subst hi
      exact Registered_keeps _ _ a b ih
        (fun q hq => keeps_set_other h1 this b _ q (other this hta htb q hq))
  | infoTable h1 h3 this info _ hta htb hi ih =>
    cases ho1 : h1 this with
    | none => simp [Object.GetObjectInfoTable, ho1] at hi
    | some o =>
      simp only [Object.GetObjectInfoTable, ho1, Except.ok.injEq] at hi
      subst hi
      exact Registered_keeps _ _ a b ih
        (fun q hq => keeps_set_other h1 this b _ q (other this hta htb q hq))
  | setDeliveringFlag h1 this o _ ho1 ih =>
    exact Registered_keeps _ _ a b ih
      (fun q _ => keeps_flag h1 this b o Object.SetDeliveringFlag ho1 ⟨rfl, rfl⟩ q)
  | removeDeliveringFlag h1 this o _ ho1 ih =>
    exact Registered_keeps _ _ a b ih
      (fun q _ => keeps_flag h1 this b o Object.RemoveDeliveringFlag ho1 ⟨rfl, rfl⟩ q)
  | setContainerFlag h1 this o _ ho1 ih =>
    exact Registered_keeps _ _ a b ih
      (fun q _ => keeps_flag h1 this b o Object.SetContainerFlag ho1 ⟨rfl, rfl⟩ q)

theorem destroy_owner_ok (h h2 : Heap) (a : Nat) (A : Object) (hA : h a = some A)
    (hAm : A.info_.mode ≠ .kObjectRef) (hd : Object.destroy h a = .ok h2) :
    h2 a = none ∧
      ∀ q, q ≠ a →
        h2 q = if q ∈ A.links_.getD [] then (h q).map Object.invalidate else h q := by
  obtain ⟨P, hP, hcase⟩ := destroy_ok h h2 a hd
  rw [hA] at hP
  cases hP
  rcases hcase with ⟨hm, _⟩ | ⟨hm, _⟩ | ⟨_, h1, hrun, h2eq⟩
  · exact absurd hm hAm
  · exact absurd hm hAm
  · subst h2eq
    refine ⟨Heap.set_same _ _ _, ?_⟩
    intro q hq
    rw [Heap.set_other _ _ _ _ hq]
    exact InvalidateLoop_ok _ h h1 hrun q

theorem backlink_reused_address_counterexample :
    ∃ h h2, sampleReuse = .ok h ∧
      h 1 = some (Object.ofString 8) ∧
      (Object.ofString 8).info_.mode ≠ .kObjectRef ∧
      h 2 = some ⟨⟨some 1, .kObjectRef, false, false, true, kTypeIdString⟩, none, some 7⟩ ∧
      (Object.ofString 8).links_ = none ∧
      Object.destroy h 1 = .ok h2 ∧
      h2 2 = some ⟨⟨some 1, .kObjectRef, false, false, true, kTypeIdString⟩, none, some 7⟩ :=
  ⟨_, _, rfl, by decide, by decide, by decide, rfl, rfl, by decide⟩

/-- Claim C8, amended: for every object `A` that exists and is not a Reference and every
address `b` at which no object exists, the constructor from an `ObjectInfo` that names `A` as
the destination of a live Reference, and the copy or move constructor from a live Reference to
`A`, make at `b` an object that is a member of the back-link set of `A`. The member stays in
the set whatever the operations of `Object` do afterwards at other addresses (constructors at
any free address, which can be the address of a destroyed object, the destructor, `Impact` and
assignments through `GetObjectInfoTable`) and whatever the flag setters do. The destructor of
an object that is not a Reference returns when every member of its back-link set exists, and
when it returns the object is gone, every member of its back-link set has `alive = false` and
a null destination with its other fields unchanged, and every other object is unchanged: so a
registered `B` is invalidated, and an object that is not in the set is not. -/
theorem backlink_registered_until_destroyed (h : Heap) (a b : Nat) (A : Object)
    (hA : h a = some A) (hAm : A.info_.mode ≠ .kObjectRef) (hb : h b = none) :
    (∀ info ptr, info.mode = .kObjectRef → info.alive = true → info.real_dest = some a →
      ∃ h1, Object.construct h b info ptr = .ok h1 ∧ h1.Registered a b ∧
        h1 b = some ⟨info, none, ptr⟩) ∧
    (∀ c C, h c = some C → C.info_.mode = .kObjectRef → C.info_.alive = true →
      C.info_.real_dest = some a →
      ∃ h1, Object.copy h b c = .ok h1 ∧ h1.Registered a b ∧
        h1 b = some ⟨C.info_, none, C.ptr⟩) ∧
    (∀ h1 h2, h1.Registered a b → Heap.Others a b h1 h2 → h2.Registered a b) ∧
    (∀ h1 A1, h1 a = some A1 → A1.info_.mode ≠ .kObjectRef →
      ((∀ x ∈ A1.links_.getD [], ∃ X, h1 x = some X) →
        ∃ h2, Object.destroy h1 a = .ok h2) ∧
      ∀ h2, Object.destroy h1 a = .ok h2 →
        h2 a = none ∧
        ∀ q, q ≠ a →
          h2 q = if q ∈ A1.links_.getD [] then (h1 q).map Object.invalidate else h1 q) ∧
    (∀ h1 h2, h1.Registered a b → Object.destroy h1 a = .ok h2 →
      ∃ B, h1 b = some B ∧
        h2 b = some { B with info_ := { B.info_ with alive := false, real_dest := none } }) := by
  have hab : a ≠ b := by
    intro e
    rw [e, hb] at hA
    cases hA
  have reg : ∀ (info : ObjectInfo) (ptr : Option Nat),
      Heap.Registered ((h.set b (some ⟨info, none, ptr⟩)).set a
        (some { A with links_ := some (setInsert (A.links_.getD []) b) })) a b := by
    intro info ptr
    refine ⟨hab, _, ⟨info, none, ptr⟩, _, Heap.set_same _ _ _, hAm, rfl,
      (mem_setInsert _ _ _).2 (Or.inl rfl), ?_⟩
    rw [Heap.set_other _ _ _ _ (Ne.symm hab), Heap.set_same]
  refine ⟨?_, ?_, ?_, ?_, ?_⟩
  · intro info ptr hm ha hd
    refine ⟨_, construct_registers h a b A info ptr hA hb hm ha hd, reg info ptr, ?_⟩
    rw [Heap.set_other _ _ _ _ (Ne.symm hab), Heap.set_same]
  · intro c C hC hm ha hd
    have hcopy : Object.copy h b c = Object.construct h b C.info_ C.ptr := by
      simp [Object.copy, hC, Object.construct]
    refine ⟨_, by rw [hcopy]; exact construct_registers h a b A C.info_ C.ptr hA hb hm ha hd,
      reg C.info_ C.ptr, ?_⟩
    rw [Heap.set_other _ _ _ _ (Ne.symm hab), Heap.set_same]
  · intro h1 h2 hr ho
    exact Others_Registered a b h1 h2 ho hr
  · intro h1 A1 hA1 hA1m
    constructor
    · intro hex
      cases hl : A1.links_ with
      | none =>
        refine ⟨h1.set a none, ?_⟩
        have hbm : (A1.info_.mode == ObjectMode.kObjectRef) = false := by simpa using hA1m
        simp [Object.destroy, Object.EraseRefLink, hA1, hbm, hl]
      | some L =>
        rw [hl] at hex
        obtain ⟨h2, hd, _⟩ := destroy_owner h1 a A1 L hA1 hA1m hl (by simpa using hex)
        exact ⟨h2, hd⟩
    · intro h2 hd
      exact destroy_owner_ok h1 h2 a A1 hA1 hA1m hd
  · intro h1 h2 hr hd
    obtain ⟨hab1, A1, B, L, hA1, hA1m, hL, hbL, hB⟩ := hr
    obtain ⟨_, hspec⟩ := destroy_owner_ok h1 h2 a A1 hA1 hA1m hd
    refine ⟨B, hB, ?_⟩
    rw [hspec b (Ne.symm hab1), hL]
    simp [hbL, hB, Object.invalidate]

/-- Claim C9, as the code behaves: on a Reference whose destination pointer is null (the state of a Reference after its
target was destroyed), `Unpack`, `Get`, `GetDeliveringFlag`, `SeekDeliveringFlag` and
`IsSubContainer` all follow the null pointer: none of them tests `alive`. -/
theorem dead_reference_dereferenced (h : Heap) (b : Nat) (B : Object) (n : Nat)
    (hB : h b = some B) (hm : B.info_.mode = .kObjectRef) (_ha : B.info_.alive = false)
    (hd : B.info_.real_dest = none) :
    Object.Unpack h b = .error .nullDeref ∧
    Object.Get h (n + 1) b = .error .nullDeref ∧
    Object.GetDeliveringFlag h (n + 1) b = .error .nullDeref ∧
    Object.SeekDeliveringFlag h (n + 1) b = .error .nullDeref ∧
    Object.IsSubContainer h (n + 1) b = .error .nullDeref := by
  simp [Object.Unpack, Object.Get, Object.GetDeliveringFlag, Object.SeekDeliveringFlag,
    Object.IsSubContainer, Object.dest, hB, hm, hd]

theorem toSizeT_of_nonneg (n : Int) (h0 : 0 ≤ n) (h1 : n < 2 ^ 31) :
    (toSizeT n : Int) = n := by
  unfold toSizeT
  have h2 : n < 2 ^ 64 := lt_trans h1 (by norm_num)
  rw [Int.emod_eq_of_lt h0 h2]
  exact Int.toNat_of_nonneg h0

/-- Claim C10: for an entry of tier `Normal` or `BinaryOperator` whose required count is an `int`
`n ≥ 0`, `StartActivity` on an argument list of another length returns the `FatalError` result
with code `kCodeIllegalArgs`, logs it, and records no invocation of a callable; on a list of
length `n` it invokes the callable once and returns exactly its result. -/
theorem StartActivity_arity (e : EntryProvider) (p : List String) (w : World)
    (htier : e.priority = kFlagNormalEntry ∨ e.priority = kFlagBinEntry)
    (h0 : 0 ≤ e.requiredcount) (h1 : e.requiredcount < 2 ^ 31) :
    ((p.length : Int) ≠ e.requiredcount →
      e.StartActivity p w =
        .ok (⟨kStrFatalError, kCodeIllegalArgs, "Parameter count doesn't match - " ++ e.name⟩,
             { log := w.log ++ [⟨kStrFatalError, kCodeIllegalArgs,
                 "Parameter count doesn't match - " ++ e.name⟩],
               calls := w.calls })) ∧
    ((p.length : Int) = e.requiredcount → ∀ act, e.activity = some act →
      e.StartActivity p w =
        .ok (act p, { log := w.log, calls := w.calls ++ [⟨e.name, p⟩] })) := by
  have hplug : (e.priority == kFlagPluginEntry) = false := by
    rcases htier with h | h <;> rw [h] <;> decide
  have hs := toSizeT_of_nonneg _ h0 h1
  have hauto : (e.requiredcount == kFlagAutoSize) = false := by
    simp only [kFlagAutoSize, beq_eq_false_iff_ne, ne_eq]
    omega
  have hundef : (e.requiredcount == kFlagNotDefined) = false := by
    simp only [kFlagNotDefined, beq_eq_false_iff_ne, ne_eq]
    omega
  constructor
  · intro hne
    have hlen : (p.length == toSizeT e.requiredcount) = false := by
      simp only [beq_eq_false_iff_ne, ne_eq]
      intro e1
      apply hne
      rw [← hs, e1]
    simp [EntryProvider.StartActivity, hplug, hlen, hauto, hundef, Message.combo, World.logMsg,
      String.append]
    rfl
  · intro heq act hact
    have hlen : (p.length == toSizeT e.requiredcount) = true := by
      simp only [beq_iff_eq]
      have : ((p.length : Nat) : Int) = (toSizeT e.requiredcount : Int) := by rw [hs, heq]
      exact_mod_cast this
    simp [EntryProvider.StartActivity, hplug, hlen, hact, World.call]

/-! ### Witnesses and evaluations of the tokenizer -/

theorem Build_last_word_not_flushed_witness :
    ("abc".data ≠ [] ∧ ∀ c ∈ "abc".data, ordinary c = true) ∧ tokens "abc" = .ok [] :=
  ⟨by decide, Build_last_word_not_flushed "abc" (by decide) (by decide)⟩

theorem Build_two_char_operator_drops_last_word_witness :
    (("a".data ≠ [] ∧ ∀ c ∈ "a".data, ordinary c = true) ∧
     ("b".data ≠ [] ∧ ∀ c ∈ "b".data, ordinary c = true)) ∧
    tokens ("a" ++ "==" ++ "b") = .ok ["a", "=="] :=
  ⟨by decide, Build_two_char_operator_drops_last_word "a" "b" "==" (Or.inl rfl)
    (by decide) (by decide) (by decide) (by decide)⟩

/-- Claim C4, counterexample: `say "hi, there"` yields four tokens, the two quotes being
tokens of their own, and not the two tokens of the claim. -/
theorem Build_verbatim_counterexample :
    tokens "say \"hi, there\"" = .ok ["say", "\"", "hi, there", "\""] ∧
    tokens "say \"hi, there\"" ≠ .ok ["say", "\"hi, there\""] := by
  decide

theorem Build_verbatim_tokens_witness :
    (("say".data ≠ [] ∧ ∀ c ∈ "say".data, ordinary c = true) ∧
     ∀ c ∈ "hi, there".data, (c == '"') = false ∧ (c == '\\') = false) ∧
    tokens ("say" ++ " " ++ "\"" ++ "hi, there" ++ "\"") =
      .ok (["say", "\""] ++ (if "hi, there" != kStrEmpty then ["hi, there"] else []) ++ ["\""]) :=
  ⟨by decide, Build_verbatim_tokens "say" "hi, there" (by decide) (by decide) (by decide)⟩

theorem Build_spaced_comparison_drops_last_word_witness :
    (("a".data ≠ [] ∧ ∀ c ∈ "a".data, ordinary c = true) ∧
     ∀ c ∈ "b".data, ordinary c = true) ∧
    tokens ("a" ++ " = = " ++ "b") = .ok ["a", "=", "="] :=
  ⟨by decide, Build_spaced_comparison_drops_last_word "a" "b" (by decide) (by decide)
    (by decide)⟩

theorem Build_blank_joins_words_witness :
    (("foo".data ≠ [] ∧ ∀ c ∈ "foo".data, ordinary c = true) ∧
     Util.Compare "foo" ["var", "def", "return"] = false ∧
     ∀ c ∈ "bar".data, ordinary c = true) ∧
    tokens ("foo" ++ " " ++ "bar" ++ "(") = .ok ["foo" ++ "bar", "("] :=
  ⟨by decide, Build_blank_joins_words "foo" "bar" (by decide) (by decide) (by decide)
    (by decide)⟩

/-! ### The evaluator -/

theorem StartToken_operator_empty (base : List EntryProvider) (s : StartState)
    (hs : s.symbol = []) : StartToken base "+" s = .error .outOfRange := by
  have hp : kPatternSymbol "+" = true := by decide
  simp [StartToken, hp, StartSymbol, StartOperator, back, hs]

/-- Claim C1, as the code behaves: for every registry and all tokens `a`, `b`, `c` with `a` a
literal (neither a symbol nor an identifier), `Start` on `[a, "+", b, "*", c]` pushes `a` on the
item stack and then, at `+`, evaluates `symbol.back()` on the empty symbol stack: the
evaluation leaves the deque before any entry is invoked and no value is produced. -/
theorem Start_operator_reads_empty_symbol_stack (base : List EntryProvider) (w : World)
    (a b c : String) (h1 : kPatternSymbol a = false) (h2 : kPatternFunction a = false) :
    Chainloader.Start ⟨[a, "+", b, "*", c]⟩ base w = .error .outOfRange := by
  have e1 : StartToken base a (StartState.init w) =
      .ok ({ StartState.init w with item := [a] }, false) := by
    simp [StartToken, h1, h2, StartLiteral, StartState.init]
  unfold Chainloader.Start Chainloader.StartRun
  rw [StartLoop, e1]
  simp only []
  rw [StartLoop, StartToken_operator_empty _ _ rfl]

theorem Start_operator_reads_empty_symbol_stack_witness :
    (kPatternSymbol "1" = false ∧ kPatternFunction "1" = false) ∧
    Chainloader.Start ⟨["1", "+", "2", "*", "3"]⟩ (binexpRegistry toString toString) ⟨[], []⟩ =
      .error .outOfRange :=
  ⟨by decide, Start_operator_reads_empty_symbol_stack (binexpRegistry toString toString)
    ⟨[], []⟩ "1" "2" "3" (by decide) (by decide)⟩

/-- Claim C2, as the code behaves: on `( 2 * 3 + 4 * 5 )`, whatever the callables of `binexp`
and `commaexp` compute, `Start` invokes the operator entry three times: first `*` on the
operands 3 and 5, then `*` on 2 and that result, then `+` on 4 and that result. The forward
insert puts `4` at the bottom of the item stack, so the first `*` takes `3` and `5`, which are
operands of different operators in the expression; with the usual arithmetic the value is 34
and not 26. -/
theorem Start_forward_insert_misplaces_operands (f g : List String → String) :
    Chainloader.Start ⟨["(", "2", "*", "3", "+", "4", "*", "5", ")"]⟩ (binexpRegistry f g)
        ⟨[], []⟩ =
      .ok (Message.default, ⟨[], [⟨"binexp", ["5", "3", "*"]⟩,
        ⟨"binexp", [f ["5", "3", "*"], "2", "*"]⟩,
        ⟨"binexp", [f [f ["5", "3", "*"], "2", "*"], "4", "+"]⟩,
        ⟨"commaexp", [f [f [f ["5", "3", "*"], "2", "*"], "4", "+"]]⟩]⟩) := by
  rfl

/-! ### Witnesses of the object model and the registry -/

theorem backlink_registered_until_destroyed_witness :
    (sampleOwner 0 = some (Object.ofString 7) ∧
     (Object.ofString 7).info_.mode ≠ .kObjectRef ∧ sampleOwner 1 = none) ∧
    ∃ h1 h2, Object.construct sampleOwner 1 sampleRefInfo (some 7) = .ok h1 ∧
      h1.Registered 0 1 ∧ h1 1 = some ⟨sampleRefInfo, none, some 7⟩ ∧
      Object.destroy h1 0 = .ok h2 ∧ h2 0 = none ∧
      h2 1 = some ⟨{ sampleRefInfo with alive := false, real_dest := none }, none, some 7⟩ :=
  ⟨⟨rfl, by decide, rfl⟩,
   match (backlink_registered_until_destroyed sampleOwner 0 1 (Object.ofString 7) rfl
      (by decide) rfl).1 sampleRefInfo (some 7) rfl rfl rfl with
   | ⟨h1, hc, hr, hb⟩ =>
     ⟨h1, _, hc, hr, hb, by
        have e : h1 = (sampleOwner.set 1 (some ⟨sampleRefInfo, none, some 7⟩)).set 0
            (some { Object.ofString 7 with links_ := some (setInsert [] 1) }) := by
          have hc2 := construct_registers sampleOwner 0 1 (Object.ofString 7) sampleRefInfo
            (some 7) rfl rfl rfl rfl rfl
          rw [hc2] at hc
          cases hc
          rfl
        subst e
        exact ⟨rfl, by decide, by decide⟩⟩⟩

theorem dead_reference_dereferenced_witness :
    Object.Unpack sampleDeadHeap 0 = .error .nullDeref ∧
    Object.Get sampleDeadHeap (0 + 1) 0 = .error .nullDeref ∧
    Object.GetDeliveringFlag sampleDeadHeap (0 + 1) 0 = .error .nullDeref ∧
    Object.SeekDeliveringFlag sampleDeadHeap (0 + 1) 0 = .error .nullDeref ∧
    Object.IsSubContainer sampleDeadHeap (0 + 1) 0 = .error .nullDeref :=
  dead_reference_dereferenced sampleDeadHeap 0 _ 0 rfl rfl rfl rfl

theorem StartActivity_arity_witness :
    (((["a"].length : Int) ≠ sampleEntry.requiredcount →
      sampleEntry.StartActivity ["a"] ⟨[], []⟩ =
        .ok (⟨kStrFatalError, kCodeIllegalArgs,
              "Parameter count doesn't match - " ++ sampleEntry.name⟩,
             { log := [] ++ [⟨kStrFatalError, kCodeIllegalArgs,
                 "Parameter count doesn't match - " ++ sampleEntry.name⟩],
               calls := [] })) ∧
     ((["a"].length : Int) = sampleEntry.requiredcount → ∀ act, sampleEntry.activity = some act →
      sampleEntry.StartActivity ["a"] ⟨[], []⟩ =
        .ok (act ["a"], { log := [], calls := [] ++ [⟨sampleEntry.name, ["a"]⟩] }))) :=
  StartActivity_arity sampleEntry ["a"] ⟨[], []⟩ (Or.inl rfl) (by decide) (by decide)

/-! ### Brackets, errors and calls in the evaluator -/

theorem StartToken_literal (base : List EntryProvider) (t : String) (s : StartState)
    (h1 : kPatternSymbol t = false) (h2 : kPatternFunction t = false)
    (hf : s.forwardinsert = false) (hd : s.directappend = false) :
    StartToken base t s = .ok ({ s with item := s.item ++ [t] }, false) := by
  simp [StartToken, h1, h2, StartLiteral, hf, hd]

theorem StartLoop_literals (base : List EntryProvider) (lits more : List String)
    (hl : ∀ t ∈ lits, kPatternSymbol t = false ∧ kPatternFunction t = false) :
    ∀ s : StartState, s.forwardinsert = false → s.directappend = false →
      StartLoop base (lits ++ more) s = StartLoop base more { s with item := s.item ++ lits } := by
  induction lits with
  | nil => intro s _ _; simp
  | cons t lits ih =>
    intro s hf hd
    obtain ⟨h1, h2⟩ := hl t (List.mem_cons_self _ _)
    have hrest : ∀ u ∈ lits, kPatternSymbol u = false ∧ kPatternFunction u = false :=
      fun u hu => hl u (List.mem_cons_of_mem _ hu)
    rw [List.cons_append, StartLoop, StartToken_literal base t s h1 h2 hf hd]
    simp only []
    rw [ih hrest { s with item := s.item ++ [t] } hf hd]
    simp

theorem StartToken_close_empty (base : List EntryProvider) (s : StartState)
    (hs : s.symbol = []) : StartToken base ")" s = .error .outOfRange := by
  have hp : kPatternSymbol ")" = true := by decide
  simp [StartToken, hp, StartSymbol, StartBracket, BracketLoop, back, hs]

/-- Claim C11, as the code behaves: an unmatched `)` that follows literal tokens only makes
`Start` evaluate `symbol.back()` on the empty symbol stack (the loop condition of line 433 reads
the top before it tests `empty()`), for every registry, so no `FatalError` result is returned;
and on the unmatched `(` of `( 1 + 2` the operator entry is invoked on the operands of the
unclosed group before the illegal-symbol result is returned. -/
theorem Start_unmatched_bracket (base : List EntryProvider) (w : World)
    (lits rest : List String) (f g : List String → String)
    (hl : ∀ t ∈ lits, kPatternSymbol t = false ∧ kPatternFunction t = false) :
    Chainloader.Start ⟨lits ++ ")" :: rest⟩ base w = .error .outOfRange ∧
    Chainloader.Start ⟨["(", "1", "+", "2"]⟩ (binexpRegistry f g) ⟨[], []⟩ =
      .ok (⟨kStrFatalError, kCodeIllegalSymbol, "Another bracket expected."⟩,
           ⟨[], [⟨"binexp", ["2", "1", "+"]⟩]⟩) := by
  constructor
  · unfold Chainloader.Start Chainloader.StartRun
    rw [StartLoop_literals base lits _ hl _ rfl rfl, StartLoop,
      StartToken_close_empty _ _ rfl]
  · rfl

theorem Start_unmatched_bracket_witness :
    (∀ t ∈ ["1"], kPatternSymbol t = false ∧ kPatternFunction t = false) ∧
    (Chainloader.Start ⟨["1"] ++ ")" :: []⟩ (binexpRegistry toString toString) ⟨[], []⟩ =
        .error .outOfRange ∧
     Chainloader.Start ⟨["(", "1", "+", "2"]⟩ (binexpRegistry toString toString) ⟨[], []⟩ =
      .ok (⟨kStrFatalError, kCodeIllegalSymbol, "Another bracket expected."⟩,
           ⟨[], [⟨"binexp", ["2", "1", "+"]⟩]⟩)) :=
  ⟨by decide, Start_unmatched_bracket (binexpRegistry toString toString) ⟨[], []⟩ ["1"] []
    toString toString (by decide)⟩

/-- Claim C12, as the code behaves: on `( 1 + 2 * 3 )` with an operator entry that returns a
`FatalError` result on every invocation, `Start` logs the first result and goes on: it invokes
the operator entry again, on the text `false` pushed for the failed `*`, then `commaexp`, and
returns the result of the second invocation, not of the first. -/
theorem Start_continues_after_fatal (d g : List String → String) :
    Chainloader.Start ⟨["(", "1", "+", "2", "*", "3", ")"]⟩ (fatalRegistry d g) ⟨[], []⟩ =
      .ok (⟨kStrFatalError, kCodeIllegalArgs, d ["false", "1", "+"]⟩,
           ⟨[⟨kStrFatalError, kCodeIllegalArgs, d ["3", "2", "*"]⟩,
             ⟨kStrFatalError, kCodeIllegalArgs, d ["false", "1", "+"]⟩],
            [⟨"binexp", ["3", "2", "*"]⟩, ⟨"binexp", ["false", "1", "+"]⟩,
             ⟨"commaexp", ["false"]⟩]⟩) := by
  rfl

theorem StartToken_comma (base : List EntryProvider) (s : StartState) :
    StartToken base "," s = .ok ({ s with symbol := s.symbol ++ [","] }, false) := by
  have hp : kPatternSymbol "," = true := by decide
  simp [StartToken, hp, StartSymbol]

/-- Claim C13, as the code behaves: for all literal tokens `a` and `b`, on `f ( a , b )` with
`f` of tier `Normal` and required count 2, `Start` sets the item `b` aside at the comma and then
resolves the bracket `(` as an entry, which takes the item `a` off the stack and fails with
"Activity not found"; `f` is then given the one argument `b`, the arity check rejects it, and
the callable of `f` is never invoked: no invocation is recorded at all. -/
theorem Start_call_with_comma (f g h : List String → String) (a b : String)
    (ha1 : kPatternSymbol a = false) (ha2 : kPatternFunction a = false)
    (hb1 : kPatternSymbol b = false) (hb2 : kPatternFunction b = false) :
    Chainloader.Start ⟨["f", "(", a, ",", b, ")"]⟩ (callRegistry f g h) ⟨[], []⟩ =
      .ok (⟨kStrFatalError, kCodeIllegalArgs, "Parameter count doesn't match - f"⟩,
           ⟨[⟨kStrFatalError, kCodeIllegalCall, "Activity not found"⟩,
             ⟨kStrFatalError, kCodeIllegalArgs, "Parameter count doesn't match - f"⟩,
             ⟨kStrFatalError, kCodeIllegalArgs, "Parameter count doesn't match - f"⟩],
            []⟩) := by
  have e1 : StartLoop (callRegistry f g h) ["f", "(", a, ",", b, ")"]
      (StartState.init ⟨[], []⟩) =
      StartLoop (callRegistry f g h) [a, ",", b, ")"]
        ⟨[], ["f", "("], [], [], Entry.Query (callRegistry f g h) "f", Message.default, 0,
          false, false, ⟨[], []⟩⟩ := rfl
  have e2 : StartLoop (callRegistry f g h) [")"]
      ⟨[a, b], ["f", "(", ","], [], [], Entry.Query (callRegistry f g h) "f",
        Message.default, 0, false, false, ⟨[], []⟩⟩ =
      .ok ⟨["false"], [], [b], [], Entry.Query (callRegistry f g h) "f",
        ⟨kStrFatalError, kCodeIllegalArgs, "Parameter count doesn't match - f"⟩, 0, false,
        false,
        ⟨[⟨kStrFatalError, kCodeIllegalCall, "Activity not found"⟩,
             ⟨kStrFatalError, kCodeIllegalArgs, "Parameter count doesn't match - f"⟩,
             ⟨kStrFatalError, kCodeIllegalArgs, "Parameter count doesn't match - f"⟩],
            []⟩⟩ := by
    rfl
  unfold Chainloader.Start Chainloader.StartRun
  rw [e1, StartLoop, StartToken_literal _ a _ ha1 ha2 rfl rfl]
  simp only []
  rw [StartLoop, StartToken_comma]
  simp only []
  rw [StartLoop, StartToken_literal _ b _ hb1 hb2 rfl rfl]
  simp only []
  rw [show ([] : List String) ++ [a] ++ [b] = [a, b] from rfl,
    show ["f", "("] ++ [","] = ["f", "(", ","] from rfl, e2]
  rfl

theorem Start_call_with_comma_witness :
    ((kPatternSymbol "1" = false ∧ kPatternFunction "1" = false) ∧
     (kPatternSymbol "2" = false ∧ kPatternFunction "2" = false)) ∧
    Chainloader.Start ⟨["f", "(", "1", ",", "2", ")"]⟩ (callRegistry toString toString toString)
        ⟨[], []⟩ =
      .ok (⟨kStrFatalError, kCodeIllegalArgs, "Parameter count doesn't match - f"⟩,
           ⟨[⟨kStrFatalError, kCodeIllegalCall, "Activity not found"⟩,
             ⟨kStrFatalError, kCodeIllegalArgs, "Parameter count doesn't match - f"⟩,
             ⟨kStrFatalError, kCodeIllegalArgs, "Parameter count doesn't match - f"⟩],
            []⟩) :=
  ⟨by decide, Start_call_with_comma toString toString toString "1" "2" (by decide) (by decide)
    (by decide) (by decide)⟩

/-! ### The entry registry -/

theorem foldl_no_match (cond : EntryProvider → Bool) (base : List EntryProvider)
    (h : ∀ e ∈ base, cond e = false) :
    ∀ init : EntryProvider,
      base.foldl (fun result unit => if cond unit then unit else result) init = init := by
  induction base with
  | nil => intro init; rfl
  | cons e rest ih =>
    intro init
    have he : cond e = false := h e (List.mem_cons_self _ _)
    have hrest : ∀ u ∈ rest, cond u = false := fun u hu => h u (List.mem_cons_of_mem _ hu)
    simp [List.foldl_cons, he, ih hrest]

theorem Order_Inject (base : List EntryProvider) (p : EntryProvider) :
    Entry.Order (Entry.Inject base p) p.name = p := by
  simp [Entry.Order, Entry.Inject, List.foldl_append]

theorem Order_absent (base : List EntryProvider) (name : String)
    (h : ∀ e ∈ base, e.name ≠ name) : Entry.Order base name = EntryProvider.default := by
  unfold Entry.Order
  exact foldl_no_match (fun unit => unit.name == name) base
    (fun e he => by simpa using h e he) _

theorem Query_Inject (base : List EntryProvider) (p : EntryProvider)
    (hp : p.priority = kFlagNormalEntry) (heq : p.name ≠ "=") :
    Entry.Query (Entry.Inject base p) p.name = p := by
  have h1 : (p.name == "=") = false := by simpa using heq
  simp [Entry.Query, Entry.Inject, List.foldl_append, h1, hp]

theorem Query_absent (base : List EntryProvider) (name : String)
    (h : ∀ e ∈ base, e.name ≠ name)
    (hop : name ≠ "+" ∧ name ≠ "-" ∧ name ≠ "*" ∧ name ≠ "/" ∧ name ≠ "=") :
    Entry.Query base name = EntryProvider.default := by
  obtain ⟨h1, h2, h3, h4, h5⟩ := hop
  have e1 : (name == "+") = false := by simpa using h1
  have e2 : (name == "-") = false := by simpa using h2
  have e3 : (name == "*") = false := by simpa using h3
  have e4 : (name == "/") = false := by simpa using h4
  have e5 : (name == "=") = false := by simpa using h5
  unfold Entry.Query
  simp only [e1, e2, e3, e4, e5, Bool.or_self, Bool.false_eq_true, if_false]
  exact foldl_no_match (fun unit => unit.name == name && unit.priority == kFlagNormalEntry) base
    (fun e he => by
      have : (e.name == name) = false := by simpa using h e he
      simp [this]) _

theorem Query_unregistered_operator_counterexample :
    (∀ e ∈ binexpRegistry toString toString, e.name ≠ "+") ∧
    (Entry.Query (binexpRegistry toString toString) "+").Good = true ∧
    (Entry.Query (binexpRegistry toString toString) "+").name = "binexp" := by
  decide

/-- Claim C14, amended: for every registry and every entry `p` of tier `Normal` whose name is
not one of `+ - * / =`, after `Inject(p)` both `Order(p.name)` and `Query(p.name)` return `p`,
whatever was registered before; and for a name that no registered entry has, `Order` returns an
entry that is not `Good`, and so does `Query` when the name is not one of the operator tokens
`+ - * / =`. For `+ - * /` with no entry of that name `Query` returns what `Order("binexp")`
returns, and for `=` it returns what `Order("set")` returns. -/
theorem Inject_then_resolve (base : List EntryProvider) (p : EntryProvider) (name : String)
    (hp : p.priority = kFlagNormalEntry)
    (hop : p.name ≠ "+" ∧ p.name ≠ "-" ∧ p.name ≠ "*" ∧ p.name ≠ "/" ∧ p.name ≠ "=")
    (hname : ∀ e ∈ base, e.name ≠ name) :
    Entry.Order (Entry.Inject base p) p.name = p ∧
    Entry.Query (Entry.Inject base p) p.name = p ∧
    (Entry.Order base name).Good = false ∧
    ((name ≠ "+" ∧ name ≠ "-" ∧ name ≠ "*" ∧ name ≠ "/" ∧ name ≠ "=") →
      (Entry.Query base name).Good = false) ∧
    ((name = "+" ∨ name = "-" ∨ name = "*" ∨ name = "/") →
      Entry.Query base name = Entry.Order base "binexp") ∧
    Entry.Query base "=" = Entry.Order base "set" := by
  refine ⟨Order_Inject base p, Query_Inject base p hp hop.2.2.2.2, ?_, ?_, ?_, ?_⟩
  · rw [Order_absent base name hname]
    rfl
  · intro hn
    rw [Query_absent base name hname hn]
    rfl
  · intro hn
    have hops : (name == "+" || name == "-" || name == "*" || name == "/") = true := by
      rcases hn with h | h | h | h <;> subst h <;> decide
    have heq : (name == "=") = false := by
      rcases hn with h | h | h | h <;> subst h <;> decide
    unfold Entry.Query
    simp only [hops, heq, if_true, Bool.false_eq_true, if_false]
    exact foldl_no_match (fun unit => unit.name == name && unit.priority == kFlagNormalEntry)
      base (fun e he => by
        have : (e.name == name) = false := by simpa using hname e he
        simp [this]) _
  · simp [Entry.Query]

theorem Inject_then_resolve_witness :
    (sampleEntry.priority = kFlagNormalEntry ∧
     (sampleEntry.name ≠ "+" ∧ sampleEntry.name ≠ "-" ∧ sampleEntry.name ≠ "*" ∧
      sampleEntry.name ≠ "/" ∧ sampleEntry.name ≠ "=") ∧
     ∀ e ∈ [sampleEntry], e.name ≠ "other") ∧
    (Entry.Order (Entry.Inject [sampleEntry] sampleEntry) sampleEntry.name = sampleEntry ∧
     Entry.Query (Entry.Inject [sampleEntry] sampleEntry) sampleEntry.name = sampleEntry ∧
     (Entry.Order [sampleEntry] "other").Good = false ∧
     (("other" ≠ "+" ∧ "other" ≠ "-" ∧ "other" ≠ "*" ∧ "other" ≠ "/" ∧ "other" ≠ "=") →
       (Entry.Query [sampleEntry] "other").Good = false) ∧
     (("other" = "+" ∨ "other" = "-" ∨ "other" = "*" ∨ "other" = "/") →
       Entry.Query [sampleEntry] "other" = Entry.Order [sampleEntry] "binexp") ∧
     Entry.Query [sampleEntry] "=" = Entry.Order [sampleEntry] "set") :=
  ⟨⟨rfl, by decide, by decide⟩,
   Inject_then_resolve [sampleEntry] sampleEntry "other" rfl (by decide) (by decide)⟩

/-- Claim C15, as the code behaves: for every registry and every operator token `op` of
`+ - * /`, once an entry `p` of tier `Normal` is registered under the name `op`, `Query(op)`
returns `p` and not the entry `Order("binexp")`: after `result = Order("binexp")` the loop of
the `else` branch of `if (target == "=")` runs for the operator tokens too. -/
theorem Query_operator_overridden (base : List EntryProvider) (p : EntryProvider) (op : String)
    (hop : op = "+" ∨ op = "-" ∨ op = "*" ∨ op = "/") (hn : p.name = op)
    (hp : p.priority = kFlagNormalEntry) :
    Entry.Query (Entry.Inject base p) op = p ∧
    Entry.Order (Entry.Inject base p) "binexp" = Entry.Order base "binexp" := by
  have hne : (op == "=") = false := by
    rcases hop with h | h | h | h <;> subst h <;> decide
  have hb : (p.name == "binexp") = false := by
    rw [hn]
    rcases hop with h | h | h | h <;> subst h <;> decide
  constructor
  · subst hn
    simp [Entry.Query, Entry.Inject, List.foldl_append, hne, hp]
  · have hb2 : ¬ (p.name = "binexp") := by simpa using hb
    simp [Entry.Order, Entry.Inject, List.foldl_append, hb2]

/-- Claim C16, as the code behaves: when two entries `p` and `q` of the same name are
registered in this order, `q` of tier `Normal`, `Query` returns the last one, `q`, but
`FastGetCount` returns the required count of the first one, `p`. -/
theorem FastGetCount_first_Query_last (p q : EntryProvider) (hn : q.name = p.name)
    (hq : q.priority = kFlagNormalEntry)
    (hop : p.name ≠ "+" ∧ p.name ≠ "-" ∧ p.name ≠ "*" ∧ p.name ≠ "/" ∧ p.name ≠ "=") :
    Entry.Query [p, q] p.name = q ∧ Entry.FastGetCount [p, q] p.name = p.requiredcount := by
  obtain ⟨h1, h2, h3, h4, h5⟩ := hop
  have e1 : (p.name == "+") = false := by simpa using h1
  have e2 : (p.name == "-") = false := by simpa using h2
  have e3 : (p.name == "*") = false := by simpa using h3
  have e4 : (p.name == "/") = false := by simpa using h4
  have e5 : (p.name == "=") = false := by simpa using h5
  constructor
  · simp [Entry.Query, e1, e2, e3, e4, e5, hn, hq]
  · simp [Entry.FastGetCount, e1, e2, e3, e4, e5]

theorem toSizeT_kFlagNotDefined : toSizeT kFlagNotDefined = 2 ^ 64 - 2 := by
  decide

/-- Claim C17, amended: for every entry that is not of the `Plugin` tier and whose required
count is the sentinel `kFlagNotDefined`, and every argument list, `StartActivity` returns the
`FatalError` result with the code `kCodeBrokenEntry`, logs it, and invokes no callable. -/
theorem StartActivity_broken_entry (e : EntryProvider) (p : List String) (w : World)
    (hc : e.requiredcount = kFlagNotDefined) (ht : e.priority ≠ kFlagPluginEntry)
    (hp : p.length < 2 ^ 59) :
    e.StartActivity p w =
      .ok (⟨kStrFatalError, kCodeBrokenEntry, "Illegal Entry - " ++ e.name⟩,
           { log := w.log ++ [⟨kStrFatalError, kCodeBrokenEntry, "Illegal Entry - " ++ e.name⟩],
             calls := w.calls }) := by
  have hplug : (e.priority == kFlagPluginEntry) = false := by simpa using ht
  have hlen : (p.length == toSizeT e.requiredcount) = false := by
    rw [hc, toSizeT_kFlagNotDefined]
    simp only [beq_eq_false_iff_ne, ne_eq]
    intro h
    rw [h] at hp
    exact absurd hp (by norm_num)
  have hauto : (e.requiredcount == kFlagAutoSize) = false := by
    rw [hc]
    decide
  have hundef : (e.requiredcount == kFlagNotDefined) = true := by
    rw [hc]
    decide
  simp [EntryProvider.StartActivity, hplug, hlen, hauto, hundef, Message.combo, World.logMsg,
    String.append]
  rfl

theorem Query_operator_overridden_witness :
    (samplePlus.name = "+" ∧ samplePlus.priority = kFlagNormalEntry) ∧
    (Entry.Query (Entry.Inject (binexpRegistry toString toString) samplePlus) "+" = samplePlus ∧
     Entry.Order (Entry.Inject (binexpRegistry toString toString) samplePlus) "binexp" =
       Entry.Order (binexpRegistry toString toString) "binexp") ∧
    (Entry.Order (binexpRegistry toString toString) "binexp").name = "binexp" :=
  ⟨⟨rfl, rfl⟩,
   Query_operator_overridden (binexpRegistry toString toString) samplePlus "+" (Or.inl rfl) rfl
     rfl,
   rfl⟩

theorem FastGetCount_first_Query_last_witness :
    (sampleEntry.name = sampleEntryOne.name ∧ sampleEntry.priority = kFlagNormalEntry ∧
     sampleEntry.Good = true ∧ sampleEntry.requiredcount = 2 ∧
     sampleEntryOne.requiredcount = 1) ∧
    (Entry.Query [sampleEntryOne, sampleEntry] sampleEntryOne.name = sampleEntry ∧
     Entry.FastGetCount [sampleEntryOne, sampleEntry] sampleEntryOne.name =
       sampleEntryOne.requiredcount) :=
  ⟨⟨rfl, rfl, rfl, rfl, rfl⟩,
   FastGetCount_first_Query_last sampleEntryOne sampleEntry rfl rfl (by decide)⟩

/-- Claim C17, counterexample: an entry of the `Plugin` tier whose required count is
`kFlagNotDefined` does not get the broken entry result: `StartActivity` takes the `Plugin`
branch first and calls `activity2`, here the null pointer. -/
theorem StartActivity_broken_entry_counterexample :
    sampleUndefinedPlugin.requiredcount = kFlagNotDefined ∧
    sampleUndefinedPlugin.StartActivity [] ⟨[], []⟩ = .error .nullDeref ∧
    sampleUndefinedPlugin.StartActivity [] ⟨[], []⟩ ≠
      .ok (⟨kStrFatalError, kCodeBrokenEntry, "Illegal Entry - " ++ sampleUndefinedPlugin.name⟩,
           { log := [⟨kStrFatalError, kCodeBrokenEntry,
               "Illegal Entry - " ++ sampleUndefinedPlugin.name⟩],
             calls := [] }) := by
  refine ⟨rfl, rfl, ?_⟩
  intro h
  cases h

theorem StartActivity_broken_entry_witness :
    (EntryProvider.default.requiredcount = kFlagNotDefined ∧
     EntryProvider.default.priority ≠ kFlagPluginEntry ∧ ["a"].length < 2 ^ 59) ∧
    EntryProvider.default.StartActivity ["a"] ⟨[], []⟩ =
      .ok (⟨kStrFatalError, kCodeBrokenEntry, "Illegal Entry - " ++ EntryProvider.default.name⟩,
           { log := [] ++ [⟨kStrFatalError, kCodeBrokenEntry,
               "Illegal Entry - " ++ EntryProvider.default.name⟩],
             calls := [] }) :=
  ⟨⟨rfl, by decide, by decide⟩,
   StartActivity_broken_entry EntryProvider.default ["a"] ⟨[], []⟩ rfl (by decide) (by decide)⟩

/-! ### Scope containers and scope stacks -/

theorem Containers_set_same (m : Containers) (p : Nat) (c : Option ObjectContainer) :
    (m.set p c) p = c := by
  simp [Containers.set]

theorem Containers_set_other (m : Containers) (p q : Nat) (c : Option ObjectContainer)
    (hq : q ≠ p) : (m.set p c) q = m q := by
  simp [Containers.set, hq]

/-- Claim C18: for every scope stack that is not in the delegated-root state (one container
and the delegated flag set), `Push(inherit_last_scope)` appends the address of exactly one new
container as the innermost one; the new container is empty, not delegated, and its
previous-pointer is the formerly innermost container when `inherit_last_scope` is true, the
bottom container when it is false, and null when the stack was empty; the containers the
stack had are unchanged, and so is the delegated flag. -/
theorem Push_sets_previous (sc : Scopes) (s : ObjectStack) (inherit_last_scope : Bool)
    (hnd : ¬ (s.base_.length = 1 ∧ s.delegated_ = true))
    (hfresh : sc.next ∉ s.base_) :
    ∃ sc2 s2, ObjectStack.Push sc s inherit_last_scope = .ok (sc2, s2) ∧
      s2.base_ = s.base_ ++ [sc.next] ∧ s2.delegated_ = s.delegated_ ∧
      sc2.cells sc.next =
        some ⟨none, if inherit_last_scope then s.base_.getLast? else s.base_.head?, [], []⟩ ∧
      (s.base_ = [] → sc2.cells sc.next = some ⟨none, none, [], []⟩) ∧
      (∀ a ∈ s.base_, sc2.cells a = sc.cells a) ∧
      (∀ a, a ≠ sc.next → sc2.cells a = sc.cells a) := by
  have hc : (s.base_.length == 1 && s.delegated_) = false := by
    cases h1 : (s.base_.length == 1) <;> cases h2 : s.delegated_ <;> simp_all
  refine ⟨⟨(sc.cells.set sc.next (some ObjectContainer.new.move)).set sc.next
      (some { ObjectContainer.new.move with
        prev_ := if inherit_last_scope then s.base_.getLast? else s.base_.head? }),
      sc.next + 1⟩, { s with base_ := s.base_ ++ [sc.next] }, ?_, rfl, rfl, ?_, ?_, ?_, ?_⟩
  · simp [ObjectStack.Push, hc, ObjectContainer.SetPreviousContainer, Containers_set_same,
      ObjectContainer.move, ObjectContainer.new]
  · simp [Containers_set_same, ObjectContainer.move, ObjectContainer.new]
  · intro he
    simp [Containers_set_same, ObjectContainer.move, ObjectContainer.new, he]
  · intro a ha
    have hne : a ≠ sc.next := fun e => hfresh (e ▸ ha)
    simp [Containers_set_other _ _ _ _ hne]
  · intro a hne
    simp [Containers_set_other _ _ _ _ hne]

theorem Push_sets_previous_witness :
    (¬ (([3, 4] : List Nat).length = 1 ∧ false = true) ∧ (5 : Nat) ∉ ([3, 4] : List Nat)) ∧
    ∃ sc2 s2, ObjectStack.Push ⟨fun _ => none, 5⟩ ⟨none, [3, 4], none, false⟩ true =
        .ok (sc2, s2) ∧
      s2.base_ = [3, 4] ++ [5] ∧ s2.delegated_ = false ∧
      sc2.cells 5 =
        some ⟨none, if true then ([3, 4] : List Nat).getLast? else ([3, 4] : List Nat).head?,
          [], []⟩ ∧
      (([3, 4] : List Nat) = [] → sc2.cells 5 = some ⟨none, none, [], []⟩) ∧
      (∀ a ∈ ([3, 4] : List Nat), sc2.cells a = (fun _ => none : Containers) a) ∧
      (∀ a, a ≠ 5 → sc2.cells a = (fun _ => none : Containers) a) :=
  ⟨by decide,
   Push_sets_previous ⟨fun _ => none, 5⟩ ⟨none, [3, 4], none, false⟩ true (by decide)
     (by decide)⟩

/-- Claim C19: for every scope stack that holds exactly one container and has the delegated
flag set, and both values of the argument, the first `Push` returns the same containers and
the same stack with the flag cleared, and the next `Push` appends one new container, so the
depth is 2; `SetDelegatedRoot` on a stack of at most one container gives such a stack. -/
theorem Push_enters_delegated_root (sc : Scopes) (s : ObjectStack) (b1 b2 : Bool)
    (hone : s.base_.length = 1) (hd : s.delegated_ = true) :
    ObjectStack.Push sc s b1 = .ok (sc, { s with delegated_ := false }) ∧
    (∃ sc2 s2, ObjectStack.Push sc { s with delegated_ := false } b2 = .ok (sc2, s2) ∧
      s2.base_ = s.base_ ++ [sc.next] ∧ s2.base_.length = 2) ∧
    (∀ (sc0 : Scopes) (s0 : ObjectStack) (root : Nat), s0.base_.length ≤ 1 →
      (ObjectStack.SetDelegatedRoot sc0 s0 root).2.base_.length = 1 ∧
      (ObjectStack.SetDelegatedRoot sc0 s0 root).2.delegated_ = true) := by
  refine ⟨?_, ?_, ?_⟩
  · simp [ObjectStack.Push, hone, hd]
  · refine ⟨⟨(sc.cells.set sc.next (some ObjectContainer.new.move)).set sc.next
        (some { ObjectContainer.new.move with
          prev_ := if b2 then s.base_.getLast? else s.base_.head? }), sc.next + 1⟩,
      { s with base_ := s.base_ ++ [sc.next], delegated_ := false }, ?_, rfl, ?_⟩
    · simp [ObjectStack.Push, ObjectContainer.SetPreviousContainer, Containers_set_same,
        ObjectContainer.move, ObjectContainer.new]
    · simp [hone]
  · intro sc0 s0 root hle
    refine ⟨?_, rfl⟩
    cases hb : s0.base_ with
    | nil => simp [ObjectStack.SetDelegatedRoot, hb]
    | cons a rest =>
      rw [hb] at hle
      simp at hle
      simp [ObjectStack.SetDelegatedRoot, hb, hle]

theorem Push_enters_delegated_root_witness :
    ((ObjectStack.SetDelegatedRoot ⟨fun _ => none, 1⟩ ObjectStack.new 0).2.base_.length = 1 ∧
     (ObjectStack.SetDelegatedRoot ⟨fun _ => none, 1⟩ ObjectStack.new 0).2.delegated_ = true) ∧
    (ObjectStack.Push ⟨fun _ => none, 2⟩
        (ObjectStack.SetDelegatedRoot ⟨fun _ => none, 1⟩ ObjectStack.new 0).2 false =
      .ok (⟨fun _ => none, 2⟩,
        { (ObjectStack.SetDelegatedRoot ⟨fun _ => none, 1⟩ ObjectStack.new 0).2 with
          delegated_ := false }) ∧
     (∃ sc2 s2, ObjectStack.Push ⟨fun _ => none, 2⟩
        { (ObjectStack.SetDelegatedRoot ⟨fun _ => none, 1⟩ ObjectStack.new 0).2 with
          delegated_ := false } true = .ok (sc2, s2) ∧
      s2.base_ =
        (ObjectStack.SetDelegatedRoot ⟨fun _ => none, 1⟩ ObjectStack.new 0).2.base_ ++ [2] ∧
      s2.base_.length = 2) ∧
     (∀ (sc0 : Scopes) (s0 : ObjectStack) (root : Nat), s0.base_.length ≤ 1 →
      (ObjectStack.SetDelegatedRoot sc0 s0 root).2.base_.length = 1 ∧
      (ObjectStack.SetDelegatedRoot sc0 s0 root).2.delegated_ = true)) :=
  ⟨⟨rfl, rfl⟩,
   Push_enters_delegated_root ⟨fun _ => none, 2⟩
     (ObjectStack.SetDelegatedRoot ⟨fun _ => none, 1⟩ ObjectStack.new 0).2 false true rfl rfl⟩

/-- Claim C20, as the code behaves: for a container `D` delegated to a distinct container `T`
that is not delegated, `GetContent` and `GetHashMap` return the maps of `T`, `Clear` empties
the storage of `T` (and of `D`), `SetPreviousContainer` sets the previous-pointer of `T` and
leaves `D` as it is, and assignment assigns into `T`; but `Empty` does not forward: it tests
the own map of `D`, whatever `T` holds. -/
theorem delegated_container_operations (m : Containers) (D T : Nat) (d t : ObjectContainer)
    (n : Nat) (p : Option Nat) (hD : m D = some d) (hT : m T = some t)
    (hd : d.delegator_ = some T) (ht : t.delegator_ = none) (hDT : D ≠ T) :
    ObjectContainer.GetContent m (n + 2) D = .ok T ∧
    ObjectContainer.GetHashMap m (n + 2) D = .ok T ∧
    ObjectContainer.Empty m D = .ok d.base_.isEmpty ∧
    ObjectContainer.Clear m (n + 2) D =
      .ok ((m.set T (some { t with base_ := [], dest_map_ := [] })).set D
        (some { d with base_ := [], dest_map_ := [] })) ∧
    ObjectContainer.SetPreviousContainer m (n + 2) D p =
      .ok (m.set T (some { t with prev_ := p })) ∧
    (∀ src s, m src = some s →
      ObjectContainer.assign m (n + 2) D src = .ok (m.set T (some { t with base_ := s.base_ }))) := by
  refine ⟨?_, ?_, ?_, ?_, ?_, ?_⟩
  · simp [ObjectContainer.GetContent, hD, hT, hd, ht]
  · simp [ObjectContainer.GetHashMap, hD, hT, hd, ht]
  · simp [ObjectContainer.Empty, hD]
  · simp [ObjectContainer.Clear, hD, hT, hd, ht, Containers_set_same,
      Containers_set_other _ _ _ _ hDT, ObjectContainer.BuildCache]
  · simp [ObjectContainer.SetPreviousContainer, hD, hT, hd, ht]
  · intro src s hs
    simp [ObjectContainer.assign, hD, hT, hd, ht, hs]

theorem delegated_container_operations_witness :
    (sampleContainers 0 = some ⟨some 1, none, [], []⟩ ∧
     sampleContainers 1 = some ⟨none, none, [("x", Object.ofString 7)], ["x"]⟩) ∧
    (ObjectContainer.GetContent sampleContainers (0 + 2) 0 = .ok 1 ∧
     ObjectContainer.GetHashMap sampleContainers (0 + 2) 0 = .ok 1 ∧
     ObjectContainer.Empty sampleContainers 0 =
       .ok (⟨some 1, none, [], []⟩ : ObjectContainer).base_.isEmpty ∧
     ObjectContainer.Clear sampleContainers (0 + 2) 0 =
       .ok ((sampleContainers.set 1 (some { (⟨none, none, [("x", Object.ofString 7)], ["x"]⟩ :
           ObjectContainer) with base_ := [], dest_map_ := [] })).set 0
         (some { (⟨some 1, none, [], []⟩ : ObjectContainer) with
           base_ := [], dest_map_ := [] })) ∧
     ObjectContainer.SetPreviousContainer sampleContainers (0 + 2) 0 none =
       .ok (sampleContainers.set 1 (some { (⟨none, none, [("x", Object.ofString 7)], ["x"]⟩ :
           ObjectContainer) with prev_ := none })) ∧
     (∀ src s, sampleContainers src = some s →
       ObjectContainer.assign sampleContainers (0 + 2) 0 src =
         .ok (sampleContainers.set 1 (some { (⟨none, none, [("x", Object.ofString 7)], ["x"]⟩ :
           ObjectContainer) with base_ := s.base_ })))) ∧
    ObjectContainer.Empty sampleContainers 0 = .ok true ∧
    ObjectContainer.Empty sampleContainers 1 = .ok false :=
  ⟨⟨rfl, rfl⟩,
   delegated_container_operations sampleContainers 0 1 _ _ 0 none rfl rfl rfl rfl (by decide),
   rfl, rfl⟩

/-! ### The operator branch and the symbol stack -/

theorem StartToken_operator_on_empty (base : List EntryProvider) (op : String) (s : StartState)
    (hop : op = "+" ∨ op = "-" ∨ op = "*" ∨ op = "/") (hs : s.symbol = []) :
    StartToken base op s = .error .outOfRange := by
  rcases hop with rfl | rfl | rfl | rfl
  · have hp : kPatternSymbol "+" = true := by decide
    simp [StartToken, hp, StartSymbol, StartOperator, back, hs]
  · have hp : kPatternSymbol "-" = true := by decide
    simp [StartToken, hp, StartSymbol, StartOperator, back, hs]
  · have hp : kPatternSymbol "*" = true := by decide
    simp [StartToken, hp, StartSymbol, StartOperator, back, hs]
  · have hp : kPatternSymbol "/" = true := by decide
    simp [StartToken, hp, StartSymbol, StartOperator, back, hs]

theorem StartToken_operator_over_call (base : List EntryProvider) (op : String) (s : StartState)
    (hop : op = "+" ∨ op = "-" ∨ op = "*" ∨ op = "/") (hs : s.symbol = ["f"]) :
    StartToken base op s = .error .atThrows := by
  rcases hop with rfl | rfl | rfl | rfl
  · have hp : kPatternSymbol "+" = true := by decide
    simp [StartToken, hp, StartSymbol, StartOperator, back, hs, ScanLoop, GetPriority]
  · have hp : kPatternSymbol "-" = true := by decide
    simp [StartToken, hp, StartSymbol, StartOperator, back, hs, ScanLoop, GetPriority]
  · have hp : kPatternSymbol "*" = true := by decide
    simp [StartToken, hp, StartSymbol, StartOperator, back, hs, ScanLoop, GetPriority]
  · have hp : kPatternSymbol "/" = true := by decide
    simp [StartToken, hp, StartSymbol, StartOperator, back, hs, ScanLoop, GetPriority]

theorem StartToken_call_name (f g h : List String → String) (s : StartState) :
    StartToken (callRegistry f g h) "f" s =
      .ok ({ s with
             provider := ⟨"f", some (fun p => ⟨kStrRedirect, kCodeSuccess, h p⟩), none, 2,
               kFlagNormalEntry⟩
             symbol := s.symbol ++ ["f"] }, false) := by
  have h1 : kPatternSymbol "f" = false := by decide
  have h2 : kPatternFunction "f" = true := by decide
  simp [StartToken, h1, h2, StartFunction, callRegistry, binexpRegistry, Entry.Query,
    EntryProvider.Good, kFlagNormalEntry, kFlagBinEntry]

/-- Claim C30, as the code behaves: the operator branch evaluates `symbol.back()` without
testing that the symbol stack is non-empty, and the insertion point scan decrements `j` below
index 0 and then evaluates `symbol.at(j)`. For every registry, all literal tokens `lits`, every
operator `op` among `+ - * /` and all following tokens, `Start` on `lits ++ op :: rest` reads
the top of the empty symbol stack; and with an entry `f` registered, `Start` on
`"f" :: lits ++ op :: rest` leaves the symbol stack in the scan. So neither `["1", "+", "2"]`
nor `["f", "1", "*", "2"]` is processed without an out-of-range access. -/
theorem Start_operator_leaves_symbol_stack (base : List EntryProvider) (w : World)
    (lits rest : List String) (op : String)
    (hop : op = "+" ∨ op = "-" ∨ op = "*" ∨ op = "/")
    (hl : ∀ t ∈ lits, kPatternSymbol t = false ∧ kPatternFunction t = false) :
    Chainloader.Start ⟨lits ++ op :: rest⟩ base w = .error .outOfRange ∧
    ∀ f g h : List String → String,
      Chainloader.Start ⟨"f" :: (lits ++ op :: rest)⟩ (callRegistry f g h) w =
        .error .atThrows := by
  constructor
  · unfold Chainloader.Start Chainloader.StartRun
    simp only []
    rw [StartLoop_literals base lits (op :: rest) hl (StartState.init w) rfl rfl, StartLoop,
      StartToken_operator_on_empty base op _ hop rfl]
  · intro f g h
    unfold Chainloader.Start Chainloader.StartRun
    simp only []
    rw [StartLoop, StartToken_call_name]
    simp only []
    rw [StartLoop_literals _ lits (op :: rest) hl _ rfl rfl, StartLoop,
      StartToken_operator_over_call _ op _ hop rfl]

theorem Start_operator_leaves_symbol_stack_witness :
    (("*" = "+" ∨ "*" = "-" ∨ "*" = "*" ∨ "*" = "/") ∧
     ∀ t ∈ ["1"], kPatternSymbol t = false ∧ kPatternFunction t = false) ∧
    Chainloader.Start ⟨["1"] ++ "*" :: ["2"]⟩ (callRegistry toString toString toString)
        ⟨[], []⟩ = .error .outOfRange ∧
    ∀ f g h : List String → String,
      Chainloader.Start ⟨"f" :: (["1"] ++ "*" :: ["2"])⟩ (callRegistry f g h) ⟨[], []⟩ =
        .error .atThrows :=
  ⟨by decide, Start_operator_leaves_symbol_stack (callRegistry toString toString toString)
    ⟨[], []⟩ ["1"] ["2"] "*" (by decide) (by decide)⟩

/-! ### Removal from the registry -/

theorem DeleteSearch_append (name : String) (base rest : List EntryProvider)
    (h : ∀ e ∈ base, e.name ≠ name) :
    Entry.DeleteSearch name (base ++ rest) = base.length + Entry.DeleteSearch name rest := by
  induction base with
  | nil => simp
  | cons e base ih =>
    have he : (e.name == name) = false := by simpa using h e (List.mem_cons_self _ _)
    have hrest : ∀ u ∈ base, u.name ≠ name := fun u hu => h u (List.mem_cons_of_mem _ hu)
    simp [Entry.DeleteSearch, he, ih hrest]
    omega

/-- Claim C27, as the code behaves: when no entry of the registry has the name, the loop of
`Entry::Delete` ends with the iterator at `base.end()` and the test after the loop
dereferences it, which reads past the end of the registry, so the registry is not simply
left unchanged. When an entry has the name, the first such entry is erased and all other
entries keep their order. -/
theorem Delete_absent_name_reads_past_end (base : List EntryProvider) (name : String)
    (h : ∀ e ∈ base, e.name ≠ name) :
    Entry.Delete base name = .error .outOfRange ∧
    ∀ (e : EntryProvider) (post : List EntryProvider), e.name = name →
      Entry.Delete (base ++ e :: post) name = .ok (base ++ post) := by
  constructor
  · have hs := DeleteSearch_append name base [] h
    simp only [List.append_nil, Entry.DeleteSearch, Nat.add_zero] at hs
    simp [Entry.Delete, hs]
  · intro e post he
    have hs := DeleteSearch_append name base (e :: post) h
    have hb : (e.name == name) = true := by simpa using he
    simp only [Entry.DeleteSearch, hb, if_true, Nat.add_zero] at hs
    have hg : (base ++ e :: post)[base.length]? = some e := by
      rw [List.getElem?_append_right (Nat.le_refl _)]
      simp
    simp [Entry.Delete, hs, hg, he, List.eraseIdx_append_of_length_le]

theorem Delete_absent_name_reads_past_end_witness :
    (∀ e ∈ [samplePlus], e.name ≠ "pair") ∧
    Entry.Delete [samplePlus] "pair" = .error .outOfRange ∧
    ∀ (e : EntryProvider) (post : List EntryProvider), e.name = "pair" →
      Entry.Delete ([samplePlus] ++ e :: post) "pair" = .ok ([samplePlus] ++ post) :=
  ⟨by decide, Delete_absent_name_reads_past_end [samplePlus] "pair" (by decide)⟩

/-! ### Dereference of a chain of References -/

/-- Claim C23, as the code behaves: `Unpack` follows one link only. For a live Reference `v`
to a live Reference `r` to a Value `t` that is not a Reference, `Unpack` on `v` returns `r`,
which is a Reference and is not `t`, while `Get` and `Cast` on `v` follow both links and read
`t` (with any budget of at least three nested calls); on `t` itself `Unpack` returns `t`. -/
theorem Unpack_follows_one_link (h : Heap) (v r t : Nat) (V R T : Object)
    (hv : h v = some V) (hr : h r = some R) (ht : h t = some T)
    (hvm : V.info_.mode = .kObjectRef) (hrm : R.info_.mode = .kObjectRef)
    (htm : T.info_.mode ≠ .kObjectRef)
    (_hva : V.info_.alive = true) (_hra : R.info_.alive = true)
    (hvd : V.info_.real_dest = some r) (hrd : R.info_.real_dest = some t) :
    Object.Unpack h v = .ok r ∧ r ≠ t ∧ Object.Unpack h t = .ok t ∧
    ∀ n, Object.Get h (n + 3) v = .ok T.ptr ∧
      Object.Cast h (n + 3) v =
        .ok (if T.info_.mode == .kObjectDelegator then T.info_.real_dest else T.ptr) := by
  have hne : r ≠ t := by
    intro e
    subst e
    rw [hr] at ht
    cases ht
    exact htm hrm
  have htb : (T.info_.mode == ObjectMode.kObjectRef) = false := by simpa using htm
  refine ⟨?_, hne, ?_, ?_⟩
  · simp [Object.Unpack, hv, hvm, Object.dest, hvd, hr]
  · simp [Object.Unpack, ht, htb]
  · intro n
    constructor
    · simp [Object.Get, hv, hvm, Object.dest, hvd, hr, hrm, hrd, ht, htb]
    · simp only [Object.Cast, hv, hvm, Object.dest, hvd, hr, hrm, hrd, ht, htb]
      simp
      split <;> simp_all

theorem Unpack_follows_one_link_witness :
    Object.Unpack sampleChain 2 = .ok 1 ∧ 1 ≠ 0 ∧ Object.Unpack sampleChain 0 = .ok 0 ∧
    ∀ n, Object.Get sampleChain (n + 3) 2 = .ok (Object.ofString 7).ptr ∧
      Object.Cast sampleChain (n + 3) 2 =
        .ok (if (Object.ofString 7).info_.mode == .kObjectDelegator
             then (Object.ofString 7).info_.real_dest else (Object.ofString 7).ptr) :=
  Unpack_follows_one_link sampleChain 2 1 0
    ⟨⟨some 1, .kObjectRef, false, false, true, kTypeIdString⟩, none, none⟩
    ⟨⟨some 0, .kObjectRef, false, false, true, kTypeIdString⟩, none, none⟩
    (Object.ofString 7) rfl rfl rfl rfl rfl (by decide) rfl rfl rfl rfl

/-! ### The delivering flag -/

/-- Claim C24, as the code behaves: `SetDeliveringFlag` sets the flag of the object it is
called on, while `SeekDeliveringFlag` and `GetDeliveringFlag` on a Reference read the flag of
its target. So for a live Reference `v` to a Value `t` that is not a Reference and whose flag
is not set, after `v.SetDeliveringFlag()` both `SeekDeliveringFlag` and `GetDeliveringFlag` on
`v` return false (with any budget of at least two nested calls). On `t` itself, which is not a
Reference, the flag is one-shot: after `SetDeliveringFlag` the peek returns true, the first
`GetDeliveringFlag` returns true and clears the flag, and a peek after that returns false. -/
theorem SetDeliveringFlag_on_reference (h : Heap) (v t : Nat) (V T : Object)
    (hv : h v = some V) (ht : h t = some T)
    (hvm : V.info_.mode = .kObjectRef) (htm : T.info_.mode ≠ .kObjectRef)
    (_hva : V.info_.alive = true) (hvd : V.info_.real_dest = some t)
    (htd : T.info_.delivering = false) :
    (Object.SetDeliveringFlagAt h v = .ok (h.set v (some V.SetDeliveringFlag)) ∧
     ∀ n, Object.SeekDeliveringFlag (h.set v (some V.SetDeliveringFlag)) (n + 2) v =
            .ok false ∧
          Object.GetDeliveringFlag (h.set v (some V.SetDeliveringFlag)) (n + 2) v =
            .ok (false, (h.set v (some V.SetDeliveringFlag)).set t
                          (some T.RemoveDeliveringFlag))) ∧
    (Object.SetDeliveringFlagAt h t = .ok (h.set t (some T.SetDeliveringFlag)) ∧
     ∀ n, Object.SeekDeliveringFlag (h.set t (some T.SetDeliveringFlag)) (n + 1) t =
            .ok true ∧
          Object.GetDeliveringFlag (h.set t (some T.SetDeliveringFlag)) (n + 1) t =
            .ok (true, (h.set t (some T.SetDeliveringFlag)).set t
                         (some T.SetDeliveringFlag.RemoveDeliveringFlag)) ∧
          Object.SeekDeliveringFlag
            ((h.set t (some T.SetDeliveringFlag)).set t
              (some T.SetDeliveringFlag.RemoveDeliveringFlag)) (n + 1) t = .ok false) := by
  have hne : t ≠ v := by
    intro e
    subst e
    rw [hv] at ht
    cases ht
    exact htm hvm
  have htb : (T.info_.mode == ObjectMode.kObjectRef) = false := by simpa using htm
  have e1 : (h.set v (some V.SetDeliveringFlag)) v = some V.SetDeliveringFlag :=
    Heap.set_same _ _ _
  have e2 : (h.set v (some V.SetDeliveringFlag)) t = some T := by
    rw [Heap.set_other _ _ _ _ hne, ht]
  have e3 : (h.set t (some T.SetDeliveringFlag)) t = some T.SetDeliveringFlag :=
    Heap.set_same _ _ _
  have e4 : ((h.set t (some T.SetDeliveringFlag)).set t
      (some T.SetDeliveringFlag.RemoveDeliveringFlag)) t =
      some T.SetDeliveringFlag.RemoveDeliveringFlag := Heap.set_same _ _ _
  have hm1 : V.SetDeliveringFlag.info_.mode = .kObjectRef := hvm
  have hd1 : V.SetDeliveringFlag.info_.real_dest = some t := hvd
  have hm2 : (T.SetDeliveringFlag.info_.mode == ObjectMode.kObjectRef) = false := htb
  have hm3 : (T.SetDeliveringFlag.RemoveDeliveringFlag.info_.mode == ObjectMode.kObjectRef) =
      false := htb
  have hf2 : T.SetDeliveringFlag.info_.delivering = true := rfl
  have hf3 : T.SetDeliveringFlag.RemoveDeliveringFlag.info_.delivering = false := rfl
  refine ⟨⟨?_, ?_⟩, ?_, ?_⟩
  · simp [Object.SetDeliveringFlagAt, hv]
  · intro n
    constructor
    · simp [Object.SeekDeliveringFlag, e1, e2, hm1, Object.dest, hd1, htb, htd]
    · simp [Object.GetDeliveringFlag, e1, e2, hm1, Object.dest, hd1, htb, htd]
  · simp [Object.SetDeliveringFlagAt, ht]
  · intro n
    refine ⟨?_, ?_, ?_⟩
    · simp [Object.SeekDeliveringFlag, e3, hm2, hf2]
    · simp [Object.GetDeliveringFlag, e3, hm2, hf2]
    · simp [Object.SeekDeliveringFlag, e4, hm3, hf3]

theorem SetDeliveringFlag_on_reference_witness :
    Object.SetDeliveringFlagAt sampleChain 1 =
      .ok (sampleChain.set 1
        (some (Object.SetDeliveringFlag
          ⟨⟨some 0, .kObjectRef, false, false, true, kTypeIdString⟩, none, none⟩))) ∧
    Object.SeekDeliveringFlag (sampleChain.set 1
        (some (Object.SetDeliveringFlag
          ⟨⟨some 0, .kObjectRef, false, false, true, kTypeIdString⟩, none, none⟩))) 2 1 =
      .ok false :=
  have w := SetDeliveringFlag_on_reference sampleChain 1 0
    ⟨⟨some 0, .kObjectRef, false, false, true, kTypeIdString⟩, none, none⟩ (Object.ofString 7)
    rfl rfl rfl (by decide) rfl rfl rfl
  ⟨w.1.1, (w.1.2 0).1⟩

/-! ### Delegation cycles and the local map of a delegated container -/

theorem forwarding_in_cycle (m : Containers) (S : Nat → Prop)
    (hS : ∀ a, S a → ∃ C d, m a = some C ∧ C.delegator_ = some d ∧ S d) :
    ∀ n a, S a →
      ObjectContainer.GetContent m n a = .error .fuel ∧
      ObjectContainer.GetHashMap m n a = .error .fuel ∧
      ObjectContainer.Clear m n a = .error .fuel ∧
      ∀ p, ObjectContainer.SetPreviousContainer m n a p = .error .fuel := by
  intro n
  induction n with
  | zero =>
    intro a _
    exact ⟨rfl, rfl, rfl, fun _ => rfl⟩
  | succ n ih =>
    intro a ha
    obtain ⟨C, d, hC, hd, hSd⟩ := hS a ha
    obtain ⟨i1, i2, i3, i4⟩ := ih d hSd
    refine ⟨?_, ?_, ?_, ?_⟩
    · simp [ObjectContainer.GetContent, hC, hd, i1]
    · simp [ObjectContainer.GetHashMap, hC, hd, i2]
    · simp [ObjectContainer.Clear, hC, hd, i3]
    · intro p
      simp [ObjectContainer.SetPreviousContainer, hC, hd, i4 p]

theorem SetDelegatedContainer_self_counterexample :
    ∃ m, ObjectContainer.SetDelegatedContainer sampleHolder 1 (some 1) = .ok m ∧
      m 1 = some ⟨some 1, none, [], []⟩ ∧
      ∀ n, ObjectContainer.GetContent m n 1 = .error .fuel :=
  ⟨_, rfl, by decide, fun n =>
    (forwarding_in_cycle _ (fun a => a = 1)
      (fun a ha => ⟨⟨some 1, none, [], []⟩, 1, by subst ha; decide, rfl, rfl⟩) n 1 rfl).1⟩

/-- Claim C21, amended: `SetDelegatedContainer` stores the destination it is given without a
test. With the container `c` itself as the destination, `c` is left delegated to itself; and
with `c` delegated to another container `d` and then `d` delegated to `c`, the chain of `c`
returns to `c`. In both states `GetContent`, `GetHashMap`, `Clear` and `SetPreviousContainer`
on `c` forward without end: no budget of nested calls is enough. -/
theorem SetDelegatedContainer_accepts_cycle (m : Containers) (c d : Nat)
    (C D : ObjectContainer) (hc : m c = some C) (hd : m d = some D) (hcd : c ≠ d) :
    (∃ m1, ObjectContainer.SetDelegatedContainer m c (some c) = .ok m1 ∧
       m1 c = some { C with delegator_ := some c } ∧
       ∀ n, ObjectContainer.GetContent m1 n c = .error .fuel ∧
         ObjectContainer.GetHashMap m1 n c = .error .fuel ∧
         ObjectContainer.Clear m1 n c = .error .fuel ∧
         ∀ p, ObjectContainer.SetPreviousContainer m1 n c p = .error .fuel) ∧
    (∃ m1 m2, ObjectContainer.SetDelegatedContainer m c (some d) = .ok m1 ∧
       ObjectContainer.SetDelegatedContainer m1 d (some c) = .ok m2 ∧
       m2 c = some { C with delegator_ := some d } ∧
       m2 d = some { D with delegator_ := some c } ∧
       ∀ n, ObjectContainer.GetContent m2 n c = .error .fuel ∧
         ObjectContainer.GetHashMap m2 n c = .error .fuel ∧
         ObjectContainer.Clear m2 n c = .error .fuel ∧
         ∀ p, ObjectContainer.SetPreviousContainer m2 n c p = .error .fuel) := by
  constructor
  · refine ⟨m.set c (some { C with delegator_ := some c }), ?_, Containers_set_same _ _ _, ?_⟩
    · simp [ObjectContainer.SetDelegatedContainer, hc]
    · intro n
      exact forwarding_in_cycle _ (fun a => a = c)
        (fun a ha => ⟨{ C with delegator_ := some c }, c,
          by subst ha; exact Containers_set_same _ _ _, rfl, rfl⟩) n c rfl
  · have h1 : (m.set c (some { C with delegator_ := some d })) d = some D := by
      rw [Containers_set_other _ _ _ _ (Ne.symm hcd), hd]
    have h2c : ((m.set c (some { C with delegator_ := some d })).set d
        (some { D with delegator_ := some c })) c = some { C with delegator_ := some d } := by
      rw [Containers_set_other _ _ _ _ hcd, Containers_set_same]
    have h2d : ((m.set c (some { C with delegator_ := some d })).set d
        (some { D with delegator_ := some c })) d = some { D with delegator_ := some c } :=
      Containers_set_same _ _ _
    refine ⟨m.set c (some { C with delegator_ := some d }),
      (m.set c (some { C with delegator_ := some d })).set d
        (some { D with delegator_ := some c }), ?_, ?_, h2c, h2d, ?_⟩
    · simp [ObjectContainer.SetDelegatedContainer, hc]
    · simp [ObjectContainer.SetDelegatedContainer, h1]
    · intro n
      refine forwarding_in_cycle _ (fun a => a = c ∨ a = d) ?_ n c (Or.inl rfl)
      intro a ha
      rcases ha with rfl | rfl
      · exact ⟨_, d, h2c, rfl, Or.inr rfl⟩
      · exact ⟨_, c, h2d, rfl, Or.inl rfl⟩

theorem SetDelegatedContainer_accepts_cycle_witness :
    (sampleHolder 0 = some ⟨none, none, [("x", Object.ofString 7)], ["x"]⟩ ∧
     sampleHolder 1 = some ⟨none, none, [], []⟩ ∧ (0 : Nat) ≠ 1) ∧
    ∃ m1, ObjectContainer.SetDelegatedContainer sampleHolder 0 (some 0) = .ok m1 ∧
      ∀ n, ObjectContainer.GetContent m1 n 0 = .error .fuel :=
  ⟨⟨rfl, rfl, by decide⟩,
   match (SetDelegatedContainer_accepts_cycle sampleHolder 0 1 _ _ rfl rfl (by decide)).1 with
   | ⟨m1, h1, _, h3⟩ => ⟨m1, h1, fun n => (h3 n).1⟩⟩

theorem sampleHolder_Hollow : sampleHolder.Hollow := by
  intro a c h
  unfold sampleHolder at h
  split at h
  · cases h; intro hd; cases hd
  · split at h
    · cases h; intro _; rfl
    · cases h

theorem SetDelegatedContainer_keeps_entries_counterexample :
    sampleHolder.Hollow ∧
    ∃ m, ObjectContainer.SetDelegatedContainer sampleHolder 0 (some 1) = .ok m ∧
      m 0 = some ⟨some 1, none, [("x", Object.ofString 7)], ["x"]⟩ ∧ ¬ m.Hollow :=
  ⟨sampleHolder_Hollow, _, rfl, by decide, fun h => by
    have h0 := h 0 ⟨some 1, none, [("x", Object.ofString 7)], ["x"]⟩ (by decide) rfl
    cases h0⟩

theorem Hollow_set (m : Containers) (a : Nat) (c : ObjectContainer) (hm : m.Hollow)
    (hc : c.Hollow) : Containers.Hollow (m.set a (some c)) := by
  intro b x hx
  by_cases hb : b = a
  · subst hb
    rw [Containers_set_same] at hx
    cases hx
    exact hc
  · rw [Containers_set_other _ _ _ _ hb] at hx
    exact hm b x hx

theorem Clear_Hollow : ∀ (n : Nat) (m : Containers) (this : Nat) (m1 : Containers),
    m.Hollow → ObjectContainer.Clear m n this = .ok m1 → m1.Hollow := by
  intro n
  induction n with
  | zero => intro m this m1 _ h; simp [ObjectContainer.Clear] at h
  | succ n ih =>
    intro m this m1 hm h
    simp only [ObjectContainer.Clear] at h
    cases hc : m this with
    | none => simp [hc] at h
    | some c =>
      simp only [hc] at h
      have key : ∀ mf : Containers, mf.Hollow →
          (match mf this with
            | none => (Except.error Fault.dangling : Except Fault Containers)
            | some c1 => .ok (mf.set this
                (some (ObjectContainer.BuildCache { c1 with base_ := [] })))) = .ok m1 →
          m1.Hollow := by
        intro mf hmf hh
        cases hf : mf this with
        | none => simp [hf] at hh
        | some c1 =>
          simp only [hf, Except.ok.injEq] at hh
          subst hh
          exact Hollow_set _ _ _ hmf (fun _ => rfl)
      cases hd : c.delegator_ with
      | none =>
        simp only [hd] at h
        exact key m hm h
      | some d =>
        simp only [hd] at h
        cases hf : ObjectContainer.Clear m n d with
        | error e => simp [hf] at h
        | ok mf =>
          simp only [hf] at h
          exact key mf (ih m d mf hm hf) h

theorem assign_Hollow : ∀ (n : Nat) (m : Containers) (this mgr : Nat) (m1 : Containers),
    m.Hollow → ObjectContainer.assign m n this mgr = .ok m1 → m1.Hollow := by
  intro n
  induction n with
  | zero => intro m this mgr m1 _ h; simp [ObjectContainer.assign] at h
  | succ n ih =>
    intro m this mgr m1 hm h
    simp only [ObjectContainer.assign] at h
    cases hc : m this with
    | none => simp [hc] at h
    | some c =>
      simp only [hc] at h
      cases hd : c.delegator_ with
      | some d =>
        simp only [hd] at h
        exact ih m d mgr m1 hm h
      | none =>
        simp only [hd] at h
        cases hs : m mgr with
        | none => simp [hs] at h
        | some src =>
          simp only [hs, Except.ok.injEq] at h
          subst h
          exact Hollow_set _ _ _ hm (fun hh => by simp [hd] at hh)

theorem SetPreviousContainer_Hollow :
    ∀ (n : Nat) (m : Containers) (this : Nat) (p : Option Nat) (m1 : Containers),
    m.Hollow → ObjectContainer.SetPreviousContainer m n this p = .ok m1 → m1.Hollow := by
  intro n
  induction n with
  | zero => intro m this p m1 _ h; simp [ObjectContainer.SetPreviousContainer] at h
  | succ n ih =>
    intro m this p m1 hm h
    simp only [ObjectContainer.SetPreviousContainer] at h
    cases hc : m this with
    | none => simp [hc] at h
    | some c =>
      simp only [hc] at h
      cases hd : c.delegator_ with
      | some d =>
        simp only [hd] at h
        exact ih m d p m1 hm h
      | none =>
        simp only [hd, Except.ok.injEq] at h
        subst h
        exact Hollow_set _ _ _ hm (fun hh => by simp [hd] at hh)

/-- Claim C22, amended: the predicate "a container with a delegation target has an empty local
map" holds for the containers made by `ObjectContainer()` and by the move constructor, and the
copy constructor gives a container with the predicate when its source has it. When all
containers have the predicate, they all have it after `Clear`, `operator=` and
`SetPreviousContainer`, and after `SetDelegatedContainer` when the destination is null or the
local map of the container is empty. `SetDelegatedContainer` does not touch the local map, so
on a container that holds entries it gives a delegated container that still holds them. -/
theorem Hollow_preserved (m : Containers) (hm : m.Hollow) :
    ObjectContainer.new.Hollow ∧
    (∀ mgr : ObjectContainer, mgr.move.Hollow) ∧
    (∀ c : ObjectContainer, c.Hollow → c.copy.Hollow) ∧
    (∀ n this m1, ObjectContainer.Clear m n this = .ok m1 → m1.Hollow) ∧
    (∀ n this mgr m1, ObjectContainer.assign m n this mgr = .ok m1 → m1.Hollow) ∧
    (∀ n this p m1, ObjectContainer.SetPreviousContainer m n this p = .ok m1 → m1.Hollow) ∧
    (∀ this dest C m1, m this = some C → (dest = none ∨ C.base_ = []) →
      ObjectContainer.SetDelegatedContainer m this dest = .ok m1 → m1.Hollow) ∧
    (∀ this d C x rest, m this = some C → C.base_ = x :: rest →
      ∃ m1, ObjectContainer.SetDelegatedContainer m this (some d) = .ok m1 ∧ ¬ m1.Hollow) := by
  refine ⟨fun _ => rfl, fun _ _ => rfl, ?_, ?_, ?_, ?_, ?_, ?_⟩
  · intro c hc hd
    unfold ObjectContainer.copy at hd ⊢
    cases hb : c.base_ with
    | nil => simp [hb]
    | cons x rest =>
      simp only [hb, List.isEmpty_cons, Bool.not_false, if_true, ObjectContainer.BuildCache]
        at hd ⊢
      have := hc hd
      simp [hb] at this
  · intro n this m1 h
    exact Clear_Hollow n m this m1 hm h
  · intro n this mgr m1 h
    exact assign_Hollow n m this mgr m1 hm h
  · intro n this p m1 h
    exact SetPreviousContainer_Hollow n m this p m1 hm h
  · intro this dest C m1 hC hor h
    simp only [ObjectContainer.SetDelegatedContainer, hC, Except.ok.injEq] at h
    subst h
    apply Hollow_set _ _ _ hm
    intro hd
    rcases hor with rfl | hb
    · simp at hd
    · exact hb
  · intro this d C x rest hC hb
    refine ⟨m.set this (some { C with delegator_ := some d }), ?_, ?_⟩
    · simp [ObjectContainer.SetDelegatedContainer, hC]
    · intro h
      have h0 := h this _ (Containers_set_same _ _ _) rfl
      simp [hb] at h0

theorem Hollow_preserved_witness :
    sampleHolder.Hollow ∧
    ∃ m1, ObjectContainer.SetDelegatedContainer sampleHolder 1 (some 0) = .ok m1 ∧ m1.Hollow :=
  ⟨sampleHolder_Hollow, _, rfl,
    (Hollow_preserved sampleHolder sampleHolder_Hollow).2.2.2.2.2.2.1 1 (some 0) _ _ rfl
      (Or.inr rfl) rfl⟩

/-! ### The script source -/

theorem IsBlankLoop_cons (unit : Char) (rest : List Char) :
    IsBlankLoop (unit :: rest) = false := by
  have h : (unit != ' ' || unit != '\n' || unit != '\t' || unit != '\r') = true := by
    by_cases hc : unit = ' '
    · subst hc; decide
    · simp [hc]
  simp [IsBlankLoop, h]

theorem IsBlankStr_eq (target : String) : IsBlankStr target = (target == "") := by
  obtain ⟨cs⟩ := target
  cases cs with
  | nil => rfl
  | cons c cs =>
    have h0 : (⟨c :: cs⟩ : String) ≠ "" := by
      intro h
      have := congrArg String.data h
      simp at this
    have h1 : ((⟨c :: cs⟩ : String) == "") = false := by simpa using h0
    simp [IsBlankStr, kStrEmpty, h1, IsBlankLoop_cons]

theorem Get_fresh (lines : List String) (w : World) :
    (ScriptProvider.fresh lines).Get w =
      (⟨[], true, lines.filter (fun l => l != ""), 0, true⟩ : ScriptProvider).Get w := by
  have hp : lines.filter (fun c => IsBlankStr c != true) = lines.filter (fun l => l != "") := by
    apply List.filter_congr
    intro x _
    rw [IsBlankStr_eq, show (x != "") = !(x == "") from rfl]
    cases (x == "") <;> rfl
  simp only [ScriptProvider.Get, ScriptProvider.fresh]
  rw [hp]
  simp

theorem Get_cached_lt (pool : List String) (current : Nat) (w : World)
    (hlt : current < pool.length) :
    (⟨[], true, pool, current, true⟩ : ScriptProvider).Get w =
      (⟨pool[current], kCodeSuccess, ""⟩, ⟨[], true, pool, current + 1, true⟩, w) := by
  have hg : pool.getD current kStrEmpty = pool[current] := by
    simp [List.getD_eq_getElem?_getD, List.getElem?_eq_getElem hlt]
  simp only [ScriptProvider.Get, hg]
  simp [hlt, Message.SetValue]

theorem Get_cached_end (pool : List String) (w : World) :
    (⟨[], true, pool, pool.length, true⟩ : ScriptProvider).Get w =
      (⟨kStrEOF, kCodeSuccess, ""⟩, ⟨[], true, pool, pool.length, true⟩, w) := by
  simp [ScriptProvider.Get, Message.SetValue]

theorem GetMany_cached (pool : List String) (w : World) :
    ∀ (n current : Nat), current ≤ pool.length →
      ScriptProvider.GetMany n ⟨[], true, pool, current, true⟩ w =
        ((pool.drop current).take n).map (fun l => (⟨l, kCodeSuccess, ""⟩ : Message)) ++
          List.replicate (n - (pool.length - current)) ⟨kStrEOF, kCodeSuccess, ""⟩ := by
  intro n
  induction n with
  | zero => intro current _; simp [ScriptProvider.GetMany]
  | succ n ih =>
    intro current hle
    by_cases hlt : current < pool.length
    · have hd : pool.drop current = pool[current] :: pool.drop (current + 1) :=
        List.drop_eq_getElem_cons hlt
      have hn : n + 1 - (pool.length - current) = n - (pool.length - (current + 1)) := by omega
      rw [ScriptProvider.GetMany, Get_cached_lt pool current w hlt]
      simp only []
      rw [ih (current + 1) hlt, hd, hn]
      rfl
    · have he : current = pool.length := by omega
      subst he
      have hn : n + 1 - (pool.length - pool.length) = (n - (pool.length - pool.length)) + 1 := by
        omega
      rw [ScriptProvider.GetMany, Get_cached_end]
      simp only []
      rw [ih pool.length (Nat.le_refl _), hn]
      simp [List.replicate_succ]

/-- Claim C29, as the code behaves: the test of `IsBlankStr` is
`unit != ' ' || unit != '\n' || unit != '\t' || unit != '\r'`, which holds for every
character, so `IsBlankStr` is true for the empty line only. For every readable script and
every number `n` of calls, the first `n` results of `Get` are the lines that are not empty, in
file order and with the success code, followed by the end-of-input sentinel on every later
call; a line made only of spaces is returned like any other line, as on the script with the
lines `a`, three spaces, the empty line and `b`. -/
theorem Get_returns_lines_of_spaces (lines : List String) (w : World) (n : Nat) :
    (∀ target, IsBlankStr target = (target == "")) ∧
    ScriptProvider.GetMany n (ScriptProvider.fresh lines) w =
      ((lines.filter (fun l => l != "")).take n).map
          (fun l => (⟨l, kCodeSuccess, ""⟩ : Message)) ++
        List.replicate (n - (lines.filter (fun l => l != "")).length)
          ⟨kStrEOF, kCodeSuccess, ""⟩ ∧
    ScriptProvider.GetMany 5 (ScriptProvider.fresh ["a", "   ", "", "b"]) w =
      [⟨"a", kCodeSuccess, ""⟩, ⟨"   ", kCodeSuccess, ""⟩, ⟨"b", kCodeSuccess, ""⟩,
       ⟨kStrEOF, kCodeSuccess, ""⟩, ⟨kStrEOF, kCodeSuccess, ""⟩] := by
  have key : ∀ (ls : List String) (k : Nat),
      ScriptProvider.GetMany k (ScriptProvider.fresh ls) w =
        ((ls.filter (fun l => l != "")).take k).map
            (fun l => (⟨l, kCodeSuccess, ""⟩ : Message)) ++
          List.replicate (k - (ls.filter (fun l => l != "")).length)
            ⟨kStrEOF, kCodeSuccess, ""⟩ := by
    intro ls k
    have h := GetMany_cached (ls.filter (fun l => l != "")) w k 0 (Nat.zero_le _)
    simp only [List.drop_zero, Nat.sub_zero] at h
    rw [← h]
    cases k with
    | zero => rfl
    | succ k => simp only [ScriptProvider.GetMany, Get_fresh]
  refine ⟨IsBlankStr_eq, key lines n, ?_⟩
  rw [key]
  decide

/-! ### Tokens are not empty, and blanks at the head of the line -/

theorem singleton_ne_empty (c : Char) : ("" : String) ≠ String.singleton c := by
  intro h
  have := congrArg String.data h
  simp [String.singleton] at this

theorem mk_pair_ne_empty (a b : Char) : ("" : String) ≠ String.mk [a, b] := by
  intro h
  have := congrArg String.data h
  simp at this

theorem emit_no_empty (s : BuildState) (c : Char) (h : "" ∉ s.output) :
    "" ∉ (s.emit c).output := by
  unfold BuildState.emit
  by_cases hc : s.current = kStrEmpty
  · simp [hc, h, singleton_ne_empty]
  · have hc2 : ¬ ("" = s.current) := fun e => hc e.symm
    simp [hc, h, singleton_ne_empty, hc2]

theorem Compare_keyword_ne_empty (cur : String)
    (h : Util.Compare cur ["var", "def", "return"] = true) : ("" : String) ≠ cur := by
  intro e
  subst e
  revert h
  decide

theorem BuildSwitch_no_empty (prev : Option Char) (c : Char) (next : Option Char)
    (s t : BuildState) (h : BuildSwitch prev c next s = .ok t) (hs : "" ∉ s.output) :
    "" ∉ t.output := by
  unfold BuildSwitch at h
  have he := emit_no_empty s c hs
  have ha : "" ∉ (s.append c).output := hs
  split at h
  · split at h <;> cases h <;> assumption
  · split at h
    · split at h
      · split at h
        · cases h
        · split at h <;> cases h <;> assumption
      · cases h; assumption
    · split at h
      · split at h
        · cases h; assumption
        · split at h
          · cases h
            by_cases hc : s.current = kStrEmpty
            · simp [hc, hs]
            · have hc2 : ¬ ("" = s.current) := fun e => hc e.symm
              simp [hc, hs, hc2]
          · split at h
            · simp only [] at h
              split at h
              · cases h
                simp [hs, mk_pair_ne_empty]
              · cases h; assumption
            · cases h; assumption
      · split at h
        · split at h
          · cases h; assumption
          · split at h
            · rename_i hk
              simp only [Bool.and_eq_true] at hk
              split at h
              · cases h
                simp [hs, Compare_keyword_ne_empty _ hk.1]
              · cases h; assumption
            · split at h
              · cases h; assumption
              · split at h
                · cases h
                · cases h; assumption
        · cases h; assumption

theorem BuildQuoteToggle_output (prev : Option Char) (s t : BuildState)
    (h : BuildQuoteToggle prev s = .ok t) : t.output = s.output := by
  unfold BuildQuoteToggle at h
  split at h
  · cases prev with
    | none => cases h
    | some p =>
      simp only [] at h
      split at h <;> cases h <;> rfl
  · cases h; rfl

theorem BuildStep_no_empty (prev : Option Char) (c : Char) (next : Option Char)
    (s t : BuildState) (h : BuildStep prev c next s = .ok t) (hs : "" ∉ s.output) :
    "" ∉ t.output := by
  unfold BuildStep at h
  split at h
  · cases h; exact hs
  · have h1 : "" ∉ (if s.headlock == false then { s with headlock := true } else s).output := by
      split <;> exact hs
    simp only [] at h
    generalize (if s.headlock == false then { s with headlock := true } else s) = s1 at h h1
    split at h
    · cases hq : BuildQuoteToggle prev s1 with
      | error e => simp [hq] at h
      | ok s2 =>
        simp only [hq] at h
        exact BuildSwitch_no_empty _ _ _ _ _ h (by rw [BuildQuoteToggle_output _ _ _ hq]; exact h1)
    · exact BuildSwitch_no_empty _ _ _ _ _ h h1

theorem BuildLoop_no_empty : ∀ (cs : List Char) (prev : Option Char) (s t : BuildState),
    BuildLoop prev cs s = .ok t → "" ∉ s.output → "" ∉ t.output := by
  intro cs
  induction cs with
  | nil => intro prev s t h hs; simp only [BuildLoop, Except.ok.injEq] at h; subst h; exact hs
  | cons c rest ih =>
    intro prev s t h hs
    simp only [BuildLoop] at h
    cases h1 : BuildStep prev c rest.head? s with
    | error e => simp [h1] at h
    | ok s1 =>
      simp only [h1] at h
      exact ih (some c) s1 t h (BuildStep_no_empty _ _ _ _ _ h1 hs)

theorem BuildSwitch_total (p c : Char) (next : Option Char) (s : BuildState) :
    ∃ t, BuildSwitch (some p) c next s = .ok t := by
  unfold BuildSwitch
  simp only []
  repeat' split
  all_goals exact ⟨_, rfl⟩

theorem BuildStep_total (p c : Char) (next : Option Char) (s : BuildState) :
    ∃ t, BuildStep (some p) c next s = .ok t := by
  unfold BuildStep
  split
  · exact ⟨_, rfl⟩
  · simp only []
    generalize (if s.headlock == false then { s with headlock := true } else s) = s1
    have hq : ∃ s2, BuildQuoteToggle (some p) s1 = .ok s2 := by
      unfold BuildQuoteToggle
      simp only []
      repeat' split
      all_goals exact ⟨_, rfl⟩
    obtain ⟨s2, hq⟩ := hq
    split
    · rw [hq]
      exact BuildSwitch_total _ _ _ _
    · exact BuildSwitch_total _ _ _ _

theorem BuildLoop_total : ∀ (cs : List Char) (p : Char) (s : BuildState),
    ∃ t, BuildLoop (some p) cs s = .ok t := by
  intro cs
  induction cs with
  | nil => intro p s; exact ⟨s, rfl⟩
  | cons c rest ih =>
    intro p s
    obtain ⟨s1, h1⟩ := BuildStep_total p c rest.head? s
    obtain ⟨t, ht⟩ := ih c s1
    exact ⟨t, by simp only [BuildLoop, h1, ht]⟩

theorem BuildStep_prev (p q : Option Char) (c : Char) (next : Option Char) (s : BuildState)
    (h1 : c ≠ ' ') (h2 : c ≠ '\t') (h3 : c ≠ '"') :
    BuildStep p c next s = BuildStep q c next s := by
  simp [BuildStep, BuildSwitch, h1, h2, h3, kPatternBlank]

theorem BuildStep_first_total (c : Char) (next : Option Char) (h3 : c ≠ '"') :
    ∃ t, BuildStep none c next BuildState.init = .ok t := by
  by_cases h1 : c = ' '
  · subst h1; exact ⟨_, rfl⟩
  · by_cases h2 : c = '\t'
    · subst h2; exact ⟨_, rfl⟩
    · rw [BuildStep_prev none (some 'a') c next _ h1 h2 h3]
      exact BuildStep_total _ _ _ _

theorem BuildLoop_head_blanks : ∀ (w : List Char) (tail : List Char) (prev : Option Char)
    (s : BuildState), (∀ b ∈ w, b = ' ' ∨ b = '\t') → s.headlock = false →
    BuildLoop prev (w ++ tail) s = BuildLoop (lastOr prev w) tail s := by
  intro w
  induction w with
  | nil => intro tail prev s _ _; rfl
  | cons b w ih =>
    intro tail prev s hw hh
    have hb : kPatternBlank b = true := by
      rcases hw b (List.mem_cons_self _ _) with h | h <;> subst h <;> rfl
    have e : BuildStep prev b (w ++ tail).head? s = .ok s := by
      simp [BuildStep, hh, hb]
    rw [List.cons_append, BuildLoop, e]
    simp only []
    rw [ih tail (some b) s (fun x hx => hw x (List.mem_cons_of_mem _ hx)) hh, lastOr_cons]

/-- Claim C25: for every line, every token sequence that `Build` produces contains no empty
string; and `Build` produces a token sequence for every line that does not start with a double
quote. -/
theorem Build_no_empty_token (target : String) :
    (target.data.head? ≠ some '"' → ∃ toks, tokens target = .ok toks) ∧
    ∀ toks, tokens target = .ok toks → "" ∉ toks := by
  cases hd : target.data with
  | nil =>
    have ht : target = "" := by
      cases target
      simp only at hd
      subst hd
      rfl
    subst ht
    refine ⟨fun _ => ⟨[], by decide⟩, ?_⟩
    intro toks h
    have h2 : tokens "" = .ok [] := by decide
    rw [h2] at h
    cases h
    simp
  | cons c rest =>
    have hne : target.data ≠ [] := by simp [hd]
    rw [tokens_eq target hne, hd]
    constructor
    · intro hq
      have h3 : c ≠ '"' := by simpa using hq
      obtain ⟨s1, h1⟩ := BuildStep_first_total c rest.head? h3
      obtain ⟨t, ht⟩ := BuildLoop_total rest c s1
      exact ⟨t.output, by simp only [BuildLoop, h1, ht]⟩
    · intro toks h
      cases hl : BuildLoop none (c :: rest) BuildState.init with
      | error e => simp [hl] at h
      | ok t =>
        simp only [hl, Except.ok.injEq] at h
        subst h
        exact BuildLoop_no_empty _ _ _ _ hl (by simp [BuildState.init])

theorem Build_no_empty_token_witness :
    ("a(b)".data.head? ≠ some '"' ∧ tokens "a(b)" = .ok ["a", "(", "b", ")"]) ∧
    "" ∉ ["a", "(", "b", ")"] :=
  ⟨by decide, (Build_no_empty_token "a(b)").2 ["a", "(", "b", ")"] (by decide)⟩

/-- Claim C26, as the code behaves: for a line `s` whose first character `c` is neither a blank
nor a double quote and every `w` of spaces and tabs, `Build` on `w ++ s` gives the tokens of
`Build` on `s`. When `c` is a double quote, `Build` on `s` evaluates `target[i - 1]` at
`i = 0`, before the test `i - 1 >= 0`, which is outside the line, while `Build` on `w ++ s`
with a non-empty `w` reads the last blank there and produces a token sequence: the two runs do
not agree. -/
theorem Build_leading_blanks (w s : String) (c : Char) (rest : List Char)
    (hs : s.data = c :: rest) (hc : c ≠ ' ' ∧ c ≠ '\t')
    (hw : ∀ b ∈ w.data, b = ' ' ∨ b = '\t') :
    (c ≠ '"' → tokens (w ++ s) = tokens s) ∧
    (c = '"' → w.data ≠ [] →
      tokens s = .error .outOfRange ∧ ∃ toks, tokens (w ++ s) = .ok toks) := by
  have hsne : s.data ≠ [] := by simp [hs]
  have hwsne : (w ++ s).data ≠ [] := by simp [hs]
  have hloop : BuildLoop none ((w ++ s).data) BuildState.init =
      BuildLoop (lastOr none w.data) (c :: rest) BuildState.init := by
    rw [String.data_append, hs]
    exact BuildLoop_head_blanks w.data (c :: rest) none BuildState.init hw rfl
  constructor
  · intro h3
    rw [tokens_eq _ hwsne, tokens_eq _ hsne, hloop, hs, BuildLoop, BuildLoop,
      BuildStep_prev (lastOr none w.data) none c rest.head? _ hc.1 hc.2 h3]
  · intro h3 hwne
    subst h3
    constructor
    · rw [tokens_eq _ hsne, hs]
      rfl
    · rw [tokens_eq _ hwsne, hloop]
      cases hl : w.data.getLast? with
      | none => simp [List.getLast?_eq_none_iff] at hl; exact absurd hl hwne
      | some p =>
        have hp : lastOr none w.data = some p := by simp [lastOr, hl]
        rw [hp]
        obtain ⟨t, ht⟩ := BuildLoop_total ('"' :: rest) p BuildState.init
        exact ⟨t.output, by rw [ht]⟩

theorem Build_leading_blanks_witness :
    (("\"a\"".data = '"' :: "a\"".data ∧ ('"' ≠ ' ' ∧ '"' ≠ '\t') ∧
      ∀ b ∈ " ".data, b = ' ' ∨ b = '\t') ∧ " ".data ≠ []) ∧
    tokens "\"a\"" = .error .outOfRange ∧ ∃ toks, tokens (" " ++ "\"a\"") = .ok toks :=
  ⟨by decide,
    (Build_leading_blanks " " "\"a\"" '"' "a\"".data rfl (by decide) (by decide)).2 rfl
      (by decide)⟩

/-! ### The step `StartCode` -/

theorem StartCodeLoop_spec : ∀ (j : Nat) (container0 item : List String),
    StartCodeLoop j container0 item =
      (container0 ++ item.reverse.take (min j item.length),
       item.take (item.length - min j item.length)) := by
  intro j
  induction j with
  | zero => intro container0 item; simp [StartCodeLoop]
  | succ j ih =>
    intro container0 item
    rcases List.eq_nil_or_concat item with h | ⟨dl, x, h⟩
    · subst h; simp [StartCodeLoop]
    · subst h
      have hle : dl.length - min j dl.length ≤ dl.length := Nat.sub_le _ _
      have hm : min (j + 1) (dl.length + 1) = min j dl.length + 1 := by omega
      have ht : dl.length + 1 - (min j dl.length + 1) = dl.length - min j dl.length := by omega
      have hg : (dl ++ [x]).getLast? = some x := by simp
      have hdl : (dl ++ [x]).dropLast = dl := by simp
      simp only [List.concat_eq_append, StartCodeLoop, hg, hdl, ih]
      simp only [List.length_append, List.length_singleton, hm, ht, List.reverse_append,
        List.reverse_cons, List.reverse_nil, List.nil_append, List.singleton_append,
        List.take_succ_cons, List.append_assoc, List.take_append_of_le_length hle]

theorem StartActivity_total (e : EntryProvider) (p : List String) (w : World)
    (hcall : (if e.priority = kFlagPluginEntry then e.activity2.isSome else e.activity.isSome)
      = true) :
    ∃ temp w1, e.StartActivity p w = .ok (temp, w1) := by
  unfold EntryProvider.StartActivity
  by_cases hp : e.priority = kFlagPluginEntry
  · simp only [hp, if_true] at hcall
    obtain ⟨f, hf⟩ := Option.isSome_iff_exists.mp hcall
    simp [hp, hf]
  · simp only [hp, if_false] at hcall
    obtain ⟨f, hf⟩ := Option.isSome_iff_exists.mp hcall
    have hp2 : (e.priority == kFlagPluginEntry) = false := by simpa using hp
    simp only [hp2, hf]
    simp only [Bool.false_eq_true, if_false]
    repeat' split
    all_goals exact ⟨_, _, rfl⟩

theorem ActivityStart_good (provider : EntryProvider) (container : List String)
    (s : StartState) (temp : Message) (w1 : World) (hg : provider.Good = true)
    (hs : provider.StartActivity container s.world = .ok (temp, w1)) :
    ∃ t, Util.ActivityStart provider container s = .ok (true, t) ∧
      t.item = s.item ++ [if temp.value == kStrRedirect then temp.detail
                          else if temp.code == kCodeSuccess || temp.code == kCodeNothing
                          then kStrTrue else kStrFalse] ∧
      t.container0 = s.container0 ∧ t.symbol = s.symbol := by
  unfold Util.ActivityStart
  simp only [hg, if_true, hs]
  by_cases h1 : temp.code < kCodeSuccess <;> by_cases h2 : (temp.value == kStrRedirect) = true <;>
    by_cases h3 : (temp.code == kCodeSuccess || temp.code == kCodeNothing) = true <;>
    simp only [h1, h2, h3, if_true, if_false] <;>
    exact ⟨_, rfl, rfl, rfl, rfl⟩

theorem StartCode_counterexample :
    (sampleOddEntries.1.Good = true ∧ 0 ≤ sampleOddEntries.1.requiredcount ∧
      ∃ t, StartCode { StartState.init ⟨[], []⟩ with
                       item := ["a", "b"], symbol := ["+"], provider := sampleOddEntries.1 } =
             .ok (true, t) ∧
           t.container0 = ["b", "a", "+"] ∧ t.item = [kStrFalse]) ∧
    (sampleOddEntries.2.Good = true ∧ 0 ≤ sampleOddEntries.2.requiredcount ∧
      StartCode { StartState.init ⟨[], []⟩ with
                  item := ["a"], symbol := ["plug"], provider := sampleOddEntries.2 } =
        .error .nullDeref) := by
  refine ⟨⟨by decide, by decide, ⟨_, rfl, rfl, rfl⟩⟩, by decide, by decide, rfl⟩

/-- Claim C28, amended: for every Good entry whose required count is `n` with
`0 ≤ n < 2 ^ 31`, whose callable for its tier is present, and which, when it is of the tier
`BinaryOperator`, has `1 ≤ n` and is run with a non-empty symbol stack: with `n' = n - 1` for
the tier `BinaryOperator` and `n' = n` otherwise and `k = min n' m` on an item stack of `m`
items, `StartCode` returns true, the argument list it passes to `StartActivity` is the last `k`
items in reverse push order, followed by the top of the symbol stack for the tier
`BinaryOperator`, the item stack afterwards is its first `m - k` items followed by exactly
one pushed item (the detail of a redirected result, otherwise the text of true or false),
`m - k + 1` items in all, and the symbol stack is unchanged. -/
theorem StartCode_takes_arguments (s : StartState) (n k : Nat)
    (hg : s.provider.Good = true) (hn : s.provider.requiredcount = (n : Int))
    (hlt : n < 2 ^ 31)
    (hbin : s.provider.priority = kFlagBinEntry → 1 ≤ n ∧ s.symbol ≠ [])
    (hcall : (if s.provider.priority = kFlagPluginEntry then s.provider.activity2.isSome
              else s.provider.activity.isSome) = true)
    (hk : k = min (if s.provider.priority = kFlagBinEntry then n - 1 else n) s.item.length) :
    ∃ t temp w1, StartCode s = .ok (true, t) ∧
      t.container0 = s.item.reverse.take k ++
        (if s.provider.priority = kFlagBinEntry then s.symbol.getLast?.toList else []) ∧
      s.provider.StartActivity t.container0 s.world = .ok (temp, w1) ∧
      t.item = s.item.take (s.item.length - k) ++
        [if temp.value == kStrRedirect then temp.detail
         else if temp.code == kCodeSuccess || temp.code == kCodeNothing
         then kStrTrue else kStrFalse] ∧
      t.item.length = s.item.length - k + 1 ∧ t.symbol = s.symbol := by
  have hsz : toSizeT s.provider.requiredcount = n := by
    have h := toSizeT_of_nonneg (n : Int) (Int.ofNat_nonneg n) (by exact_mod_cast hlt)
    rw [hn]
    exact_mod_cast h
  have hlen : ∀ (l : List String) (x : String),
      (l.take (l.length - k) ++ [x]).length = l.length - k + 1 := by
    intro l x
    simp
  unfold StartCode
  simp only [hsz, StartCodeLoop_spec, List.nil_append]
  by_cases hp : s.provider.priority = kFlagBinEntry
  · obtain ⟨h1, hsym⟩ := hbin hp
    have hsub : subSizeT n 1 = n - 1 := by
      unfold subSizeT
      have h2 : ((n : Int) - 1) = ((n - 1 : Nat) : Int) := by omega
      have h3 : (((n - 1 : Nat) : Int)) < 2 ^ 64 := by
        have : (n : Int) < 2 ^ 31 := by exact_mod_cast hlt
        omega
      rw [h2, Int.emod_eq_of_lt (Int.ofNat_nonneg _) h3]
      simp
    have hpb : (s.provider.priority == kFlagBinEntry) = true := by simpa using hp
    simp only [hp, if_true] at hk
    obtain ⟨top, htop⟩ : ∃ top, s.symbol.getLast? = some top := by
      cases hl : s.symbol.getLast? with
      | none => exact absurd (List.getLast?_eq_none_iff.mp hl) hsym
      | some top => exact ⟨top, rfl⟩
    have hnp : ¬ (s.provider.priority = kFlagPluginEntry) := by
      rw [hp]; decide
    simp only [hnp, if_false] at hcall
    simp only [hpb, if_true, hsub, back, htop, if_pos hp, Option.toList]
    simp only [← hk]
    obtain ⟨temp, w1, hst⟩ := StartActivity_total s.provider (s.item.reverse.take k ++ [top])
      s.world (by simp only [hnp, if_false]; exact hcall)
    obtain ⟨t, ht, hi, hc0, hsy⟩ := ActivityStart_good s.provider
      (s.item.reverse.take k ++ [top])
      { s with container0 := s.item.reverse.take k ++ [top],
               item := s.item.take (s.item.length - k) } temp w1 hg hst
    refine ⟨t, temp, w1, ht, hc0, ?_, hi, ?_, hsy⟩
    · rw [hc0]; exact hst
    · rw [hi]; exact hlen _ _
  · have hpb : (s.provider.priority == kFlagBinEntry) = false := by simpa using hp
    simp only [hp, if_false] at hk
    simp only [hpb, Bool.false_eq_true, if_false, if_neg hp, List.append_nil]
    simp only [← hk]
    obtain ⟨temp, w1, hst⟩ := StartActivity_total s.provider (s.item.reverse.take k)
      s.world hcall
    obtain ⟨t, ht, hi, hc0, hsy⟩ := ActivityStart_good s.provider
      (s.item.reverse.take k)
      { s with container0 := s.item.reverse.take k,
               item := s.item.take (s.item.length - k) } temp w1 hg hst
    refine ⟨t, temp, w1, ht, hc0, ?_, hi, ?_, hsy⟩
    · rw [hc0]; exact hst
    · rw [hi]; exact hlen _ _

theorem StartCode_takes_arguments_witness :
    ∃ t temp w1,
      StartCode { StartState.init ⟨[], []⟩ with
                  item := ["a", "b", "c"], symbol := ["pair"], provider := sampleEntry } =
        .ok (true, t) ∧
      t.container0 = ["a", "b", "c"].reverse.take 2 ++
        (if sampleEntry.priority = kFlagBinEntry then (["pair"] : List String).getLast?.toList
         else []) ∧
      sampleEntry.StartActivity t.container0 ⟨[], []⟩ = .ok (temp, w1) ∧
      t.item = ["a", "b", "c"].take (3 - 2) ++
        [if temp.value == kStrRedirect then temp.detail
         else if temp.code == kCodeSuccess || temp.code == kCodeNothing
         then kStrTrue else kStrFalse] ∧
      t.item.length = 3 - 2 + 1 ∧ t.symbol = ["pair"] :=
  StartCode_takes_arguments
    { StartState.init ⟨[], []⟩ with
      item := ["a", "b", "c"], symbol := ["pair"], provider := sampleEntry } 2 2
    (by decide) rfl (by decide) (by decide) (by decide) (by decide)

/-! ### The symbol stack at an operator token -/

theorem insertAt_length (d : List String) (pos : Nat) (x : String) (r : List String)
    (h : insertAt d pos x = .ok r) : r.length = d.length + 1 := by
  unfold insertAt at h
  split at h
  · cases h
    rename_i hle
    simp only [List.length_append, List.length_cons, List.length_take, List.length_drop]
    omega
  · cases h

theorem StartOperator_length (base : List EntryProvider) (tok : String) (s t : StartState)
    (h : StartOperator base tok s = .ok t) : t.symbol.length = s.symbol.length + 1 := by
  unfold StartOperator at h
  cases hb : back s.symbol with
  | error e => simp [hb] at h
  | ok top =>
    simp only [hb] at h
    split at h
    · cases hsc : ScanLoop base tok s.symbol s.item (s.symbol.length - 1) s.item.length with
      | error e => simp [hsc] at h
      | ok jk =>
        obtain ⟨j, k⟩ := jk
        simp only [hsc] at h
        cases hi : insertAt s.symbol (j + 1) tok with
        | error e => simp [hi] at h
        | ok symbol =>
          simp only [hi, Except.ok.injEq] at h
          subst h
          exact insertAt_length _ _ _ _ hi
    · simp only [Except.ok.injEq] at h
      subst h
      simp

/-- Claim C31, as the code behaves: the test `raw[i] == "="` of line 406 is not chained to the
tests that follow it, so an `=` token is pushed there (unless the top of the symbol stack is
`var`) and pushed again by the operator branch of lines 458 to 479. For every registry and
every state whose symbol stack has the top `top`, the token `=` leaves the symbol stack
followed by two `=` when `top` is not `var` (its length grows by two) and by one `=` when it
is. A token that matches `kPatternSymbol` and is none of the double quote, `(`, `)` and `=`
grows the symbol stack by exactly one whenever its processing returns; it does not return on
`+` over the symbol stack `["*"]`, where the insertion point scan leaves the stack. -/
theorem Start_assignment_pushed_twice (base : List EntryProvider) (s : StartState)
    (top : String) (htop : s.symbol.getLast? = some top) :
    (∃ t, StartToken base "=" s = .ok (t, false) ∧
      t.symbol = (if top = "var" then s.symbol ++ ["="] else s.symbol ++ ["=", "="]) ∧
      t.symbol.length = (if top = "var" then s.symbol.length + 1 else s.symbol.length + 2)) ∧
    (∀ (tok : String) (t : StartState) (b : Bool), kPatternSymbol tok = true →
      tok ≠ "\"" → tok ≠ "(" → tok ≠ ")" → tok ≠ "=" →
      StartToken base tok s = .ok (t, b) → t.symbol.length = s.symbol.length + 1) ∧
    (s.symbol = ["*"] → StartToken base "+" s = .error .atThrows) := by
  have hp : kPatternSymbol "=" = true := by decide
  refine ⟨?_, ?_, ?_⟩
  · by_cases hv : top = "var"
    · subst hv
      refine ⟨{ s with symbol := s.symbol ++ ["="] }, ?_, by simp, by simp⟩
      simp [StartToken, hp, StartSymbol, StartOperator, back, htop, GetPriority]
    · have hvb : (top != "var") = true := by simpa using hv
      refine ⟨{ s with symbol := s.symbol ++ ["=", "="] }, ?_, by simp [hv], by simp [hv]⟩
      simp [StartToken, hp, StartSymbol, StartOperator, back, htop, GetPriority, hv]
  · intro tok t b hk h1 h2 h3 h4 h
    have e1 : (tok == "\"") = false := by simpa using h1
    have e2 : (tok == "(") = false := by simpa using h2
    have e3 : (tok == ")") = false := by simpa using h3
    have e4 : (tok == "=") = false := by simpa using h4
    simp only [StartToken, hk, if_true, StartSymbol, e1, e2, e3, e4, Bool.false_eq_true,
      if_false] at h
    by_cases hc : (tok == ",") = true
    · simp only [hc, if_true] at h
      cases h
      simp
    · simp only [hc, if_false] at h
      cases ho : StartOperator base tok s with
      | error e => simp [ho] at h
      | ok s2 =>
        simp only [ho] at h
        cases h
        exact StartOperator_length _ _ _ _ ho
  · intro hs
    have hq : kPatternSymbol "+" = true := by decide
    simp [StartToken, hq, StartSymbol, StartOperator, back, hs, ScanLoop, GetPriority]

theorem Start_assignment_pushed_twice_witness :
    (["x"] : List String).getLast? = some "x" ∧
    ∃ t, StartToken (binexpRegistry toString toString) "="
          { StartState.init ⟨[], []⟩ with symbol := ["x"] } = .ok (t, false) ∧
      t.symbol = (if "x" = "var" then ["x"] ++ ["="] else ["x"] ++ ["=", "="]) ∧
      t.symbol.length = (if "x" = "var" then 1 + 1 else 1 + 2) :=
  ⟨rfl, (Start_assignment_pushed_twice (binexpRegistry toString toString)
    { StartState.init ⟨[], []⟩ with symbol := ["x"] } "x" rfl).1⟩

/-! ### `Push` followed by `Pop` -/

theorem Push_then_Pop_counterexample :
    ∃ sc1 s1 sc2 s2,
      (ObjectStack.SetDelegatedRoot ⟨fun _ => none, 1⟩ ObjectStack.new 0).2.base_ = [1] ∧
      ObjectStack.Push (ObjectStack.SetDelegatedRoot ⟨fun _ => none, 1⟩ ObjectStack.new 0).1
        (ObjectStack.SetDelegatedRoot ⟨fun _ => none, 1⟩ ObjectStack.new 0).2 true =
        .ok (sc1, s1) ∧
      ObjectStack.Pop sc1 s1 = .ok (sc2, s2) ∧ s2.base_ = [] :=
  ⟨_, _, _, _, rfl, rfl, rfl, rfl⟩

/-- Claim C32, amended: for every scope stack that is not in the delegated-root state (one
container and the delegated flag set) and every argument, `Push` followed by `Pop` returns,
leaves the list of containers as it was before the `Push`, and leaves every container other
than the new one as it was. In the delegated-root state `Push` only clears the delegated flag,
so the `Pop` that follows removes the delegated root and the list of containers is empty. -/
theorem Push_then_Pop (sc : Scopes) (s : ObjectStack) (b : Bool) :
    (¬ (s.base_.length = 1 ∧ s.delegated_ = true) →
      ∃ sc1 s1 sc2 s2, ObjectStack.Push sc s b = .ok (sc1, s1) ∧
        ObjectStack.Pop sc1 s1 = .ok (sc2, s2) ∧ s2.base_ = s.base_ ∧
        s2.base_.length = s.base_.length ∧
        ∀ a, a ≠ sc.next → sc2.cells a = sc.cells a) ∧
    (s.base_.length = 1 ∧ s.delegated_ = true →
      ∃ sc2 s2, ObjectStack.Push sc s b = .ok (sc, { s with delegated_ := false }) ∧
        ObjectStack.Pop sc { s with delegated_ := false } = .ok (sc2, s2) ∧
        s2.base_ = [] ∧ s2.base_ ≠ s.base_) := by
  constructor
  · intro hn
    have hc : (s.base_.length == 1 && s.delegated_) = false := by
      cases hd : s.delegated_ with
      | false => simp
      | true =>
        have : ¬ s.base_.length = 1 := fun h => hn ⟨h, hd⟩
        simp [this]
    refine ⟨⟨(sc.cells.set sc.next (some ObjectContainer.new.move)).set sc.next
        (some { ObjectContainer.new.move with
          prev_ := if b then s.base_.getLast? else s.base_.head? }), sc.next + 1⟩,
      { s with base_ := s.base_ ++ [sc.next] },
      ⟨((sc.cells.set sc.next (some ObjectContainer.new.move)).set sc.next
        (some { ObjectContainer.new.move with
          prev_ := if b then s.base_.getLast? else s.base_.head? })).set sc.next none,
        sc.next + 1⟩,
      { s with base_ := s.base_ }, ?_, ?_, rfl, rfl, ?_⟩
    · simp [ObjectStack.Push, hc, ObjectContainer.SetPreviousContainer, Containers_set_same,
        ObjectContainer.move, ObjectContainer.new]
    · simp [ObjectStack.Pop]
    · intro a ha
      simp [Containers.set, ha]
  · intro ⟨hone, hd⟩
    obtain ⟨x, hx⟩ : ∃ x, s.base_ = [x] := List.length_eq_one.mp hone
    refine ⟨⟨sc.cells.set x none, sc.next⟩, { s with base_ := [], delegated_ := false }, ?_, ?_,
      rfl, ?_⟩
    · simp [ObjectStack.Push, hone, hd]
    · simp [ObjectStack.Pop, hx]
    · simp [hx]

theorem Push_then_Pop_witness :
    ¬ (([3, 4] : List Nat).length = 1 ∧ false = true) ∧
    ∃ sc1 s1 sc2 s2,
      ObjectStack.Push ⟨fun _ => none, 5⟩ ⟨none, [3, 4], none, false⟩ true = .ok (sc1, s1) ∧
      ObjectStack.Pop sc1 s1 = .ok (sc2, s2) ∧ s2.base_ = [3, 4] ∧
      s2.base_.length = ([3, 4] : List Nat).length ∧
      ∀ a, a ≠ 5 → sc2.cells a = (fun _ => none : Containers) a :=
  ⟨by decide,
   (Push_then_Pop ⟨fun _ => none, 5⟩ ⟨none, [3, 4], none, false⟩ true).1 (by decide)⟩

/-! ### Element access of the string types -/

theorem toInt32_small (n : Nat) (h : n < 2 ^ 31) : toInt32 n = n := by
  unfold toInt32
  have h1 : (n : Int) < 2 ^ 31 := by exact_mod_cast h
  have h0 : (0 : Int) ≤ n := Int.ofNat_nonneg n
  rw [Int.emod_eq_of_lt (by omega) (by omega)]
  omega

/-- Claim C33, as the code behaves: the test of line 54 is `idx > size && idx >= 0`. For every
string of length `n` (below `2 ^ 31`) and every `int` index, `StringFamilyGetElement` returns
the FatalError result "Index out of range." with the illegal-parameter code for every
`idx ≤ n`, which includes every index of a character (`0 ≤ idx < n`), and for every `idx > n`
it takes the other branch and evaluates `str[idx]`, a read outside the string. It returns the
element for no index. -/
theorem StringFamilyGetElement_test_inverted (str typeId methods : String) (idx : Int)
    (hn : str.data.length < 2 ^ 31) (hi : idx < 2 ^ 31) :
    (idx ≤ str.data.length →
      StringFamilyGetElement str typeId methods idx =
        .ok ⟨⟨kStrFatalError, kCodeIllegalParm, "Index out of range."⟩, none⟩) ∧
    ((str.data.length : Int) < idx →
      StringFamilyGetElement str typeId methods idx = .error .outOfRange) := by
  have hsz : toInt32 str.length = (str.length : Int) := toInt32_small _ hn
  constructor
  · intro hle
    have hc : ¬ ((str.length : Int) < idx) := not_lt.mpr hle
    simp [StringFamilyGetElement, hsz, hc, Message.combo]
  · intro hlt
    have h0 : 0 ≤ idx := by omega
    have ht : toSizeT idx = idx.toNat := by
      unfold toSizeT
      rw [Int.emod_eq_of_lt h0 (by omega)]
    have hgt : str.data.length < idx.toNat := by omega
    have hg : str.data[idx.toNat]? = none := List.getElem?_eq_none (by omega)
    have hne : ¬ (idx.toNat = str.length) := by
      show ¬ (idx.toNat = str.data.length)
      omega
    have hlt2 : (str.length : Int) < idx := hlt
    simp [StringFamilyGetElement, hsz, hlt2, h0, ht, stringAt, hg, hne]

theorem StringFamilyGetElement_test_inverted_witness :
    ("abc".data.length < 2 ^ 31 ∧ (1 : Int) < 2 ^ 31 ∧ (1 : Int) ≤ "abc".data.length) ∧
    StringFamilyGetElement "abc" "string" "size|__at" 1 =
      .ok ⟨⟨kStrFatalError, kCodeIllegalParm, "Index out of range."⟩, none⟩ :=
  ⟨by decide,
   (StringFamilyGetElement_test_inverted "abc" "string" "size|__at" 1 (by decide)
     (by decide)).1 (by decide)⟩

end Kagami
